import Mathlib

/-!
# Reconciliation of system transactions against bank statements

A shallow embedding of `Reconcile` (src/main.go, lines 229-291) and of the
`float64` arithmetic it uses, followed by the properties of the
reconciliation report.

Amounts are `float64` in the source.  `Reconcile` is written over an
arbitrary amount type with the five operations the source uses
(`-`, `math.Abs`, `+=`, `<`, decimal constants), and is instantiated

* at `F64`, a bit-exact model of IEEE 754 binary64 with round-to-nearest-even
  (what the Go program computes), and
* at `ℚ`, exact arithmetic.

Counters are Go `int`; each is bounded by a slice length, so no counter can
overflow and they are modelled by `Nat`.
-/

namespace Banking

/-! ## The float64 model -/

/-- A `float64` value.  A finite value is a sign and a magnitude `k`, standing
for `(-1)^neg * k * 2^(-1074)`: every finite binary64 number is an integer
multiple of the smallest subnormal `2^(-1074)`. -/
inductive F64 where
  | nan : F64
  | inf (neg : Bool) : F64
  | fin (neg : Bool) (k : Nat) : F64
  deriving DecidableEq

namespace F64

/-- The integer part of the binary logarithm of `n`, for `1 ≤ n < 2^4096`,
by bisection on the exponent. -/
def ilog2 (n : Nat) : Nat :=
  [2048, 1024, 512, 256, 128, 64, 32, 16, 8, 4, 2, 1].foldl
    (fun e j => if 2 ^ (e + j) ≤ n then e + j else e) 0

/-- Round the non-negative rational `n / d`, given in units of `2^(-1074)`,
to the nearest binary64 value, ties to even; magnitudes that round to
`2^1024` or more overflow to infinity. -/
@[irreducible]
def roundUnits (neg : Bool) (n d : Nat) : F64 :=
  let q0 := n / d
  if 2 ^ 2099 ≤ q0 then inf neg
  else
    let s := if q0 < 2 ^ 53 then 0 else ilog2 q0 - 52
    let d1 := d * 2 ^ s
    let q := n / d1
    let r := n % d1
    let q1 := if d1 < 2 * r ∨ (2 * r = d1 ∧ q % 2 = 1) then q + 1 else q
    let k := q1 * 2 ^ s
    if k < 2 ^ 2098 then fin neg k else inf neg

/-- The decimal constant `m / 10^e`, correctly rounded (Go constant conversion
and `strconv.ParseFloat`). -/
def lit (m e : Nat) : F64 := roundUnits false (m * 2 ^ 1074) (10 ^ e)

/-- Negation flips the sign bit. -/
def neg : F64 → F64
  | nan => nan
  | inf s => inf (!s)
  | fin s k => fin (!s) k

/-- The signed integer `(-1)^s * k`. -/
def signed (s : Bool) (k : Nat) : Int := if s then -(k : Int) else (k : Int)

/-- IEEE 754 addition, round to nearest even. -/
def add : F64 → F64 → F64
  | nan, _ => nan
  | _, nan => nan
  | inf s, inf t => if s = t then inf s else nan
  | inf s, fin _ _ => inf s
  | fin _ _, inf t => inf t
  | fin s a, fin t b =>
    let c := signed s a + signed t b
    if c = 0 then fin (s && t) 0
    else roundUnits (decide (c < 0)) c.natAbs 1

/-- IEEE 754 subtraction: `x - y = x + (-y)`. -/
def sub (x y : F64) : F64 := add x (neg y)

/-- The function `math.Abs` clears the sign bit. -/
def abs : F64 → F64
  | nan => nan
  | inf _ => inf false
  | fin _ k => fin false k

/-- The comparison `x < y`; false whenever an operand is NaN. -/
def lt : F64 → F64 → Bool
  | nan, _ => false
  | _, nan => false
  | inf s, inf t => s && !t
  | inf s, fin _ _ => s
  | fin _ _, inf t => !t
  | fin s a, fin t b => decide (signed s a < signed t b)

/-- The rational value of a finite float; NaN and the infinities have none. -/
def toRat : F64 → Option ℚ
  | nan => none
  | inf _ => none
  | fin s k => some ((signed s k : ℚ) / 2 ^ 1074)

end F64

/-! ## Arithmetic on amounts -/

/-- The operations on amounts used by lines 243-252 of src/main.go:
the zero value, decimal constants `m / 10^e`, `-`, `math.Abs`, `+` and `<`. -/
structure Arith (α : Type) where
  zero : α
  lit : Nat → Nat → α
  sub : α → α → α
  abs : α → α
  add : α → α → α
  lt : α → α → Bool

/-- The arithmetic of the Go program: IEEE 754 binary64. -/
def f64 : Arith F64 where
  zero := F64.fin false 0
  lit := F64.lit
  sub := F64.sub
  abs := F64.abs
  add := F64.add
  lt := F64.lt

/-- Exact arithmetic on rationals. -/
def exact : Arith ℚ where
  zero := 0
  lit := fun m e => (m : ℚ) / (10 : ℚ) ^ e
  sub := fun x y => x - y
  abs := fun x => |x|
  add := fun x y => x + y
  lt := fun x y => decide (x < y)

/-! ## Data model (src/main.go, lines 22-52) -/

/-- A ledger record. -/
structure SystemTransaction (α : Type) where
  TrxID : String
  Amount : α
  Type_ : String
  TransactionTime : String
  deriving DecidableEq

/-- A bank statement record; `FilePath` is its origin. -/
structure BankStatement (α : Type) where
  UniqueIdentifier : String
  Amount : α
  Date : String
  FilePath : String
  deriving DecidableEq

/-- The unmatched-ledger section of the report. -/
structure SysUnMatchedTransDetails (α : Type) where
  TotalSystemTransMissingBank : Nat
  SystemTransMissingBankList : List (SystemTransaction α)
  deriving DecidableEq

/-- The unmatched statements of one origin. -/
structure ThisBankUnMatchedTransDetails (α : Type) where
  ThisBankUnMatchedTransCount : Nat
  ThisBankUnMatchedTransList : List (BankStatement α)
  deriving DecidableEq

/-- A Go `map[string]V`, as an association list; the operations below keep
the keys distinct. -/
abbrev GoMap (V : Type) := List (String × V)

namespace GoMap

/-- The lookup `m[k]`; `none` when the key is absent. -/
def get {V : Type} (m : GoMap V) (k : String) : Option V := List.lookup k m

/-- The assignment `m[k] = v`. -/
def set {V : Type} : GoMap V → String → V → GoMap V
  | [], k, v => [(k, v)]
  | (k1, v1) :: m, k, v => if k1 = k then (k, v) :: m else (k1, v1) :: set m k v

/-- The keys of the map. -/
def keys {V : Type} (m : GoMap V) : List String := m.map Prod.fst

end GoMap

/-- The reconciliation report. -/
structure ReconcillationResult (α : Type) where
  TotalTransactions : Nat
  TotalMatchedTransactions : Nat
  SysUnMatchedDetail : SysUnMatchedTransDetails α
  BankUnMatchedTransactionsDetail : GoMap (ThisBankUnMatchedTransDetails α)
  TotalDiscrepanciesAmount : α
  deriving DecidableEq

/-! ## Reconcile (src/main.go, lines 229-291) -/

/-- The variables the matching loop updates: the report under construction
and the consumed markers. -/
structure LoopState (α : Type) where
  reconcillationResult : ReconcillationResult α
  alreadyMatch : List Bool
  deriving DecidableEq

/-- The test of line 243: same date and `math.Abs(sysTx.Amount-bankTx.Amount) < 0.50`. -/
def candidate {α : Type} (A : Arith α) (sysTx : SystemTransaction α)
    (bankTx : BankStatement α) : Bool :=
  decide (sysTx.TransactionTime = bankTx.Date) &&
    A.lt (A.abs (A.sub sysTx.Amount bankTx.Amount)) (A.lit 50 2)

/-- Lines 244-252: the updates made when `bankTxs[i]` is taken as partner. -/
def takeMatch {α : Type} (A : Arith α) (sysTx : SystemTransaction α)
    (bankTx : BankStatement α) (i : Nat) (st : LoopState α) : LoopState α :=
  let amtDiff := A.abs (A.sub sysTx.Amount bankTx.Amount)
  let r := st.reconcillationResult
  let r1 := { r with TotalMatchedTransactions := r.TotalMatchedTransactions + 1 }
  let r2 :=
    if A.lt (A.lit 1 2) amtDiff && A.lt amtDiff (A.lit 50 1) then
      { r1 with TotalDiscrepanciesAmount := A.add r1.TotalDiscrepanciesAmount amtDiff }
    else r1
  { reconcillationResult := r2, alreadyMatch := st.alreadyMatch.set i true }

/-- Lines 237-257: the scan of `bankTxs` from index `i` on, `rest` being the
statements not yet visited.  The second component is the `match` flag of the
source, carrying the index at which line 245 ran: `some i` for `match = true`.
An index out of range is a panic, `none`. -/
def innerLoop {α : Type} (A : Arith α) (sysTx : SystemTransaction α) :
    List (BankStatement α) → Nat → LoopState α → Option (LoopState α × Option Nat)
  | [], _, st => some (st, none)
  | bankTx :: rest, i, st =>
    match st.alreadyMatch[i]? with
    | none => none
    | some true => innerLoop A sysTx rest (i + 1) st
    | some false =>
      if candidate A sysTx bankTx then some (takeMatch A sysTx bankTx i st, some i)
      else innerLoop A sysTx rest (i + 1) st

/-- Lines 260-266: the ledger record is recorded as unmatched. -/
def recordUnmatched {α : Type} (sysTx : SystemTransaction α) (st : LoopState α) :
    LoopState α :=
  let r := st.reconcillationResult
  let d := r.SysUnMatchedDetail
  { st with reconcillationResult :=
      { r with SysUnMatchedDetail :=
          { TotalSystemTransMissingBank := d.TotalSystemTransMissingBank + 1,
            SystemTransMissingBankList := d.SystemTransMissingBankList ++ [sysTx] } } }

/-- Lines 235-267: the loop over the ledger.  Besides the final state it
returns, for each ledger record in order, the index of the partner chosen
for it (`none` when it was left unmatched). -/
def outerLoop {α : Type} (A : Arith α) (bankTxs : List (BankStatement α)) :
    List (SystemTransaction α) → LoopState α → Option (LoopState α × List (Option Nat))
  | [], st => some (st, [])
  | sysTx :: rest, st =>
    match innerLoop A sysTx bankTxs 0 st with
    | none => none
    | some (st1, m) =>
      let st2 := if m.isSome then st1 else recordUnmatched sysTx st1
      match outerLoop A bankTxs rest st2 with
      | none => none
      | some (st3, tr) => some (st3, m :: tr)

/-- Lines 270-278: the loop over `alreadyMatch` from index `i` on, grouping
the statements whose marker is false by `FilePath`. -/
def groupLoop {α : Type} (bankTxs : List (BankStatement α)) :
    List Bool → Nat → GoMap (List (BankStatement α)) →
      Option (GoMap (List (BankStatement α)))
  | [], _, missingBankTans => some missingBankTans
  | alreadyMatchFlag :: rest, i, missingBankTans =>
    if alreadyMatchFlag then groupLoop bankTxs rest (i + 1) missingBankTans
    else
      match bankTxs[i]? with
      | none => none
      | some pathKey =>
        groupLoop bankTxs rest (i + 1)
          (missingBankTans.set pathKey.FilePath
            (((missingBankTans.get pathKey.FilePath).getD []) ++ [pathKey]))

/-- Lines 282-288: every group is copied, with its length, into the report's
map.  The source ranges over a Go map, in an unspecified order; the keys are
distinct, so the resulting map does not depend on that order. -/
def detailLoop {α : Type} :
    List (String × List (BankStatement α)) → GoMap (ThisBankUnMatchedTransDetails α) →
      GoMap (ThisBankUnMatchedTransDetails α)
  | [], out => out
  | (path, eachBankTnxs) :: rest, out =>
    detailLoop rest
      (out.set path
        { ThisBankUnMatchedTransCount := eachBankTnxs.length,
          ThisBankUnMatchedTransList := eachBankTnxs })

/-- Lines 230-234: the state before the matching loop. -/
def initState {α : Type} (A : Arith α) (sysTxs : List (SystemTransaction α))
    (bankTxs : List (BankStatement α)) : LoopState α :=
  { reconcillationResult :=
      { TotalTransactions := sysTxs.length + bankTxs.length,
        TotalMatchedTransactions := 0,
        SysUnMatchedDetail :=
          { TotalSystemTransMissingBank := 0, SystemTransMissingBankList := [] },
        BankUnMatchedTransactionsDetail := [],
        TotalDiscrepanciesAmount := A.zero },
    alreadyMatch := List.replicate bankTxs.length false }

/-- The function `Reconcile`.  The result is `none` when the run panics;
otherwise it is the report together with the returned `error`
(`none` for `nil`). -/
def Reconcile {α : Type} (A : Arith α) (sysTxs : List (SystemTransaction α))
    (bankTxs : List (BankStatement α)) : Option (ReconcillationResult α × Option String) :=
  match outerLoop A bankTxs sysTxs (initState A sysTxs bankTxs) with
  | none => none
  | some (st, _) =>
    match groupLoop bankTxs st.alreadyMatch 0 [] with
    | none => none
    | some missingBankTans =>
      some ({ st.reconcillationResult with
                BankUnMatchedTransactionsDetail := detailLoop missingBankTans [] }, none)

/-- The pairing built by the matching loop: for each ledger record, in order,
the index of its partner in `bankTxs`. -/
def pairing {α : Type} (A : Arith α) (sysTxs : List (SystemTransaction α))
    (bankTxs : List (BankStatement α)) : Option (List (Option Nat)) :=
  (outerLoop A bankTxs sysTxs (initState A sysTxs bankTxs)).map Prod.snd

/-- The consumed markers after the matching loop. -/
def finalMarkers {α : Type} (A : Arith α) (sysTxs : List (SystemTransaction α))
    (bankTxs : List (BankStatement α)) : Option (List Bool) :=
  (outerLoop A bankTxs sysTxs (initState A sysTxs bankTxs)).map
    (fun p => p.1.alreadyMatch)

/-! ## Definitions used to state the properties -/

/-- The statements whose marker is false, in order. -/
def unmatchedOf {α : Type} (flags : List Bool) (bankTxs : List (BankStatement α)) :
    List (BankStatement α) :=
  ((bankTxs.zip flags).filter (fun p => !p.2)).map Prod.fst

/-- One pass of line 275 over a list of statements. -/
def groupInto {α : Type} (m : GoMap (List (BankStatement α)))
    (l : List (BankStatement α)) : GoMap (List (BankStatement α)) :=
  l.foldl (fun m b => m.set b.FilePath (((m.get b.FilePath).getD []) ++ [b])) m

/-- The entry the report holds for a group. -/
def toDetail {α : Type} (p : String × List (BankStatement α)) :
    String × ThisBankUnMatchedTransDetails α :=
  (p.1, { ThisBankUnMatchedTransCount := p.2.length, ThisBankUnMatchedTransList := p.2 })

/-- The number of statements held by a map of groups. -/
def groupedCount {α : Type} (m : GoMap (List (BankStatement α))) : Nat :=
  (m.map (fun p => p.2.length)).sum

/-- What one run of the matching loop does: the ledger processed, the state
before, the state after, and the partner chosen for each ledger record.
A record takes the first statement that is not consumed and passes the test
of line 243 (`hit`), or is recorded as unmatched when there is none (`miss`). -/
inductive Run {α : Type} (A : Arith α) (bankTxs : List (BankStatement α)) :
    List (SystemTransaction α) → LoopState α → LoopState α → List (Option Nat) → Prop
  | nil (st : LoopState α) : Run A bankTxs [] st st []
  | hit (sysTx : SystemTransaction α) (rest : List (SystemTransaction α))
      (st st1 : LoopState α) (tr : List (Option Nat)) (p : Nat) (b : BankStatement α) :
      bankTxs[p]? = some b → st.alreadyMatch[p]? = some false →
      candidate A sysTx b = true →
      (∀ (j : Nat) (b1 : BankStatement α), j < p → bankTxs[j]? = some b1 →
        st.alreadyMatch[j]? = some true ∨ candidate A sysTx b1 = false) →
      Run A bankTxs rest (takeMatch A sysTx b p st) st1 tr →
      Run A bankTxs (sysTx :: rest) st st1 (some p :: tr)
  | miss (sysTx : SystemTransaction α) (rest : List (SystemTransaction α))
      (st st1 : LoopState α) (tr : List (Option Nat)) :
      (∀ (j : Nat) (b1 : BankStatement α), bankTxs[j]? = some b1 →
        st.alreadyMatch[j]? = some true ∨ candidate A sysTx b1 = false) →
      Run A bankTxs rest (recordUnmatched sysTx st) st1 tr →
      Run A bankTxs (sysTx :: rest) st st1 (none :: tr)

/-- The ledger records left without partner, in order. -/
def unmatchedLedger {α : Type} (l : List (SystemTransaction α)) (tr : List (Option Nat)) :
    List (SystemTransaction α) :=
  ((l.zip tr).filter (fun q => q.2.isNone)).map Prod.fst

/-- The number of ledger records that found a partner. -/
def matchedCount (tr : List (Option Nat)) : Nat := tr.countP Option.isSome

/-- The test of line 250 on the difference of a matched pair: the difference
when it lies in the discrepancy band, nothing otherwise. -/
def contribution {α : Type} (A : Arith α) (sysTx : SystemTransaction α)
    (bankTx : BankStatement α) : Option α :=
  let amtDiff := A.abs (A.sub sysTx.Amount bankTx.Amount)
  if A.lt (A.lit 1 2) amtDiff && A.lt amtDiff (A.lit 50 1) then some amtDiff else none

/-- The differences of the matched pairs that lie in the discrepancy band, in
ledger order. -/
def contributions {α : Type} (A : Arith α) (bankTxs : List (BankStatement α))
    (l : List (SystemTransaction α)) (tr : List (Option Nat)) : List α :=
  (l.zip tr).filterMap
    (fun q => q.2.bind (fun p => (bankTxs[p]?).bind (fun b => contribution A q.1 b)))

/-- The markers consumed before the `k`-th ledger record is processed. -/
def consumedBefore (flags : List Bool) (tr : List (Option Nat)) (k j : Nat) : Prop :=
  flags[j]? = some true ∨ ∃ k1, k1 < k ∧ tr[k1]? = some (some j)

/-- The report assembled from the final state of the matching loop. -/
def reportOf {α : Type} (bankTxs : List (BankStatement α)) (st : LoopState α) :
    ReconcillationResult α :=
  { st.reconcillationResult with
    BankUnMatchedTransactionsDetail :=
      (groupInto [] (unmatchedOf st.alreadyMatch bankTxs)).map toDetail }

/-- The statements at the positions that are the partner of no ledger record,
in their input order. -/
def unpartnered {α : Type} (tr : List (Option Nat)) (bankTxs : List (BankStatement α)) :
    List (BankStatement α) :=
  (List.range bankTxs.length).filterMap (fun i => if some i ∈ tr then none else bankTxs[i]?)

/-- The report for one matched pair. -/
def matchedReport {α : Type} (A : Arith α) (L : SystemTransaction α)
    (S : BankStatement α) : ReconcillationResult α :=
  { TotalTransactions := 2,
    TotalMatchedTransactions := 1,
    SysUnMatchedDetail := { TotalSystemTransMissingBank := 0, SystemTransMissingBankList := [] },
    BankUnMatchedTransactionsDetail := [],
    TotalDiscrepanciesAmount :=
      if A.lt (A.lit 1 2) (A.abs (A.sub L.Amount S.Amount)) &&
          A.lt (A.abs (A.sub L.Amount S.Amount)) (A.lit 50 1) then
        A.add A.zero (A.abs (A.sub L.Amount S.Amount))
      else A.zero }

/-- The report for one ledger record and one statement that do not match. -/
def unmatchedReport {α : Type} (A : Arith α) (L : SystemTransaction α)
    (S : BankStatement α) : ReconcillationResult α :=
  { TotalTransactions := 2,
    TotalMatchedTransactions := 0,
    SysUnMatchedDetail :=
      { TotalSystemTransMissingBank := 1, SystemTransMissingBankList := [L] },
    BankUnMatchedTransactionsDetail :=
      [(S.FilePath, { ThisBankUnMatchedTransCount := 1, ThisBankUnMatchedTransList := [S] })],
    TotalDiscrepanciesAmount := A.zero }

/-- The ledger of `TestReconcile_MatchedAndDiscrepant` (src/main_test.go, lines 8-12). -/
def fixtureLedger {α : Type} (A : Arith α) : List (SystemTransaction α) :=
  [ { TrxID := "TXN001", Amount := A.lit 150050 2, Type_ := "DEBIT",
      TransactionTime := "2025-07-08" },
    { TrxID := "TXN002", Amount := A.lit 25075 2, Type_ := "CREDIT",
      TransactionTime := "2025-07-10" },
    { TrxID := "TXN003", Amount := A.lit 10000 2, Type_ := "CREDIT",
      TransactionTime := "2025-07-08" } ]

/-- The statements of `TestReconcile_MatchedAndDiscrepant` (src/main_test.go, lines 14-18). -/
def fixtureStatements {α : Type} (A : Arith α) : List (BankStatement α) :=
  [ { UniqueIdentifier := "BS001", Amount := A.lit 150020 2, Date := "2025-07-08",
      FilePath := "bank_A.csv" },
    { UniqueIdentifier := "BS002", Amount := A.lit 25075 2, Date := "2025-07-10",
      FilePath := "bank_A.csv" },
    { UniqueIdentifier := "BS003", Amount := A.lit 10500 2, Date := "2025-07-08",
      FilePath := "bank_A.csv" } ]

/-- The updates of `takeMatch`, with the test of line 250 reduced to
`amtDiff > 0.01`. -/
def takeMatchNoUpper {α : Type} (A : Arith α) (sysTx : SystemTransaction α)
    (bankTx : BankStatement α) (i : Nat) (st : LoopState α) : LoopState α :=
  let amtDiff := A.abs (A.sub sysTx.Amount bankTx.Amount)
  let r := st.reconcillationResult
  let r1 := { r with TotalMatchedTransactions := r.TotalMatchedTransactions + 1 }
  let r2 :=
    if A.lt (A.lit 1 2) amtDiff then
      { r1 with TotalDiscrepanciesAmount := A.add r1.TotalDiscrepanciesAmount amtDiff }
    else r1
  { reconcillationResult := r2, alreadyMatch := st.alreadyMatch.set i true }

/-- The scan of `innerLoop`, taking a partner with `takeMatchNoUpper`. -/
def innerLoopNoUpper {α : Type} (A : Arith α) (sysTx : SystemTransaction α) :
    List (BankStatement α) → Nat → LoopState α → Option (LoopState α × Option Nat)
  | [], _, st => some (st, none)
  | bankTx :: rest, i, st =>
    match st.alreadyMatch[i]? with
    | none => none
    | some true => innerLoopNoUpper A sysTx rest (i + 1) st
    | some false =>
      if candidate A sysTx bankTx then some (takeMatchNoUpper A sysTx bankTx i st, some i)
      else innerLoopNoUpper A sysTx rest (i + 1) st

/-- The loop of `outerLoop` over `innerLoopNoUpper`. -/
def outerLoopNoUpper {α : Type} (A : Arith α) (bankTxs : List (BankStatement α)) :
    List (SystemTransaction α) → LoopState α → Option (LoopState α × List (Option Nat))
  | [], st => some (st, [])
  | sysTx :: rest, st =>
    match innerLoopNoUpper A sysTx bankTxs 0 st with
    | none => none
    | some (st1, m) =>
      let st2 := if m.isSome then st1 else recordUnmatched sysTx st1
      match outerLoopNoUpper A bankTxs rest st2 with
      | none => none
      | some (st3, tr) => some (st3, m :: tr)

/-- The variant of `Reconcile` whose discrepancy test is only `amtDiff > 0.01`. -/
def ReconcileNoUpper {α : Type} (A : Arith α) (sysTxs : List (SystemTransaction α))
    (bankTxs : List (BankStatement α)) : Option (ReconcillationResult α × Option String) :=
  match outerLoopNoUpper A bankTxs sysTxs (initState A sysTxs bankTxs) with
  | none => none
  | some (st, _) =>
    match groupLoop bankTxs st.alreadyMatch 0 [] with
    | none => none
    | some missingBankTans =>
      some ({ st.reconcillationResult with
                BankUnMatchedTransactionsDetail := detailLoop missingBankTans [] }, none)

/-! ## The remove-from-list recursion -/

/-- The first statement of a list that passes the test of line 243 for
`sysTx`, together with the list without it. -/
def pick {α : Type} (A : Arith α) (sysTx : SystemTransaction α) :
    List (BankStatement α) → Option (BankStatement α × List (BankStatement α))
  | [] => none
  | b :: rest =>
    if candidate A sysTx b then some (b, rest)
    else (pick A sysTx rest).map (fun q => (q.1, b :: q.2))

/-- Greedy matching by removal: each ledger record, in order, takes the first
candidate of the statements still present.  The result is the partner of each
ledger record and the statements left at the end. -/
def greedy {α : Type} (A : Arith α) :
    List (SystemTransaction α) → List (BankStatement α) →
      List (Option (BankStatement α)) × List (BankStatement α)
  | [], U => ([], U)
  | sysTx :: rest, U =>
    match pick A sysTx U with
    | some (b, U1) => (some b :: (greedy A rest U1).1, (greedy A rest U1).2)
    | none => (none :: (greedy A rest U).1, (greedy A rest U).2)

/-- The differences in the discrepancy band of a ledger paired with partners. -/
def contribsOf {α : Type} (A : Arith α) (l : List (SystemTransaction α))
    (o : List (Option (BankStatement α))) : List α :=
  (l.zip o).filterMap (fun q => q.2.bind (fun b => contribution A q.1 b))

/-- The report computed from the remove-from-list recursion. -/
def greedyReport {α : Type} (A : Arith α) (l : List (SystemTransaction α))
    (S : List (BankStatement α)) : ReconcillationResult α :=
  { TotalTransactions := l.length + S.length,
    TotalMatchedTransactions := (greedy A l S).1.countP Option.isSome,
    SysUnMatchedDetail :=
      { TotalSystemTransMissingBank :=
          (((l.zip (greedy A l S).1).filter (fun q => q.2.isNone)).map Prod.fst).length,
        SystemTransMissingBankList :=
          ((l.zip (greedy A l S).1).filter (fun q => q.2.isNone)).map Prod.fst },
    BankUnMatchedTransactionsDetail := (groupInto [] (greedy A l S).2).map toDetail,
    TotalDiscrepanciesAmount := (contribsOf A l (greedy A l S).1).foldl A.add A.zero }

/-- What the matching reads of a ledger record: its amount and date. -/
def ledgerShape {α : Type} (x : SystemTransaction α) : α × String :=
  (x.Amount, x.TransactionTime)

/-- What the matching and the grouping read of a statement: its amount, date
and origin. -/
def statementShape {α : Type} (b : BankStatement α) : α × String × String :=
  (b.Amount, b.Date, b.FilePath)

/-- The ledger of the order-sensitivity example: one record of 100.00. -/
def orderLedger {α : Type} (A : Arith α) : List (SystemTransaction α) :=
  [ { TrxID := "TXN001", Amount := A.lit 10000 2, Type_ := "DEBIT",
      TransactionTime := "2025-07-08" } ]

/-- The statements of the order-sensitivity example: 100.30 then 100.00, same date. -/
def orderStatements {α : Type} (A : Arith α) : List (BankStatement α) :=
  [ { UniqueIdentifier := "BS001", Amount := A.lit 10030 2, Date := "2025-07-08",
      FilePath := "bank_A.csv" },
    { UniqueIdentifier := "BS002", Amount := A.lit 10000 2, Date := "2025-07-08",
      FilePath := "bank_A.csv" } ]

/-- The ledger of the optimality example: 100.00 and 100.60 on one date. -/
def optLedger {α : Type} (A : Arith α) : List (SystemTransaction α) :=
  [ { TrxID := "TXN001", Amount := A.lit 10000 2, Type_ := "DEBIT",
      TransactionTime := "2025-07-08" },
    { TrxID := "TXN002", Amount := A.lit 10060 2, Type_ := "DEBIT",
      TransactionTime := "2025-07-08" } ]

/-- The first feed of the optimality example: one statement of 100.40. -/
def optFeedA {α : Type} (A : Arith α) : List (BankStatement α) :=
  [ { UniqueIdentifier := "BS001", Amount := A.lit 10040 2, Date := "2025-07-08",
      FilePath := "bank_A.csv" } ]

/-- The second feed of the optimality example: one statement of 99.80. -/
def optFeedB {α : Type} (A : Arith α) : List (BankStatement α) :=
  [ { UniqueIdentifier := "BS002", Amount := A.lit 9980 2, Date := "2025-07-08",
      FilePath := "bank_B.csv" } ]

/-- A set of pairwise disjoint candidate pairs (ledger position, statement
position): no position occurs twice and every pair passes the test of line 243. -/
def isMatching {α : Type} (A : Arith α) (l : List (SystemTransaction α))
    (S : List (BankStatement α)) (M : List (Nat × Nat)) : Bool :=
  decide (M.map Prod.fst).Nodup && decide (M.map Prod.snd).Nodup &&
    M.all (fun q =>
      match l[q.1]?, S[q.2]? with
      | some x, some b => candidate A x b
      | _, _ => false)

/-! ## Loaders and service (src/main.go, lines 15-20 and 68-225) -/

/-- The library functions the loaders and the service call, taken as
parameters: `strconv.ParseFloat(s, 64)` (the value returned and the error,
`none` for `nil`), `time.Parse` with the layouts `time.DateTime` and
`time.DateOnly`, `Time.Format(time.DateOnly)` and `json.MarshalIndent` (its
error only). -/
structure Lib (α τ : Type) where
  parseFloat : String → α × Option String
  parseDateTime : String → Except String τ
  parseDateOnly : String → Except String τ
  formatDateOnly : τ → String
  marshal : ReconcillationResult α → Option String

/-- The files: for a path, `none` when `os.Open` fails, otherwise the results
of the successive calls of `reader.Read()` before `io.EOF`, the header first. -/
abbrev Files := String → Option (List (Except String (List String)))

/-- The input of the service. -/
structure ReconcillationInput where
  SystemTransactionsFile : String
  BankStatementsFiles : List String
  StartDate : String
  EndDate : String

/-- Lines 149-174: the loop of `readSystemTransactions` over the rows after
the header.  `none` is a panic (a row too short for the index used). -/
def readSystemLoop {α τ : Type} (L : Lib α τ) :
    List (Except String (List String)) → List (SystemTransaction α) →
      Option (Except String (List (SystemTransaction α)))
  | [], sysTxn => some (Except.ok sysTxn)
  | Except.error err :: _, _ => some (Except.error err)
  | Except.ok row :: rest, sysTxn =>
    match row[1]? with
    | none => none
    | some f1 =>
      let amount := (L.parseFloat f1).1
      match row[3]? with
      | none => none
      | some f3 =>
        match L.parseDateTime f3 with
        | Except.error err => some (Except.error err)
        | Except.ok timeVal =>
          match row[0]?, row[2]? with
          | some f0, some f2 =>
            readSystemLoop L rest
              (sysTxn ++ [{ TrxID := f0, Amount := amount, Type_ := f2,
                            TransactionTime := L.formatDateOnly timeVal }])
          | _, _ => none

/-- The function `readSystemTransactions` (lines 132-177); `start` and `end_`
are only printed by the source.  `none` is a panic. -/
def readSystemTransactions {α τ : Type} (L : Lib α τ) (fs : Files) (path : String)
    (_start _end : τ) : Option (Except String (List (SystemTransaction α))) :=
  match fs path with
  | none => none
  | some reads => readSystemLoop L reads.tail []

/-- Lines 197-222: the loop of `readBankStatements` over the rows after the
header. -/
def readBankLoop {α τ : Type} (L : Lib α τ) (path : String) :
    List (Except String (List String)) → List (BankStatement α) →
      Option (Except String (List (BankStatement α)))
  | [], bnkTxn => some (Except.ok bnkTxn)
  | Except.error err :: _, _ => some (Except.error err)
  | Except.ok row :: rest, bnkTxn =>
    match row[1]? with
    | none => none
    | some f1 =>
      let amount := (L.parseFloat f1).1
      match row[2]? with
      | none => none
      | some f2 =>
        match L.parseDateOnly f2 with
        | Except.error err => some (Except.error err)
        | Except.ok timeVal =>
          match row[0]? with
          | some f0 =>
            readBankLoop L path rest
              (bnkTxn ++ [{ UniqueIdentifier := f0, Amount := amount,
                            Date := L.formatDateOnly timeVal, FilePath := path }])
          | none => none

/-- The function `readBankStatements` (lines 179-225). -/
def readBankStatements {α τ : Type} (L : Lib α τ) (fs : Files) (path : String)
    (_start _end : τ) : Option (Except String (List (BankStatement α))) :=
  match fs path with
  | none => none
  | some reads => readBankLoop L path reads.tail []

/-- Lines 89-110: the goroutines and the channel.  `sched` is the order in
which the goroutines finish, as indices into `paths`; a goroutine whose read
returns an error sends nothing (line 97), one that reads sends its statements,
and the receiver appends what it receives in that order. -/
def collect {α τ : Type} (L : Lib α τ) (fs : Files) (paths : List String)
    (start end_ : τ) : List Nat → Option (List (BankStatement α))
  | [] => some []
  | i :: rest =>
    match paths[i]? with
    | none => collect L fs paths start end_ rest
    | some path =>
      match readBankStatements L fs path start end_ with
      | none => none
      | some (Except.error _) => collect L fs paths start end_ rest
      | some (Except.ok stmts) =>
        (collect L fs paths start end_ rest).map (fun combined => stmts ++ combined)

/-- What a run of the service did: the error it returned (`none` for `nil`)
and, when `Reconcile` was called, its statement argument and its report. -/
structure ServiceRun (α : Type) where
  err : Option String
  reconciled : Option (List (BankStatement α) × ReconcillationResult α)

/-- The function `reconcillationService` (lines 68-130); `none` is a panic. -/
def reconcillationService {α τ : Type} (L : Lib α τ) (A : Arith α) (fs : Files)
    (inp : ReconcillationInput) (sched : List Nat) : Option (ServiceRun α) :=
  match L.parseDateOnly inp.StartDate with
  | Except.error err =>
    some { err := some ("error parsing given start date: " ++ err), reconciled := none }
  | Except.ok parsedStart =>
    match L.parseDateOnly inp.EndDate with
    | Except.error err =>
      some { err := some ("error parsing given end date: " ++ err), reconciled := none }
    | Except.ok parsedEnd =>
      match readSystemTransactions L fs inp.SystemTransactionsFile parsedStart parsedEnd with
      | none => none
      | some (Except.error err) =>
        some { err := some ("error readSystemTransactions " ++ err), reconciled := none }
      | some (Except.ok sysTxs) =>
        match collect L fs inp.BankStatementsFiles parsedStart parsedEnd sched with
        | none => none
        | some combinedBankTxs =>
          match Reconcile A sysTxs combinedBankTxs with
          | none => none
          | some (result, some err) =>
            some { err := some ("error in reconcile " ++ err),
                   reconciled := some (combinedBankTxs, result) }
          | some (result, none) =>
            match L.marshal result with
            | some err =>
              some { err := some ("error marshalling result to JSON: " ++ err),
                     reconciled := some (combinedBankTxs, result) }
            | none => some { err := none, reconciled := some (combinedBankTxs, result) }

/-- A library interpretation for the examples, fixed on the strings they use
(what it returns on other strings plays no role): the amounts "100.00" and
"100.30" parse, "abc" is a syntax error for which `ParseFloat` returns 0;
the dates "2025-01-01", "2025-06-10", "2025-07-08" and "2025-07-10" parse,
with and without a time of day; a time is kept as its date-only text. -/
def exampleLib : Lib F64 String where
  parseFloat := fun s =>
    if s = "100.00" then (F64.lit 10000 2, none)
    else if s = "100.30" then (F64.lit 10030 2, none)
    else (F64.fin false 0, some "invalid syntax")
  parseDateTime := fun s =>
    if s = "2025-01-01 09:00:00" then Except.ok "2025-01-01"
    else if s = "2025-07-08 09:00:00" then Except.ok "2025-07-08"
    else Except.error "cannot parse"
  parseDateOnly := fun s =>
    if s = "2025-01-01" ∨ s = "2025-06-10" ∨ s = "2025-07-08" ∨ s = "2025-07-10" then
      Except.ok s
    else Except.error "cannot parse"
  formatDateOnly := fun t => t
  marshal := fun _ => none

/-- Example files: a ledger of one row, a bank file whose row is dated outside
the window 2025-06-10 to 2025-07-10, a bank file whose amount is not a number,
and a bank file whose date does not parse. -/
def exampleFiles : Files := fun path =>
  if path = "system.csv" then
    some [Except.ok ["trxID", "amount", "type", "transactionTime"],
          Except.ok ["TXN001", "100.00", "DEBIT", "2025-07-08 09:00:00"]]
  else if path = "system_old.csv" then
    some [Except.ok ["trxID", "amount", "type", "transactionTime"],
          Except.ok ["TXN009", "100.00", "DEBIT", "2025-01-01 09:00:00"]]
  else if path = "system_bad.csv" then
    some [Except.ok ["trxID", "amount", "type", "transactionTime"],
          Except.ok ["TXN001", "100.00", "DEBIT", "08/07/2025"]]
  else if path = "bank_A.csv" then
    some [Except.ok ["unique_identifier", "amount", "date"],
          Except.ok ["BS001", "100.30", "2025-07-08"]]
  else if path = "bank_old.csv" then
    some [Except.ok ["unique_identifier", "amount", "date"],
          Except.ok ["BS009", "100.00", "2025-01-01"]]
  else if path = "bank_abc.csv" then
    some [Except.ok ["unique_identifier", "amount", "date"],
          Except.ok ["BS002", "abc", "2025-07-08"]]
  else if path = "bank_bad.csv" then
    some [Except.ok ["unique_identifier", "amount", "date"],
          Except.ok ["BS003", "100.00", "08/07/2025"]]
  else none

/-- The fixture ledger with other identifiers and directions. -/
def fixtureLedgerRenamed {α : Type} (A : Arith α) : List (SystemTransaction α) :=
  [ { TrxID := "A-1", Amount := A.lit 150050 2, Type_ := "CREDIT",
      TransactionTime := "2025-07-08" },
    { TrxID := "A-2", Amount := A.lit 25075 2, Type_ := "DEBIT",
      TransactionTime := "2025-07-10" },
    { TrxID := "A-3", Amount := A.lit 10000 2, Type_ := "DEBIT",
      TransactionTime := "2025-07-08" } ]

/-- The fixture statements with other identifiers. -/
def fixtureStatementsRenamed {α : Type} (A : Arith α) : List (BankStatement α) :=
  [ { UniqueIdentifier := "B-1", Amount := A.lit 150020 2, Date := "2025-07-08",
      FilePath := "bank_A.csv" },
    { UniqueIdentifier := "B-2", Amount := A.lit 25075 2, Date := "2025-07-10",
      FilePath := "bank_A.csv" },
    { UniqueIdentifier := "B-3", Amount := A.lit 10500 2, Date := "2025-07-08",
      FilePath := "bank_A.csv" } ]

/-! ## Go maps -/

theorem GoMap.get_set_self {V : Type} (m : GoMap V) (k : String) (v : V) :
    (m.set k v).get k = some v := by
  induction m with
  | nil => simp [set, get, List.lookup]
  | cons p m ih =>
    obtain ⟨k1, v1⟩ := p
    by_cases h : k1 = k
    · simp [set, h, get, List.lookup]
    · have h1 : (k == k1) = false := by simpa using fun e => h e.symm
      simp only [set, h, if_false, get, List.lookup, h1]
      exact ih

theorem GoMap.get_set_ne {V : Type} (m : GoMap V) (k k2 : String) (v : V) (hne : k2 ≠ k) :
    (m.set k v).get k2 = m.get k2 := by
  induction m with
  | nil =>
    have h1 : (k2 == k) = false := by simpa using hne
    simp [set, get, List.lookup, h1]
  | cons p m ih =>
    obtain ⟨k1, v1⟩ := p
    by_cases h : k1 = k
    · subst h
      have h1 : (k2 == k1) = false := by simpa using hne
      simp [set, get, List.lookup, h1]
    · simp only [set, h, if_false, get, List.lookup]
      cases hk : (k2 == k1) with
      | true => rfl
      | false => exact ih

theorem GoMap.keys_set {V : Type} (m : GoMap V) (k : String) (v : V) :
    (m.set k v).keys = if k ∈ m.keys then m.keys else m.keys ++ [k] := by
  induction m with
  | nil => simp [set, keys]
  | cons p m ih =>
    obtain ⟨k1, v1⟩ := p
    by_cases h : k1 = k
    · subst h
      simp [set, keys]
    · have h2 : ¬ k = k1 := fun e => h e.symm
      simp only [keys] at ih
      simp only [set, h, if_false, keys, List.map_cons, List.mem_cons, h2, false_or, ih]
      split <;> simp

theorem GoMap.mem_keys_set {V : Type} (m : GoMap V) (k k2 : String) (v : V) :
    k2 ∈ (m.set k v).keys ↔ k2 = k ∨ k2 ∈ m.keys := by
  rw [keys_set]
  split
  · constructor
    · exact Or.inr
    · rintro (h | h)
      · subst h; assumption
      · exact h
  · simp [or_comm]

theorem GoMap.nodup_keys_set {V : Type} (m : GoMap V) (k : String) (v : V)
    (h : m.keys.Nodup) : (m.set k v).keys.Nodup := by
  rw [keys_set]
  split
  · exact h
  · rename_i hk
    exact List.Nodup.append h (by simp) (by simpa using hk)

theorem GoMap.set_of_not_mem {V : Type} (m : GoMap V) (k : String) (v : V)
    (h : k ∉ m.keys) : m.set k v = m ++ [(k, v)] := by
  induction m with
  | nil => rfl
  | cons p m ih =>
    obtain ⟨k1, v1⟩ := p
    simp only [keys, List.map_cons, List.mem_cons, not_or] at h
    have h1 : ¬ k1 = k := fun e => h.1 e.symm
    simp only [set, h1, if_false, List.cons_append]
    rw [ih h.2]

theorem GoMap.get_eq_none_iff {V : Type} (m : GoMap V) (k : String) :
    m.get k = none ↔ k ∉ m.keys := by
  induction m with
  | nil => simp [get, keys]
  | cons p m ih =>
    obtain ⟨k1, v1⟩ := p
    simp only [get, keys] at ih
    by_cases h : k = k1
    · subst h
      simp [get, keys, List.lookup]
    · have h1 : (k == k1) = false := by simpa using h
      simp only [get, keys, List.lookup, h1, List.map_cons, List.mem_cons, h, false_or]
      exact ih

/-! ## Grouping of the unmatched statements -/

theorem groupLoop_eq {α : Type} (bankTxs : List (BankStatement α)) :
    ∀ (flags : List Bool) (i : Nat) (m : GoMap (List (BankStatement α))),
      i + flags.length ≤ bankTxs.length →
      groupLoop bankTxs flags i m = some (groupInto m (unmatchedOf flags (bankTxs.drop i))) := by
  intro flags
  induction flags with
  | nil => intro i m _; simp [groupLoop, unmatchedOf, groupInto]
  | cons f rest ih =>
    intro i m hlen
    simp only [List.length_cons] at hlen
    have hi : i < bankTxs.length := by omega
    have hd : bankTxs.drop i = bankTxs[i] :: bankTxs.drop (i + 1) :=
      List.drop_eq_getElem_cons hi
    have hg : bankTxs[i]? = some bankTxs[i] := List.getElem?_eq_getElem hi
    cases f with
    | true =>
      simp only [groupLoop, if_true]
      rw [ih (i + 1) m (by omega), hd]
      simp only [unmatchedOf, List.zip_cons_cons, List.filter_cons, Bool.not_true,
        Bool.false_eq_true, if_false]
    | false =>
      simp only [groupLoop, hg, Bool.false_eq_true, if_false]
      rw [ih (i + 1) _ (by omega), hd]
      simp only [unmatchedOf, List.zip_cons_cons, List.filter_cons, Bool.not_false,
        if_true, List.map_cons, groupInto, List.foldl_cons]

theorem get_groupInto {α : Type} (l : List (BankStatement α)) :
    ∀ (m : GoMap (List (BankStatement α))) (k : String),
      ((groupInto m l).get k).getD [] =
        ((m.get k).getD []) ++ l.filter (fun b => decide (b.FilePath = k)) := by
  induction l with
  | nil => intro m k; simp [groupInto]
  | cons b l ih =>
    intro m k
    have h := ih (m.set b.FilePath (((m.get b.FilePath).getD []) ++ [b])) k
    simp only [groupInto, List.foldl_cons] at h ⊢
    rw [h]
    by_cases hk : b.FilePath = k
    · subst hk
      simp [GoMap.get_set_self]
    · have hk2 : k ≠ b.FilePath := fun e => hk e.symm
      simp [GoMap.get_set_ne _ _ _ _ hk2, hk]

theorem mem_keys_groupInto {α : Type} (l : List (BankStatement α)) :
    ∀ (m : GoMap (List (BankStatement α))) (k : String),
      k ∈ (groupInto m l).keys ↔ k ∈ m.keys ∨ ∃ b ∈ l, b.FilePath = k := by
  induction l with
  | nil => intro m k; simp [groupInto]
  | cons b l ih =>
    intro m k
    have h := ih (m.set b.FilePath (((m.get b.FilePath).getD []) ++ [b])) k
    simp only [groupInto, List.foldl_cons] at h ⊢
    rw [h, GoMap.mem_keys_set]
    simp only [List.mem_cons, exists_eq_or_imp]
    constructor
    · rintro ((h1 | h1) | h1)
      · exact Or.inr (Or.inl h1.symm)
      · exact Or.inl h1
      · exact Or.inr (Or.inr h1)
    · rintro (h1 | h1 | h1)
      · exact Or.inl (Or.inr h1)
      · exact Or.inl (Or.inl h1.symm)
      · exact Or.inr h1

theorem nodup_keys_groupInto {α : Type} (l : List (BankStatement α)) :
    ∀ (m : GoMap (List (BankStatement α))), m.keys.Nodup → (groupInto m l).keys.Nodup := by
  induction l with
  | nil => intro m h; simpa [groupInto] using h
  | cons b l ih =>
    intro m h
    simp only [groupInto, List.foldl_cons]
    exact ih _ (GoMap.nodup_keys_set _ _ _ h)

theorem groupedCount_set {α : Type} (m : GoMap (List (BankStatement α))) (k : String)
    (b : BankStatement α) :
    groupedCount (m.set k (((m.get k).getD []) ++ [b])) = groupedCount m + 1 := by
  induction m with
  | nil => simp [GoMap.set, GoMap.get, groupedCount]
  | cons p m ih =>
    obtain ⟨k1, v1⟩ := p
    by_cases h : k1 = k
    · subst h
      simp [GoMap.set, GoMap.get, groupedCount, List.lookup]
      omega
    · have h1 : (k == k1) = false := by simpa using fun e => h e.symm
      simp only [groupedCount, GoMap.get] at ih
      simp only [GoMap.set, h, if_false, GoMap.get, List.lookup, h1, groupedCount,
        List.map_cons, List.sum_cons, ih]
      omega

theorem groupedCount_groupInto {α : Type} (l : List (BankStatement α)) :
    ∀ (m : GoMap (List (BankStatement α))),
      groupedCount (groupInto m l) = groupedCount m + l.length := by
  induction l with
  | nil => intro m; simp [groupInto]
  | cons b l ih =>
    intro m
    have h := ih (m.set b.FilePath (((m.get b.FilePath).getD []) ++ [b]))
    simp only [groupInto, List.foldl_cons] at h ⊢
    rw [h, groupedCount_set]
    simp only [List.length_cons]
    omega

theorem detailLoop_eq {α : Type} (src : List (String × List (BankStatement α))) :
    ∀ (out : GoMap (ThisBankUnMatchedTransDetails α)),
      (out.keys ++ src.map Prod.fst).Nodup →
      detailLoop src out = out ++ src.map toDetail := by
  induction src with
  | nil => intro out _; simp [detailLoop]
  | cons p src ih =>
    intro out h
    obtain ⟨k, txs⟩ := p
    have hk : k ∉ out.keys := by
      intro hmem
      have := (List.nodup_append.1 h).2.2
      exact this hmem (by simp)
    simp only [detailLoop]
    rw [GoMap.set_of_not_mem _ _ _ hk, ih]
    · simp [toDetail]
    · simp only [GoMap.keys, List.map_append, List.map_cons, List.map_nil, List.append_assoc,
        List.singleton_append]
      simpa [GoMap.keys] using h

/-! ## The matching loop -/

theorem innerLoop_spec {α : Type} (A : Arith α) (sysTx : SystemTransaction α)
    (bankTxs : List (BankStatement α)) (st : LoopState α)
    (hlen : st.alreadyMatch.length = bankTxs.length) :
    ∀ (rest : List (BankStatement α)) (i : Nat), bankTxs.drop i = rest →
      (∀ (j : Nat) (b1 : BankStatement α), j < i → bankTxs[j]? = some b1 →
        st.alreadyMatch[j]? = some true ∨ candidate A sysTx b1 = false) →
      (innerLoop A sysTx rest i st = some (st, none) ∧
        ∀ (j : Nat) (b1 : BankStatement α), bankTxs[j]? = some b1 →
          st.alreadyMatch[j]? = some true ∨ candidate A sysTx b1 = false) ∨
      (∃ p b, bankTxs[p]? = some b ∧ st.alreadyMatch[p]? = some false ∧
        candidate A sysTx b = true ∧
        (∀ (j : Nat) (b1 : BankStatement α), j < p → bankTxs[j]? = some b1 →
          st.alreadyMatch[j]? = some true ∨ candidate A sysTx b1 = false) ∧
        innerLoop A sysTx rest i st = some (takeMatch A sysTx b p st, some p)) := by
  intro rest
  induction rest with
  | nil =>
    intro i hdrop hprev
    left
    refine ⟨rfl, ?_⟩
    intro j b1 hj
    have hi : bankTxs.length ≤ i := List.drop_eq_nil_iff.1 hdrop
    have hjlt : j < bankTxs.length := (List.getElem?_eq_some_iff.1 hj).1
    exact hprev j b1 (by omega) hj
  | cons b rest ih =>
    intro i hdrop hprev
    have hi : i < bankTxs.length := by
      by_contra hcon
      have : bankTxs.drop i = [] := List.drop_eq_nil_iff.2 (by omega)
      rw [this] at hdrop
      cases hdrop
    have hd : bankTxs.drop i = bankTxs[i] :: bankTxs.drop (i + 1) :=
      List.drop_eq_getElem_cons hi
    rw [hd] at hdrop
    have hb : bankTxs[i] = b := (List.cons.inj hdrop).1
    have hrest : bankTxs.drop (i + 1) = rest := (List.cons.inj hdrop).2
    have hgb : bankTxs[i]? = some b := by rw [List.getElem?_eq_getElem hi, hb]
    have hfi : i < st.alreadyMatch.length := by omega
    have hgf : st.alreadyMatch[i]? = some st.alreadyMatch[i] := List.getElem?_eq_getElem hfi
    cases hf : st.alreadyMatch[i] with
    | true =>
      rw [hf] at hgf
      have hprev2 : ∀ (j : Nat) (b1 : BankStatement α), j < i + 1 → bankTxs[j]? = some b1 →
          st.alreadyMatch[j]? = some true ∨ candidate A sysTx b1 = false := by
        intro j b1 hj hjb
        by_cases hji : j = i
        · subst hji; exact Or.inl hgf
        · exact hprev j b1 (by omega) hjb
      simp only [innerLoop, hgf]
      exact ih (i + 1) hrest hprev2
    | false =>
      rw [hf] at hgf
      cases hc : candidate A sysTx b with
      | true =>
        right
        refine ⟨i, b, hgb, hgf, hc, hprev, ?_⟩
        simp [innerLoop, hgf, hc]
      | false =>
        have hprev2 : ∀ (j : Nat) (b1 : BankStatement α), j < i + 1 → bankTxs[j]? = some b1 →
            st.alreadyMatch[j]? = some true ∨ candidate A sysTx b1 = false := by
          intro j b1 hj hjb
          by_cases hji : j = i
          · subst hji
            rw [hgb] at hjb
            cases hjb
            exact Or.inr hc
          · exact hprev j b1 (by omega) hjb
        simp only [innerLoop, hgf, hc, Bool.false_eq_true, if_false]
        exact ih (i + 1) hrest hprev2

theorem takeMatch_alreadyMatch {α : Type} (A : Arith α) (sysTx : SystemTransaction α)
    (b : BankStatement α) (p : Nat) (st : LoopState α) :
    (takeMatch A sysTx b p st).alreadyMatch = st.alreadyMatch.set p true := rfl

theorem recordUnmatched_alreadyMatch {α : Type} (sysTx : SystemTransaction α)
    (st : LoopState α) : (recordUnmatched sysTx st).alreadyMatch = st.alreadyMatch := rfl

theorem outerLoop_run {α : Type} (A : Arith α) (bankTxs : List (BankStatement α)) :
    ∀ (l : List (SystemTransaction α)) (st : LoopState α),
      st.alreadyMatch.length = bankTxs.length →
      ∃ st1 tr, outerLoop A bankTxs l st = some (st1, tr) ∧ Run A bankTxs l st st1 tr := by
  intro l
  induction l with
  | nil => intro st _; exact ⟨st, [], rfl, Run.nil st⟩
  | cons sysTx rest ih =>
    intro st hlen
    rcases innerLoop_spec A sysTx bankTxs st hlen bankTxs 0 (by simp)
        (by intro j b1 hj; omega) with ⟨hin, hall⟩ | ⟨p, b, hb, hf, hc, hmin, hin⟩
    · obtain ⟨st1, tr, hout, hrun⟩ := ih (recordUnmatched sysTx st)
        (by rw [recordUnmatched_alreadyMatch]; exact hlen)
      refine ⟨st1, none :: tr, ?_, Run.miss sysTx rest st st1 tr hall hrun⟩
      simp [outerLoop, hin, hout]
    · obtain ⟨st1, tr, hout, hrun⟩ := ih (takeMatch A sysTx b p st)
        (by rw [takeMatch_alreadyMatch, List.length_set]; exact hlen)
      refine ⟨st1, some p :: tr, ?_, Run.hit sysTx rest st st1 tr p b hb hf hc hmin hrun⟩
      simp [outerLoop, hin, hout]

theorem takeMatch_report {α : Type} (A : Arith α) (sysTx : SystemTransaction α)
    (b : BankStatement α) (p : Nat) (st : LoopState α) :
    let r := st.reconcillationResult
    let r1 := (takeMatch A sysTx b p st).reconcillationResult
    r1.TotalTransactions = r.TotalTransactions ∧
    r1.BankUnMatchedTransactionsDetail = r.BankUnMatchedTransactionsDetail ∧
    r1.SysUnMatchedDetail = r.SysUnMatchedDetail ∧
    r1.TotalMatchedTransactions = r.TotalMatchedTransactions + 1 ∧
    r1.TotalDiscrepanciesAmount =
      ((contribution A sysTx b).toList).foldl A.add r.TotalDiscrepanciesAmount := by
  simp only [takeMatch, contribution]
  split <;> simp

theorem run_length {α : Type} {A : Arith α} {bankTxs : List (BankStatement α)}
    {l : List (SystemTransaction α)} {st st1 : LoopState α} {tr : List (Option Nat)}
    (h : Run A bankTxs l st st1 tr) : tr.length = l.length := by
  induction h with
  | nil st => rfl
  | hit sysTx rest st st1 tr p b _ _ _ _ _ ih => simp [ih]
  | miss sysTx rest st st1 tr _ _ ih => simp [ih]

theorem run_alreadyMatch_length {α : Type} {A : Arith α} {bankTxs : List (BankStatement α)}
    {l : List (SystemTransaction α)} {st st1 : LoopState α} {tr : List (Option Nat)}
    (h : Run A bankTxs l st st1 tr) : st1.alreadyMatch.length = st.alreadyMatch.length := by
  induction h with
  | nil st => rfl
  | hit sysTx rest st st1 tr p b _ _ _ _ _ ih =>
    rw [ih, takeMatch_alreadyMatch, List.length_set]
  | miss sysTx rest st st1 tr _ _ ih => rw [ih, recordUnmatched_alreadyMatch]

theorem run_report {α : Type} {A : Arith α} {bankTxs : List (BankStatement α)}
    {l : List (SystemTransaction α)} {st st1 : LoopState α} {tr : List (Option Nat)}
    (h : Run A bankTxs l st st1 tr) :
    st1.reconcillationResult.TotalTransactions = st.reconcillationResult.TotalTransactions ∧
    st1.reconcillationResult.BankUnMatchedTransactionsDetail =
      st.reconcillationResult.BankUnMatchedTransactionsDetail ∧
    st1.reconcillationResult.TotalMatchedTransactions =
      st.reconcillationResult.TotalMatchedTransactions + matchedCount tr ∧
    st1.reconcillationResult.SysUnMatchedDetail.SystemTransMissingBankList =
      st.reconcillationResult.SysUnMatchedDetail.SystemTransMissingBankList ++
        unmatchedLedger l tr ∧
    st1.reconcillationResult.SysUnMatchedDetail.TotalSystemTransMissingBank =
      st.reconcillationResult.SysUnMatchedDetail.TotalSystemTransMissingBank +
        (unmatchedLedger l tr).length ∧
    st1.reconcillationResult.TotalDiscrepanciesAmount =
      (contributions A bankTxs l tr).foldl A.add
        st.reconcillationResult.TotalDiscrepanciesAmount := by
  induction h with
  | nil st => simp [matchedCount, unmatchedLedger, contributions]
  | hit sysTx rest st st1 tr p b hb _ _ _ _ ih =>
    obtain ⟨h1, h2, h3, h4, h5, h6⟩ := ih
    obtain ⟨t1, t2, t3, t4, t5⟩ := takeMatch_report A sysTx b p st
    rw [t1] at h1
    rw [t2] at h2
    rw [t4] at h3
    rw [t3] at h4 h5
    rw [t5] at h6
    refine ⟨h1, h2, ?_, ?_, ?_, ?_⟩
    · rw [h3]; simp [matchedCount]; omega
    · rw [h4]; simp [unmatchedLedger]
    · rw [h5]; simp [unmatchedLedger]
    · rw [h6]
      cases hcb : contribution A sysTx b <;> simp [contributions, hb, hcb]
  | miss sysTx rest st st1 tr _ _ ih =>
    obtain ⟨h1, h2, h3, h4, h5, h6⟩ := ih
    refine ⟨h1, h2, ?_, ?_, ?_, ?_⟩
    · rw [h3]; simp [matchedCount, recordUnmatched]
    · rw [h4]; simp [unmatchedLedger, recordUnmatched]
    · rw [h5]; simp [unmatchedLedger, recordUnmatched]; omega
    · rw [h6]; simp [contributions, recordUnmatched]

theorem getElem?_set_true {flags : List Bool} {p : Nat} (hp : flags[p]? = some false)
    (i : Nat) : (flags.set p true)[i]? = some true ↔ flags[i]? = some true ∨ i = p := by
  have hlt : p < flags.length := (List.getElem?_eq_some_iff.1 hp).1
  rw [List.getElem?_set]
  by_cases h : p = i
  · subst h
    simp [hlt]
  · have h2 : ¬ i = p := fun e => h e.symm
    simp [h, h2]

theorem getElem?_set_false {flags : List Bool} {p : Nat} (i : Nat)
    (h : (flags.set p true)[i]? = some false) : flags[i]? = some false ∧ i ≠ p := by
  rw [List.getElem?_set] at h
  by_cases hpi : p = i
  · subst hpi
    simp only [if_true] at h
    split at h <;> simp at h
  · simp only [hpi, if_false] at h
    exact ⟨h, fun e => hpi e.symm⟩

theorem run_marker {α : Type} {A : Arith α} {bankTxs : List (BankStatement α)}
    {l : List (SystemTransaction α)} {st st1 : LoopState α} {tr : List (Option Nat)}
    (h : Run A bankTxs l st st1 tr) (i : Nat) :
    st1.alreadyMatch[i]? = some true ↔ st.alreadyMatch[i]? = some true ∨ some i ∈ tr := by
  induction h with
  | nil st => simp
  | hit sysTx rest st st1 tr p b _ hf _ _ _ ih =>
    rw [ih, takeMatch_alreadyMatch, getElem?_set_true hf]
    simp only [List.mem_cons, Option.some.injEq]
    tauto
  | miss sysTx rest st st1 tr _ _ ih =>
    rw [ih, recordUnmatched_alreadyMatch]
    simp

theorem run_fresh {α : Type} {A : Arith α} {bankTxs : List (BankStatement α)}
    {l : List (SystemTransaction α)} {st st1 : LoopState α} {tr : List (Option Nat)}
    (h : Run A bankTxs l st st1 tr) (i : Nat) (hi : some i ∈ tr) :
    st.alreadyMatch[i]? = some false ∧ ∃ b, bankTxs[i]? = some b := by
  induction h with
  | nil st => simp at hi
  | hit sysTx rest st st1 tr p b hb hf _ _ _ ih =>
    simp only [List.mem_cons, Option.some.injEq] at hi
    rcases hi with hi | hi
    · subst hi
      exact ⟨hf, b, hb⟩
    · obtain ⟨h1, h2⟩ := ih hi
      rw [takeMatch_alreadyMatch] at h1
      exact ⟨(getElem?_set_false i h1).1, h2⟩
  | miss sysTx rest st st1 tr _ _ ih =>
    simp only [List.mem_cons] at hi
    rcases hi with hi | hi
    · cases hi
    · exact ih hi

theorem run_injective {α : Type} {A : Arith α} {bankTxs : List (BankStatement α)}
    {l : List (SystemTransaction α)} {st st1 : LoopState α} {tr : List (Option Nat)}
    (h : Run A bankTxs l st st1 tr) :
    ∀ (k1 k2 i : Nat), tr[k1]? = some (some i) → tr[k2]? = some (some i) → k1 = k2 := by
  induction h with
  | nil st => intro k1 k2 i h1; simp at h1
  | hit sysTx rest st st1 tr p b _ hf _ _ hrun ih =>
    have hnot : some p ∉ tr := by
      intro hmem
      have := (run_fresh hrun p hmem).1
      rw [takeMatch_alreadyMatch] at this
      exact (getElem?_set_false p this).2 rfl
    intro k1 k2 i h1 h2
    cases k1 with
    | zero =>
      cases k2 with
      | zero => rfl
      | succ k2 =>
        simp only [List.getElem?_cons_zero, Option.some.injEq] at h1
        simp only [List.getElem?_cons_succ] at h2
        subst h1
        exact absurd (List.mem_iff_getElem?.2 ⟨k2, h2⟩) hnot
    | succ k1 =>
      cases k2 with
      | zero =>
        simp only [List.getElem?_cons_zero, Option.some.injEq] at h2
        simp only [List.getElem?_cons_succ] at h1
        subst h2
        exact absurd (List.mem_iff_getElem?.2 ⟨k1, h1⟩) hnot
      | succ k2 =>
        simp only [List.getElem?_cons_succ] at h1 h2
        rw [ih k1 k2 i h1 h2]
  | miss sysTx rest st st1 tr _ _ ih =>
    intro k1 k2 i h1 h2
    cases k1 with
    | zero => simp at h1
    | succ k1 =>
      cases k2 with
      | zero => simp at h2
      | succ k2 =>
        simp only [List.getElem?_cons_succ] at h1 h2
        rw [ih k1 k2 i h1 h2]

theorem run_count {α : Type} {A : Arith α} {bankTxs : List (BankStatement α)}
    {l : List (SystemTransaction α)} {st st1 : LoopState α} {tr : List (Option Nat)}
    (h : Run A bankTxs l st st1 tr) :
    st1.alreadyMatch.count true = st.alreadyMatch.count true + matchedCount tr := by
  induction h with
  | nil st => simp [matchedCount]
  | hit sysTx rest st st1 tr p b _ hf _ _ _ ih =>
    obtain ⟨hlt, hval⟩ := List.getElem?_eq_some_iff.1 hf
    rw [ih, takeMatch_alreadyMatch, List.count_set _ _ _ _ hlt, hval]
    simp [matchedCount]
    omega
  | miss sysTx rest st st1 tr _ _ ih =>
    rw [ih, recordUnmatched_alreadyMatch]
    simp [matchedCount]

theorem length_unmatchedOf {α : Type} :
    ∀ (flags : List Bool) (bankTxs : List (BankStatement α)),
      flags.length = bankTxs.length →
      (unmatchedOf flags bankTxs).length + flags.count true = bankTxs.length := by
  intro flags
  induction flags with
  | nil => intro bankTxs h; simp at h; simp [unmatchedOf, ← h]
  | cons f flags ih =>
    intro bankTxs h
    cases bankTxs with
    | nil => simp at h
    | cons b bankTxs =>
      simp only [List.length_cons, Nat.add_right_cancel_iff] at h
      have := ih bankTxs h
      simp only [unmatchedOf, List.length_map] at this
      cases f <;> simp [unmatchedOf, List.count_cons] <;> omega

theorem run_firstFit {α : Type} {A : Arith α} {bankTxs : List (BankStatement α)}
    {l : List (SystemTransaction α)} {st st1 : LoopState α} {tr : List (Option Nat)}
    (h : Run A bankTxs l st st1 tr) :
    ∀ (k : Nat) (sysTx : SystemTransaction α), l[k]? = some sysTx →
      (∀ p, tr[k]? = some (some p) →
        ∃ b, bankTxs[p]? = some b ∧ ¬ consumedBefore st.alreadyMatch tr k p ∧
          candidate A sysTx b = true ∧
          ∀ (j : Nat) (b1 : BankStatement α), j < p → bankTxs[j]? = some b1 →
            consumedBefore st.alreadyMatch tr k j ∨ candidate A sysTx b1 = false) ∧
      (tr[k]? = some none →
        ∀ (j : Nat) (b1 : BankStatement α), bankTxs[j]? = some b1 →
          consumedBefore st.alreadyMatch tr k j ∨ candidate A sysTx b1 = false) := by
  induction h with
  | nil st => intro k sysTx hk; simp at hk
  | hit x rest st st1 tr p b hb hf hc hmin hrun ih =>
    intro k sysTx hk
    cases k with
    | zero =>
      simp only [List.getElem?_cons_zero, Option.some.injEq] at hk
      subst hk
      constructor
      · intro q hq
        simp only [List.getElem?_cons_zero, Option.some.injEq] at hq
        subst hq
        refine ⟨b, hb, ?_, hc, ?_⟩
        · rintro (h1 | ⟨k1, hk1, _⟩)
          · rw [hf] at h1; cases h1
          · omega
        · intro j b1 hj hjb
          rcases hmin j b1 hj hjb with h1 | h1
          · exact Or.inl (Or.inl h1)
          · exact Or.inr h1
      · intro hq
        simp at hq
    | succ k =>
      simp only [List.getElem?_cons_succ] at hk
      obtain ⟨ih1, ih2⟩ := ih k sysTx hk
      have hcons : ∀ j, consumedBefore (takeMatch A x b p st).alreadyMatch tr k j ↔
          consumedBefore st.alreadyMatch (some p :: tr) (k + 1) j := by
        intro j
        simp only [consumedBefore, takeMatch_alreadyMatch, getElem?_set_true hf]
        constructor
        · rintro ((h1 | h1) | ⟨k1, hk1, h1⟩)
          · exact Or.inl h1
          · exact Or.inr ⟨0, by omega, by simp [h1]⟩
          · exact Or.inr ⟨k1 + 1, by omega, by simpa using h1⟩
        · rintro (h1 | ⟨k1, hk1, h1⟩)
          · exact Or.inl (Or.inl h1)
          · cases k1 with
            | zero =>
              simp only [List.getElem?_cons_zero, Option.some.injEq] at h1
              exact Or.inl (Or.inr h1.symm)
            | succ k1 =>
              simp only [List.getElem?_cons_succ] at h1
              exact Or.inr ⟨k1, by omega, h1⟩
      constructor
      · intro q hq
        simp only [List.getElem?_cons_succ] at hq
        obtain ⟨b2, hb2, hn, hc2, hmin2⟩ := ih1 q hq
        refine ⟨b2, hb2, fun hcon => hn ((hcons q).2 hcon), hc2, ?_⟩
        intro j b1 hj hjb
        rcases hmin2 j b1 hj hjb with h1 | h1
        · exact Or.inl ((hcons j).1 h1)
        · exact Or.inr h1
      · intro hq
        simp only [List.getElem?_cons_succ] at hq
        intro j b1 hjb
        rcases ih2 hq j b1 hjb with h1 | h1
        · exact Or.inl ((hcons j).1 h1)
        · exact Or.inr h1
  | miss x rest st st1 tr hall hrun ih =>
    intro k sysTx hk
    cases k with
    | zero =>
      simp only [List.getElem?_cons_zero, Option.some.injEq] at hk
      subst hk
      constructor
      · intro q hq
        simp at hq
      · intro _ j b1 hjb
        rcases hall j b1 hjb with h1 | h1
        · exact Or.inl (Or.inl h1)
        · exact Or.inr h1
    | succ k =>
      simp only [List.getElem?_cons_succ] at hk
      obtain ⟨ih1, ih2⟩ := ih k sysTx hk
      have hcons : ∀ j, consumedBefore (recordUnmatched x st).alreadyMatch tr k j ↔
          consumedBefore st.alreadyMatch (none :: tr) (k + 1) j := by
        intro j
        simp only [consumedBefore, recordUnmatched_alreadyMatch]
        constructor
        · rintro (h1 | ⟨k1, hk1, h1⟩)
          · exact Or.inl h1
          · exact Or.inr ⟨k1 + 1, by omega, by simpa using h1⟩
        · rintro (h1 | ⟨k1, hk1, h1⟩)
          · exact Or.inl h1
          · cases k1 with
            | zero => simp at h1
            | succ k1 =>
              simp only [List.getElem?_cons_succ] at h1
              exact Or.inr ⟨k1, by omega, h1⟩
      constructor
      · intro q hq
        simp only [List.getElem?_cons_succ] at hq
        obtain ⟨b2, hb2, hn, hc2, hmin2⟩ := ih1 q hq
        refine ⟨b2, hb2, fun hcon => hn ((hcons q).2 hcon), hc2, ?_⟩
        intro j b1 hj hjb
        rcases hmin2 j b1 hj hjb with h1 | h1
        · exact Or.inl ((hcons j).1 h1)
        · exact Or.inr h1
      · intro hq
        simp only [List.getElem?_cons_succ] at hq
        intro j b1 hjb
        rcases ih2 hq j b1 hjb with h1 | h1
        · exact Or.inl ((hcons j).1 h1)
        · exact Or.inr h1

/-! ## The report of Reconcile -/

theorem matchedCount_add_unmatched {α : Type} :
    ∀ (l : List (SystemTransaction α)) (tr : List (Option Nat)), tr.length = l.length →
      matchedCount tr + (unmatchedLedger l tr).length = l.length := by
  intro l
  induction l with
  | nil => intro tr h; simp at h; simp [h, matchedCount, unmatchedLedger]
  | cons x l ih =>
    intro tr h
    cases tr with
    | nil => simp at h
    | cons m tr =>
      simp only [List.length_cons, Nat.add_right_cancel_iff] at h
      have := ih tr h
      simp only [matchedCount, unmatchedLedger, List.length_map] at this
      cases m <;> simp [matchedCount, unmatchedLedger, List.countP_cons] <;> omega

theorem Reconcile_run {α : Type} (A : Arith α) (sysTxs : List (SystemTransaction α))
    (bankTxs : List (BankStatement α)) :
    ∃ st tr, Run A bankTxs sysTxs (initState A sysTxs bankTxs) st tr ∧
      pairing A sysTxs bankTxs = some tr ∧
      finalMarkers A sysTxs bankTxs = some st.alreadyMatch ∧
      Reconcile A sysTxs bankTxs = some (reportOf bankTxs st, none) := by
  obtain ⟨st, tr, hout, hrun⟩ := outerLoop_run A bankTxs sysTxs (initState A sysTxs bankTxs)
    (by simp [initState])
  have hlen : st.alreadyMatch.length = bankTxs.length := by
    rw [run_alreadyMatch_length hrun]; simp [initState]
  refine ⟨st, tr, hrun, by simp [pairing, hout], by simp [finalMarkers, hout], ?_⟩
  have hg := groupLoop_eq bankTxs st.alreadyMatch 0 [] (by omega)
  have hnd : ((groupInto [] (unmatchedOf st.alreadyMatch bankTxs)).map Prod.fst).Nodup :=
    nodup_keys_groupInto _ [] (by simp [GoMap.keys])
  have hd := detailLoop_eq (groupInto [] (unmatchedOf st.alreadyMatch bankTxs)) []
    (by simpa [GoMap.keys] using hnd)
  simp only [List.drop_zero] at hg
  simp only [Reconcile, hout, hg, hd, List.nil_append, reportOf]

theorem initState_getElem? {α : Type} (A : Arith α) (sysTxs : List (SystemTransaction α))
    (bankTxs : List (BankStatement α)) (i : Nat) :
    (initState A sysTxs bankTxs).alreadyMatch[i]? ≠ some true := by
  simp [initState, List.getElem?_replicate]

theorem initState_count {α : Type} (A : Arith α) (sysTxs : List (SystemTransaction α))
    (bankTxs : List (BankStatement α)) :
    (initState A sysTxs bankTxs).alreadyMatch.count true = 0 := by
  simp [initState, List.count_replicate]

/-- C1. Conservation: Reconcile returns a report, the origin keys of its
unmatched-statement map are distinct, and twice the matched count, plus the
number of unmatched ledger records, plus the number of unmatched statement
records summed over the origin keys, is the number of input records. -/
theorem conservation {α : Type} (A : Arith α) (sysTxs : List (SystemTransaction α))
    (bankTxs : List (BankStatement α)) :
    ∃ r, Reconcile A sysTxs bankTxs = some (r, none) ∧
      r.BankUnMatchedTransactionsDetail.keys.Nodup ∧
      2 * r.TotalMatchedTransactions +
          r.SysUnMatchedDetail.SystemTransMissingBankList.length +
          (r.BankUnMatchedTransactionsDetail.map
            (fun e => e.2.ThisBankUnMatchedTransList.length)).sum =
        sysTxs.length + bankTxs.length := by
  obtain ⟨st, tr, hrun, -, -, hrec⟩ := Reconcile_run A sysTxs bankTxs
  refine ⟨_, hrec, ?_, ?_⟩
  · have := nodup_keys_groupInto (unmatchedOf st.alreadyMatch bankTxs) []
      (by simp [GoMap.keys])
    simpa [reportOf, GoMap.keys, toDetail, Function.comp_def] using this
  · obtain ⟨-, -, hm, hl, -, -⟩ := run_report hrun
    have hlen : st.alreadyMatch.length = bankTxs.length := by
      rw [run_alreadyMatch_length hrun]; simp [initState]
    have h1 := matchedCount_add_unmatched sysTxs tr (run_length hrun)
    have h2 := length_unmatchedOf st.alreadyMatch bankTxs hlen
    have h3 := run_count hrun
    rw [initState_count] at h3
    have h4 := groupedCount_groupInto (unmatchedOf st.alreadyMatch bankTxs) []
    simp only [groupedCount, List.map_nil, List.sum_nil, Nat.zero_add] at h4
    simp only [reportOf, List.map_map, hm, hl]
    have h5 : (List.map ((fun e : String × ThisBankUnMatchedTransDetails α =>
        e.2.ThisBankUnMatchedTransList.length) ∘ toDetail)
        (groupInto [] (unmatchedOf st.alreadyMatch bankTxs))).sum =
        (unmatchedOf st.alreadyMatch bankTxs).length := by
      rw [← h4]; rfl
    rw [h5]
    simp only [initState, List.nil_append, List.length_append] at *
    omega

/-! ## Positions and partners -/

theorem unmatchedOf_eq_range {α : Type} :
    ∀ (flags : List Bool) (bankTxs : List (BankStatement α)),
      flags.length = bankTxs.length →
      unmatchedOf flags bankTxs =
        (List.range bankTxs.length).filterMap
          (fun i => if flags[i]? = some true then none else bankTxs[i]?) := by
  intro flags
  induction flags with
  | nil => intro bankTxs h; simp at h; simp [unmatchedOf, ← h]
  | cons f flags ih =>
    intro bankTxs h
    cases bankTxs with
    | nil => simp at h
    | cons b bankTxs =>
      simp only [List.length_cons, Nat.add_right_cancel_iff] at h
      have h1 := ih bankTxs h
      simp only [unmatchedOf] at h1
      simp only [List.length_cons, List.range_succ_eq_map, List.filterMap_cons,
        List.filterMap_map, unmatchedOf, List.zip_cons_cons, List.filter_cons]
      cases f
      · simp [Function.comp_def, h1]
      · simp [Function.comp_def, h1]

theorem unmatchedOf_final {α : Type} {A : Arith α} {sysTxs : List (SystemTransaction α)}
    {bankTxs : List (BankStatement α)} {st : LoopState α} {tr : List (Option Nat)}
    (h : Run A bankTxs sysTxs (initState A sysTxs bankTxs) st tr) :
    unmatchedOf st.alreadyMatch bankTxs = unpartnered tr bankTxs := by
  have hlen : st.alreadyMatch.length = bankTxs.length := by
    rw [run_alreadyMatch_length h]; simp [initState]
  rw [unmatchedOf_eq_range _ _ hlen, unpartnered]
  apply List.filterMap_congr
  intro i _
  have hm := run_marker h i
  have h0 := initState_getElem? A sysTxs bankTxs i
  by_cases hi : some i ∈ tr
  · have : st.alreadyMatch[i]? = some true := hm.2 (Or.inr hi)
    simp [this, hi]
  · have : ¬ st.alreadyMatch[i]? = some true := by
      intro hcon
      rcases hm.1 hcon with h1 | h1
      · exact h0 h1
      · exact hi h1
    simp [this, hi]

theorem get_map_toDetail {α : Type} (m : GoMap (List (BankStatement α))) (key : String) :
    GoMap.get (m.map toDetail) key =
      (m.get key).map (fun txs =>
        { ThisBankUnMatchedTransCount := txs.length, ThisBankUnMatchedTransList := txs }) := by
  induction m with
  | nil => simp [GoMap.get]
  | cons p m ih =>
    obtain ⟨k1, v1⟩ := p
    simp only [GoMap.get] at ih
    cases hk : (key == k1) <;> simp [GoMap.get, List.lookup, toDetail, hk, ih]

theorem keys_map_toDetail {α : Type} (m : GoMap (List (BankStatement α))) :
    GoMap.keys (m.map toDetail) = m.keys := by
  simp [GoMap.keys, toDetail, Function.comp_def]

theorem mem_unmatchedLedger {α : Type} :
    ∀ (l : List (SystemTransaction α)) (tr : List (Option Nat)) (k : Nat)
      (x : SystemTransaction α), l[k]? = some x → tr[k]? = some none →
      x ∈ unmatchedLedger l tr := by
  intro l
  induction l with
  | nil => intro tr k x h; simp at h
  | cons y l ih =>
    intro tr k x hx ht
    cases tr with
    | nil => simp at ht
    | cons m tr =>
      cases k with
      | zero =>
        simp only [List.getElem?_cons_zero, Option.some.injEq] at hx ht
        subst hx ht
        simp [unmatchedLedger]
      | succ k =>
        simp only [List.getElem?_cons_succ] at hx ht
        have := ih tr k x hx ht
        simp only [unmatchedLedger, List.zip_cons_cons, List.filter_cons, List.mem_map] at this ⊢
        obtain ⟨q, hq, hqx⟩ := this
        refine ⟨q, ?_, hqx⟩
        split
        · exact List.mem_cons_of_mem _ hq
        · exact hq

theorem filterMap_range_erase {α : Type} :
    ∀ (bankTxs : List (BankStatement α)) (i : Nat),
      (List.range bankTxs.length).filterMap
          (fun j => if j = i then none else bankTxs[j]?) = bankTxs.eraseIdx i := by
  intro bankTxs
  induction bankTxs with
  | nil => intro i; simp
  | cons b bankTxs ih =>
    intro i
    simp only [List.length_cons, List.range_succ_eq_map, List.filterMap_cons,
      List.filterMap_map]
    cases i with
    | zero =>
      have h0 := ih bankTxs.length
      have : (List.range bankTxs.length).filterMap
          ((fun j => if j = 0 then none else (b :: bankTxs)[j]?) ∘ Nat.succ) = bankTxs := by
        rw [List.eraseIdx_of_length_le (Nat.le_refl _)] at h0
        refine Eq.trans (List.filterMap_congr ?_) h0
        intro j hj
        have : j ≠ bankTxs.length := by
          have := List.mem_range.1 hj
          omega
        simp [this]
      simp [this]
    | succ i =>
      have h1 := ih i
      have : (List.range bankTxs.length).filterMap
          ((fun j => if j = i + 1 then none else (b :: bankTxs)[j]?) ∘ Nat.succ) =
          bankTxs.eraseIdx i := by
        refine Eq.trans (List.filterMap_congr ?_) h1
        intro j _
        simp
      simp [this]

/-! ## Properties of the report -/

/-- C2. No reuse: in the pairing built by Reconcile no statement position is
the partner of two ledger records; the statements reported under an origin are
exactly those at the positions that are the partner of no ledger record; and
the number of unmatched statements is the number of statements minus the
matched count. -/
theorem no_reuse {α : Type} (A : Arith α) (sysTxs : List (SystemTransaction α))
    (bankTxs : List (BankStatement α)) :
    ∃ r tr, Reconcile A sysTxs bankTxs = some (r, none) ∧
      pairing A sysTxs bankTxs = some tr ∧ tr.length = sysTxs.length ∧
      r.TotalMatchedTransactions = matchedCount tr ∧
      (∀ (k1 k2 i : Nat), tr[k1]? = some (some i) → tr[k2]? = some (some i) → k1 = k2) ∧
      (∀ i, some i ∈ tr → i < bankTxs.length) ∧
      (∀ key : String,
        ((r.BankUnMatchedTransactionsDetail.get key).map
            (fun d => d.ThisBankUnMatchedTransList)).getD [] =
          (unpartnered tr bankTxs).filter (fun b => decide (b.FilePath = key))) ∧
      (r.BankUnMatchedTransactionsDetail.map
          (fun e => e.2.ThisBankUnMatchedTransList.length)).sum =
        (unpartnered tr bankTxs).length ∧
      (unpartnered tr bankTxs).length + r.TotalMatchedTransactions = bankTxs.length := by
  obtain ⟨st, tr, hrun, hpair, -, hrec⟩ := Reconcile_run A sysTxs bankTxs
  obtain ⟨-, -, hm, -, -, -⟩ := run_report hrun
  have hlen : st.alreadyMatch.length = bankTxs.length := by
    rw [run_alreadyMatch_length hrun]; simp [initState]
  have hfin := unmatchedOf_final hrun
  have hcount := run_count hrun
  rw [initState_count] at hcount
  have hsum := groupedCount_groupInto (unmatchedOf st.alreadyMatch bankTxs) []
  simp only [groupedCount, List.map_nil, List.sum_nil, Nat.zero_add] at hsum
  refine ⟨_, tr, hrec, hpair, run_length hrun, ?_, run_injective hrun, ?_, ?_, ?_, ?_⟩
  · simpa [reportOf, initState] using hm
  · intro i hi
    obtain ⟨-, b, hb⟩ := run_fresh hrun i hi
    exact (List.getElem?_eq_some_iff.1 hb).1
  · intro key
    have hg := get_groupInto (unmatchedOf st.alreadyMatch bankTxs) [] key
    simp only [reportOf, get_map_toDetail, Option.map_map, Function.comp_def]
    rw [← hfin, ← List.nil_append (List.filter _ _)]
    rw [show ([] : List (BankStatement α)) = ((GoMap.get [] key).getD []) from rfl, ← hg]
    cases GoMap.get (groupInto [] (unmatchedOf st.alreadyMatch bankTxs)) key <;> rfl
  · rw [← hfin, ← hsum]
    simp [reportOf, toDetail, Function.comp_def]
  · have h2 := length_unmatchedOf st.alreadyMatch bankTxs hlen
    rw [← hfin]
    simp only [reportOf, hm, initState] at *
    omega

/-- C6. Grouping: the keys of the unmatched-statement map are distinct and
are exactly the origins of the statements whose marker is false; the list
under a key is exactly those statements with that origin, in input order, and
the count is its length; two unmatched statements of different origins are
reported under two different keys. -/
theorem grouping {α : Type} (A : Arith α) (sysTxs : List (SystemTransaction α))
    (bankTxs : List (BankStatement α)) :
    ∃ r flags, Reconcile A sysTxs bankTxs = some (r, none) ∧
      finalMarkers A sysTxs bankTxs = some flags ∧ flags.length = bankTxs.length ∧
      r.BankUnMatchedTransactionsDetail.keys.Nodup ∧
      (∀ key : String, key ∈ r.BankUnMatchedTransactionsDetail.keys ↔
        ∃ b ∈ unmatchedOf flags bankTxs, b.FilePath = key) ∧
      (∀ (key : String) (d : ThisBankUnMatchedTransDetails α),
        r.BankUnMatchedTransactionsDetail.get key = some d →
          d.ThisBankUnMatchedTransList =
            (unmatchedOf flags bankTxs).filter (fun b => decide (b.FilePath = key)) ∧
          d.ThisBankUnMatchedTransCount = d.ThisBankUnMatchedTransList.length) ∧
      (∀ b1 ∈ unmatchedOf flags bankTxs, ∀ b2 ∈ unmatchedOf flags bankTxs,
        b1.FilePath ≠ b2.FilePath →
          ∃ d1 d2, r.BankUnMatchedTransactionsDetail.get b1.FilePath = some d1 ∧
            r.BankUnMatchedTransactionsDetail.get b2.FilePath = some d2 ∧
            b1 ∈ d1.ThisBankUnMatchedTransList ∧ b2 ∈ d2.ThisBankUnMatchedTransList ∧
            b1 ∉ d2.ThisBankUnMatchedTransList ∧ b2 ∉ d1.ThisBankUnMatchedTransList) := by
  obtain ⟨st, tr, hrun, -, hfl, hrec⟩ := Reconcile_run A sysTxs bankTxs
  have hlen : st.alreadyMatch.length = bankTxs.length := by
    rw [run_alreadyMatch_length hrun]; simp [initState]
  have hkeys : ∀ key : String, key ∈ (reportOf bankTxs st).BankUnMatchedTransactionsDetail.keys ↔
      ∃ b ∈ unmatchedOf st.alreadyMatch bankTxs, b.FilePath = key := by
    intro key
    have := mem_keys_groupInto (unmatchedOf st.alreadyMatch bankTxs) [] key
    have hk0 : key ∉ GoMap.keys ([] : GoMap (List (BankStatement α))) := by simp [GoMap.keys]
    simp only [reportOf, keys_map_toDetail]
    rw [this]
    simp [hk0]
  have hget : ∀ (key : String) (d : ThisBankUnMatchedTransDetails α),
      (reportOf bankTxs st).BankUnMatchedTransactionsDetail.get key = some d →
        d.ThisBankUnMatchedTransList =
          (unmatchedOf st.alreadyMatch bankTxs).filter (fun b => decide (b.FilePath = key)) ∧
        d.ThisBankUnMatchedTransCount = d.ThisBankUnMatchedTransList.length := by
    intro key d hd
    have hg := get_groupInto (unmatchedOf st.alreadyMatch bankTxs) [] key
    simp only [reportOf, get_map_toDetail] at hd
    cases hk : GoMap.get (groupInto [] (unmatchedOf st.alreadyMatch bankTxs)) key with
    | none => rw [hk] at hd; cases hd
    | some txs =>
      rw [hk] at hd hg
      simp only [Option.map_some', Option.some.injEq] at hd
      subst hd
      simp only [Option.getD_some, GoMap.get, List.lookup, Option.getD_none,
        List.nil_append] at hg
      exact ⟨hg, rfl⟩
  have hsome : ∀ b ∈ unmatchedOf st.alreadyMatch bankTxs,
      ∃ d, (reportOf bankTxs st).BankUnMatchedTransactionsDetail.get b.FilePath = some d := by
    intro b hb
    have hk := (hkeys b.FilePath).2 ⟨b, hb, rfl⟩
    cases hd : (reportOf bankTxs st).BankUnMatchedTransactionsDetail.get b.FilePath with
    | none => exact absurd hk ((GoMap.get_eq_none_iff _ _).1 hd)
    | some d => exact ⟨d, rfl⟩
  refine ⟨_, st.alreadyMatch, hrec, hfl, hlen, ?_, hkeys, hget, ?_⟩
  · have := nodup_keys_groupInto (unmatchedOf st.alreadyMatch bankTxs) []
      (by simp [GoMap.keys])
    simpa [reportOf, keys_map_toDetail] using this
  · intro b1 hb1 b2 hb2 hne
    obtain ⟨d1, hd1⟩ := hsome b1 hb1
    obtain ⟨d2, hd2⟩ := hsome b2 hb2
    have e1 := (hget _ _ hd1).1
    have e2 := (hget _ _ hd2).1
    refine ⟨d1, d2, hd1, hd2, ?_, ?_, ?_, ?_⟩
    · rw [e1]; simp [hb1]
    · rw [e2]; simp [hb2]
    · rw [e2]; simp [hne]
    · rw [e1]; simp [Ne.symm hne]

theorem unmatchedLedger_sublist {α : Type} :
    ∀ (l : List (SystemTransaction α)) (tr : List (Option Nat)),
      (unmatchedLedger l tr).Sublist l := by
  intro l
  induction l with
  | nil => intro tr; simp [unmatchedLedger]
  | cons x l ih =>
    intro tr
    cases tr with
    | nil => simp [unmatchedLedger]
    | cons m tr =>
      have := ih tr
      simp only [unmatchedLedger] at this
      simp only [unmatchedLedger, List.zip_cons_cons, List.filter_cons]
      split
      · simpa using this
      · exact List.Sublist.cons _ this

/-- C8. Unmatched ledger section: the list holds exactly the ledger records
whose partner is `none` in the pairing, unchanged and in ledger order, and the
count is the length of the list. -/
theorem unmatched_ledger_section {α : Type} (A : Arith α)
    (sysTxs : List (SystemTransaction α)) (bankTxs : List (BankStatement α)) :
    ∃ r tr, Reconcile A sysTxs bankTxs = some (r, none) ∧
      pairing A sysTxs bankTxs = some tr ∧ tr.length = sysTxs.length ∧
      r.SysUnMatchedDetail.SystemTransMissingBankList =
        ((sysTxs.zip tr).filter (fun q => q.2.isNone)).map Prod.fst ∧
      r.SysUnMatchedDetail.SystemTransMissingBankList.Sublist sysTxs ∧
      r.SysUnMatchedDetail.TotalSystemTransMissingBank =
        r.SysUnMatchedDetail.SystemTransMissingBankList.length := by
  obtain ⟨st, tr, hrun, hpair, -, hrec⟩ := Reconcile_run A sysTxs bankTxs
  obtain ⟨-, -, -, hl, hc, -⟩ := run_report hrun
  have hl2 : (reportOf bankTxs st).SysUnMatchedDetail.SystemTransMissingBankList =
      unmatchedLedger sysTxs tr := by
    simpa [reportOf, initState] using hl
  refine ⟨_, tr, hrec, hpair, run_length hrun, hl2, ?_, ?_⟩
  · rw [hl2]; exact unmatchedLedger_sublist sysTxs tr
  · rw [hl2]
    simpa [reportOf, initState] using hc

/-- C9. Reconcile never fails: for all inputs it returns a report and a nil
error, no index expression being out of range; on two empty inputs the report
is the empty one. -/
theorem never_fails {α : Type} (A : Arith α) :
    (∀ (sysTxs : List (SystemTransaction α)) (bankTxs : List (BankStatement α)),
      ∃ r, Reconcile A sysTxs bankTxs = some (r, none)) ∧
    Reconcile A [] [] =
      some ({ TotalTransactions := 0, TotalMatchedTransactions := 0,
              SysUnMatchedDetail :=
                { TotalSystemTransMissingBank := 0, SystemTransMissingBankList := [] },
              BankUnMatchedTransactionsDetail := [],
              TotalDiscrepanciesAmount := A.zero }, none) := by
  constructor
  · intro sysTxs bankTxs
    obtain ⟨st, tr, -, -, -, hrec⟩ := Reconcile_run A sysTxs bankTxs
    exact ⟨_, hrec⟩
  · rfl

theorem get_reportOf {α : Type} {A : Arith α} {sysTxs : List (SystemTransaction α)}
    {bankTxs : List (BankStatement α)} {st : LoopState α} {tr : List (Option Nat)}
    (h : Run A bankTxs sysTxs (initState A sysTxs bankTxs) st tr) (key : String) :
    (((reportOf bankTxs st).BankUnMatchedTransactionsDetail.get key).map
        (fun d => d.ThisBankUnMatchedTransList)).getD [] =
      (unpartnered tr bankTxs).filter (fun b => decide (b.FilePath = key)) := by
  have hg := get_groupInto (unmatchedOf st.alreadyMatch bankTxs) [] key
  simp only [reportOf, get_map_toDetail, Option.map_map, Function.comp_def]
  rw [← unmatchedOf_final h, ← List.nil_append (List.filter _ _)]
  rw [show ([] : List (BankStatement α)) = ((GoMap.get [] key).getD []) from rfl, ← hg]
  cases GoMap.get (groupInto [] (unmatchedOf st.alreadyMatch bankTxs)) key <;> rfl

theorem unpartnered_single {α : Type} (bankTxs : List (BankStatement α)) (i : Nat) :
    unpartnered [some i] bankTxs = bankTxs.eraseIdx i := by
  rw [unpartnered]
  refine Eq.trans (List.filterMap_congr ?_) (filterMap_range_erase bankTxs i)
  intro j _
  simp

/-- C4. First fit: the ledger records are processed in order, and the partner
of the `k`-th one is the statement of least index that is not the partner of an
earlier ledger record and passes the test of line 243; when there is no such
statement the record is in the unmatched-ledger list.  For a one-record ledger
whose least candidate has index `i`, the report has one match, no unmatched
ledger record, and its unmatched statements are the statements with position
`i` removed. -/
theorem first_fit {α : Type} (A : Arith α) (sysTxs : List (SystemTransaction α))
    (bankTxs : List (BankStatement α)) :
    ∃ r tr, Reconcile A sysTxs bankTxs = some (r, none) ∧
      pairing A sysTxs bankTxs = some tr ∧ tr.length = sysTxs.length ∧
      (∀ (k : Nat) (sysTx : SystemTransaction α), sysTxs[k]? = some sysTx →
        (∀ p, tr[k]? = some (some p) →
          ∃ b, bankTxs[p]? = some b ∧
            (¬ ∃ k1, k1 < k ∧ tr[k1]? = some (some p)) ∧
            candidate A sysTx b = true ∧
            ∀ (j : Nat) (b1 : BankStatement α), j < p → bankTxs[j]? = some b1 →
              (∃ k1, k1 < k ∧ tr[k1]? = some (some j)) ∨ candidate A sysTx b1 = false) ∧
        (tr[k]? = some none →
          (∀ (j : Nat) (b1 : BankStatement α), bankTxs[j]? = some b1 →
            (∃ k1, k1 < k ∧ tr[k1]? = some (some j)) ∨ candidate A sysTx b1 = false) ∧
          sysTx ∈ r.SysUnMatchedDetail.SystemTransMissingBankList)) ∧
      (∀ (L : SystemTransaction α) (i : Nat) (b : BankStatement α), sysTxs = [L] →
        bankTxs[i]? = some b → candidate A L b = true →
        (∀ (j : Nat) (b1 : BankStatement α), j < i → bankTxs[j]? = some b1 →
          candidate A L b1 = false) →
        tr = [some i] ∧ r.TotalMatchedTransactions = 1 ∧
          r.SysUnMatchedDetail.SystemTransMissingBankList = [] ∧
          ∀ key : String,
            ((r.BankUnMatchedTransactionsDetail.get key).map
                (fun d => d.ThisBankUnMatchedTransList)).getD [] =
              (bankTxs.eraseIdx i).filter (fun b => decide (b.FilePath = key))) := by
  obtain ⟨st, tr, hrun, hpair, -, hrec⟩ := Reconcile_run A sysTxs bankTxs
  obtain ⟨-, -, hm, hl, -, -⟩ := run_report hrun
  have hl2 : (reportOf bankTxs st).SysUnMatchedDetail.SystemTransMissingBankList =
      unmatchedLedger sysTxs tr := by
    simpa [reportOf, initState] using hl
  have hm2 : (reportOf bankTxs st).TotalMatchedTransactions = matchedCount tr := by
    simpa [reportOf, initState] using hm
  have hcb : ∀ k j, consumedBefore (initState A sysTxs bankTxs).alreadyMatch tr k j ↔
      ∃ k1, k1 < k ∧ tr[k1]? = some (some j) := by
    intro k j
    simp only [consumedBefore]
    constructor
    · rintro (h1 | h1)
      · exact absurd h1 (initState_getElem? A sysTxs bankTxs j)
      · exact h1
    · exact Or.inr
  have hff : ∀ (k : Nat) (sysTx : SystemTransaction α), sysTxs[k]? = some sysTx →
      (∀ p, tr[k]? = some (some p) →
        ∃ b, bankTxs[p]? = some b ∧
          (¬ ∃ k1, k1 < k ∧ tr[k1]? = some (some p)) ∧
          candidate A sysTx b = true ∧
          ∀ (j : Nat) (b1 : BankStatement α), j < p → bankTxs[j]? = some b1 →
            (∃ k1, k1 < k ∧ tr[k1]? = some (some j)) ∨ candidate A sysTx b1 = false) ∧
      (tr[k]? = some none →
        (∀ (j : Nat) (b1 : BankStatement α), bankTxs[j]? = some b1 →
          (∃ k1, k1 < k ∧ tr[k1]? = some (some j)) ∨ candidate A sysTx b1 = false)) := by
    intro k sysTx hk
    obtain ⟨f1, f2⟩ := run_firstFit hrun k sysTx hk
    constructor
    · intro p hp
      obtain ⟨b, hb, hn, hc, hmin⟩ := f1 p hp
      refine ⟨b, hb, fun hcon => hn ((hcb k p).2 hcon), hc, ?_⟩
      intro j b1 hj hjb
      rcases hmin j b1 hj hjb with h1 | h1
      · exact Or.inl ((hcb k j).1 h1)
      · exact Or.inr h1
    · intro hq j b1 hjb
      rcases f2 hq j b1 hjb with h1 | h1
      · exact Or.inl ((hcb k j).1 h1)
      · exact Or.inr h1
  refine ⟨_, tr, hrec, hpair, run_length hrun, ?_, ?_⟩
  · intro k sysTx hk
    refine ⟨(hff k sysTx hk).1, fun hq => ⟨(hff k sysTx hk).2 hq, ?_⟩⟩
    rw [hl2]
    exact mem_unmatchedLedger sysTxs tr k sysTx hk hq
  · intro L i b hL hb hc hmin
    subst hL
    have hlen := run_length hrun
    obtain ⟨f1, f2⟩ := hff 0 L rfl
    have htr : tr = [some i] := by
      cases tr with
      | nil => simp at hlen
      | cons m tr =>
        cases tr with
        | cons m2 tr => simp at hlen
        | nil =>
          cases m with
          | none =>
            rcases f2 rfl i b hb with ⟨k1, hk1, -⟩ | h1
            · omega
            · rw [hc] at h1; cases h1
          | some p =>
            obtain ⟨b2, hb2, -, hc2, hmin2⟩ := f1 p rfl
            have h1 : ¬ i < p := by
              intro hlt
              rcases hmin2 i b hlt hb with ⟨k1, hk1, -⟩ | h1
              · omega
              · rw [hc] at h1; cases h1
            have h2 : ¬ p < i := by
              intro hlt
              have := hmin p b2 hlt hb2
              rw [hc2] at this; cases this
            have : p = i := by omega
            rw [this]
    subst htr
    refine ⟨rfl, ?_, ?_, ?_⟩
    · rw [hm2]; rfl
    · rw [hl2]; rfl
    · intro key
      rw [get_reportOf hrun key, unpartnered_single]

/-! ## One ledger record against one statement -/

theorem Reconcile_single {α : Type} (A : Arith α) (L : SystemTransaction α)
    (S : BankStatement α) :
    Reconcile A [L] [S] =
      some (if candidate A L S then matchedReport A L S else unmatchedReport A L S, none) := by
  cases hc : candidate A L S with
  | true =>
    simp only [Reconcile, initState, outerLoop, innerLoop, List.length_cons, List.length_nil,
      List.replicate, List.getElem?_cons_zero, hc, if_true, takeMatch, List.set_cons_zero,
      Option.isSome_some, groupLoop, detailLoop, matchedReport]
    split <;> rfl
  | false =>
    simp [Reconcile, initState, outerLoop, innerLoop, hc, recordUnmatched, groupLoop,
      detailLoop, unmatchedReport, GoMap.set, GoMap.get]

theorem F64.lt_irrefl (x : F64) : lt x x = false := by
  cases x with
  | nan => rfl
  | inf s => cases s <;> rfl
  | fin s a => simp [lt]

theorem F64.lit_half : lit 50 2 = fin false (2 ^ 1073) := by decide!

theorem F64.lit_five : lit 50 1 = fin false (5 * 2 ^ 1074) := by decide!

set_option exponentiation.threshold 3000 in
theorem F64.lt_five_of_lt_half (d : F64) (h : lt d (lit 50 2) = true) :
    lt d (lit 50 1) = true := by
  rw [lit_half] at h
  rw [lit_five]
  cases d with
  | nan => simp [lt] at h
  | inf s => simpa [lt] using h
  | fin s a =>
    simp only [lt, decide_eq_true_eq, signed] at h ⊢
    have h2 : ((2 : Int) ^ 1073) < 5 * 2 ^ 1074 := by norm_num
    simp only [Bool.false_eq_true, if_false] at h ⊢
    have h3 : ((2 ^ 1073 : Nat) : Int) = (2 : Int) ^ 1073 := by push_cast
    have h4 : ((5 * 2 ^ 1074 : Nat) : Int) = 5 * (2 : Int) ^ 1074 := by push_cast
    rw [h3] at h
    rw [h4]
    exact Int.lt_trans h h2

/-- C3. Matching rule on the float64 program: for one ledger record and one
statement, the report has exactly one match iff the dates are equal and
`math.Abs(L.Amount - S.Amount) < 0.50`; otherwise it has no match, the
ledger record is the unmatched-ledger list and the statement is the one
unmatched statement of its origin.  A same-date pair whose difference is
exactly 0.50 is not matched. -/
theorem matching_rule (L : SystemTransaction F64) (S : BankStatement F64) :
    ∃ r, Reconcile f64 [L] [S] = some (r, none) ∧
      (r.TotalMatchedTransactions = 1 ↔
        (L.TransactionTime = S.Date ∧
          F64.lt (F64.abs (F64.sub L.Amount S.Amount)) (F64.lit 50 2) = true)) ∧
      (¬ (L.TransactionTime = S.Date ∧
          F64.lt (F64.abs (F64.sub L.Amount S.Amount)) (F64.lit 50 2) = true) →
        r.TotalMatchedTransactions = 0 ∧
        r.SysUnMatchedDetail.SystemTransMissingBankList = [L] ∧
        r.SysUnMatchedDetail.TotalSystemTransMissingBank = 1 ∧
        r.BankUnMatchedTransactionsDetail =
          [(S.FilePath,
            { ThisBankUnMatchedTransCount := 1, ThisBankUnMatchedTransList := [S] })]) ∧
      ((L.TransactionTime = S.Date ∧
          F64.lt (F64.abs (F64.sub L.Amount S.Amount)) (F64.lit 50 2) = true) →
        r.SysUnMatchedDetail.SystemTransMissingBankList = [] ∧
        r.BankUnMatchedTransactionsDetail = []) ∧
      (L.TransactionTime = S.Date →
        F64.abs (F64.sub L.Amount S.Amount) = F64.lit 50 2 →
        r.TotalMatchedTransactions = 0) := by
  have hcand : candidate f64 L S = true ↔
      (L.TransactionTime = S.Date ∧
        F64.lt (F64.abs (F64.sub L.Amount S.Amount)) (F64.lit 50 2) = true) := by
    simp [candidate, f64]
  refine ⟨_, Reconcile_single f64 L S, ?_, ?_, ?_, ?_⟩
  · rw [← hcand]
    cases hc : candidate f64 L S <;> simp [matchedReport, unmatchedReport]
  · rw [← hcand]
    intro hc
    simp only [Bool.not_eq_true] at hc
    simp [hc, unmatchedReport]
  · rw [← hcand]
    intro hc
    simp [hc, matchedReport]
  · intro hd heq
    have hc : candidate f64 L S = false := by
      simp [candidate, f64, heq, F64.lt_irrefl]
    simp [hc, unmatchedReport]

/-- C5. Discrepancy banding on the float64 program: the discrepancy total is
the running float64 sum, from zero and in ledger order, of the differences
`d = math.Abs(L.Amount - S.Amount)` of exactly those matched pairs with
`0.01 < d` and `d < 5.0`; the other matched pairs add nothing.  For one ledger
record and one same-date statement, `d = 0` gives a match and total 0,
`d = 0.30` a match and total 0.30, `d = 0.005` a match and total 0, and
`d = 0.01` a match and total 0. -/
theorem discrepancy_banding :
    (∀ (sysTxs : List (SystemTransaction F64)) (bankTxs : List (BankStatement F64)),
      ∃ r tr, Reconcile f64 sysTxs bankTxs = some (r, none) ∧
        pairing f64 sysTxs bankTxs = some tr ∧
        r.TotalDiscrepanciesAmount =
          ((sysTxs.zip tr).filterMap
            (fun q => q.2.bind (fun p => (bankTxs[p]?).bind (fun b =>
              if F64.lt (F64.lit 1 2) (F64.abs (F64.sub q.1.Amount b.Amount)) &&
                  F64.lt (F64.abs (F64.sub q.1.Amount b.Amount)) (F64.lit 50 1)
              then some (F64.abs (F64.sub q.1.Amount b.Amount)) else none)))).foldl
            F64.add (F64.fin false 0)) ∧
    (∀ (L : SystemTransaction F64) (S : BankStatement F64), L.TransactionTime = S.Date →
      ∀ d, F64.abs (F64.sub L.Amount S.Amount) = d →
        ∃ r, Reconcile f64 [L] [S] = some (r, none) ∧
          (d = F64.fin false 0 →
            r.TotalMatchedTransactions = 1 ∧ r.TotalDiscrepanciesAmount = F64.fin false 0) ∧
          (d = F64.lit 30 2 →
            r.TotalMatchedTransactions = 1 ∧ r.TotalDiscrepanciesAmount = F64.lit 30 2) ∧
          (d = F64.lit 5 3 →
            r.TotalMatchedTransactions = 1 ∧ r.TotalDiscrepanciesAmount = F64.fin false 0) ∧
          (d = F64.lit 1 2 →
            r.TotalMatchedTransactions = 1 ∧ r.TotalDiscrepanciesAmount = F64.fin false 0)) := by
  constructor
  · intro sysTxs bankTxs
    obtain ⟨st, tr, hrun, hpair, -, hrec⟩ := Reconcile_run f64 sysTxs bankTxs
    obtain ⟨-, -, -, -, -, hd⟩ := run_report hrun
    exact ⟨_, tr, hrec, hpair, hd⟩
  · intro L S hdate d hd
    have hcand : F64.lt d (F64.lit 50 2) = true → candidate f64 L S = true := by
      intro h
      simp only [candidate, hdate, decide_True, Bool.true_and]
      show F64.lt (F64.abs (F64.sub L.Amount S.Amount)) (F64.lit 50 2) = true
      rw [hd]; exact h
    have hrep : (matchedReport f64 L S).TotalMatchedTransactions = 1 ∧
        (matchedReport f64 L S).TotalDiscrepanciesAmount =
          if F64.lt (F64.lit 1 2) d && F64.lt d (F64.lit 50 1) then
            F64.add (F64.fin false 0) d
          else F64.fin false 0 := by
      refine ⟨rfl, ?_⟩
      show (if F64.lt (F64.lit 1 2) (F64.abs (F64.sub L.Amount S.Amount)) &&
          F64.lt (F64.abs (F64.sub L.Amount S.Amount)) (F64.lit 50 1) then
            F64.add (F64.fin false 0) (F64.abs (F64.sub L.Amount S.Amount))
          else F64.fin false 0) = _
      rw [hd]
    refine ⟨_, Reconcile_single f64 L S, ?_, ?_, ?_, ?_⟩
    · intro h0
      subst h0
      rw [if_pos (hcand (by decide!)), hrep.2]
      exact ⟨hrep.1, by decide!⟩
    · intro h0
      subst h0
      rw [if_pos (hcand (by decide!)), hrep.2]
      exact ⟨hrep.1, by decide!⟩
    · intro h0
      subst h0
      rw [if_pos (hcand (by decide!)), hrep.2]
      exact ⟨hrep.1, by decide!⟩
    · intro h0
      subst h0
      rw [if_pos (hcand (by decide!)), hrep.2]
      exact ⟨hrep.1, by decide!⟩

/-- C7 (counterexample). On the fixture the discrepancy total returned by the
float64 program is not the float64 constant `0.30`. -/
theorem fixture_total_ne :
    (Reconcile f64 (fixtureLedger f64) (fixtureStatements f64)).map
        (fun p => p.1.TotalDiscrepanciesAmount) ≠ some (F64.lit 30 2) := by
  decide!

/-- C7 (amended). Fixture scenario: on the fixture of src/main_test.go the
float64 program returns no error, 6 records in total, 2 matches, the 100.00
ledger record as the one unmatched ledger record, the 105.00 statement as the
one unmatched statement of bank_A.csv, and as discrepancy total the float64
difference `1500.50 - 1500.20`, which is `5404319552843776 * 2^(-54)`, 819
units in the last place below the float64 constant `0.30`; in exact
arithmetic the same run gives the total `3/10`. -/
theorem fixture_scenario :
    (Reconcile f64 (fixtureLedger f64) (fixtureStatements f64) =
        some ({ TotalTransactions := 6,
                TotalMatchedTransactions := 2,
                SysUnMatchedDetail :=
                  { TotalSystemTransMissingBank := 1,
                    SystemTransMissingBankList :=
                      [ { TrxID := "TXN003", Amount := F64.lit 10000 2, Type_ := "CREDIT",
                          TransactionTime := "2025-07-08" } ] },
                BankUnMatchedTransactionsDetail :=
                  [ ("bank_A.csv",
                      { ThisBankUnMatchedTransCount := 1,
                        ThisBankUnMatchedTransList :=
                          [ { UniqueIdentifier := "BS003", Amount := F64.lit 10500 2,
                              Date := "2025-07-08", FilePath := "bank_A.csv" } ] }) ],
                TotalDiscrepanciesAmount :=
                  F64.sub (F64.lit 150050 2) (F64.lit 150020 2) }, none) ∧
      F64.sub (F64.lit 150050 2) (F64.lit 150020 2) =
        F64.fin false (5404319552843776 * 2 ^ 1020) ∧
      F64.lit 30 2 = F64.fin false (5404319552844595 * 2 ^ 1020)) ∧
    Reconcile exact (fixtureLedger exact) (fixtureStatements exact) =
        some ({ TotalTransactions := 6,
                TotalMatchedTransactions := 2,
                SysUnMatchedDetail :=
                  { TotalSystemTransMissingBank := 1,
                    SystemTransMissingBankList :=
                      [ { TrxID := "TXN003", Amount := 100, Type_ := "CREDIT",
                          TransactionTime := "2025-07-08" } ] },
                BankUnMatchedTransactionsDetail :=
                  [ ("bank_A.csv",
                      { ThisBankUnMatchedTransCount := 1,
                        ThisBankUnMatchedTransList :=
                          [ { UniqueIdentifier := "BS003", Amount := 105,
                              Date := "2025-07-08", FilePath := "bank_A.csv" } ] }) ],
                TotalDiscrepanciesAmount := 3 / 10 }, none) := by
  decide!

/-! ## The variant without the upper discrepancy bound -/

theorem takeMatchNoUpper_eq {α : Type} (A : Arith α)
    (hdead : ∀ d, A.lt d (A.lit 50 2) = true → A.lt d (A.lit 50 1) = true)
    (sysTx : SystemTransaction α) (bankTx : BankStatement α) (i : Nat) (st : LoopState α)
    (hc : candidate A sysTx bankTx = true) :
    takeMatchNoUpper A sysTx bankTx i st = takeMatch A sysTx bankTx i st := by
  have h5 : A.lt (A.abs (A.sub sysTx.Amount bankTx.Amount)) (A.lit 50 1) = true := by
    apply hdead
    simp only [candidate, Bool.and_eq_true] at hc
    exact hc.2
  simp only [takeMatchNoUpper, takeMatch, h5, Bool.and_true]

theorem innerLoopNoUpper_eq {α : Type} (A : Arith α)
    (hdead : ∀ d, A.lt d (A.lit 50 2) = true → A.lt d (A.lit 50 1) = true)
    (sysTx : SystemTransaction α) (st : LoopState α) :
    ∀ (rest : List (BankStatement α)) (i : Nat),
      innerLoopNoUpper A sysTx rest i st = innerLoop A sysTx rest i st := by
  intro rest
  induction rest with
  | nil => intro i; rfl
  | cons b rest ih =>
    intro i
    simp only [innerLoopNoUpper, innerLoop, ih]
    cases hf : st.alreadyMatch[i]? with
    | none => rfl
    | some f =>
      cases f with
      | true => rfl
      | false =>
        cases hc : candidate A sysTx b with
        | true =>
          simp only [if_true, takeMatchNoUpper_eq A hdead sysTx b i st hc]
        | false => rfl

theorem outerLoopNoUpper_eq {α : Type} (A : Arith α)
    (hdead : ∀ d, A.lt d (A.lit 50 2) = true → A.lt d (A.lit 50 1) = true)
    (bankTxs : List (BankStatement α)) :
    ∀ (l : List (SystemTransaction α)) (st : LoopState α),
      outerLoopNoUpper A bankTxs l st = outerLoop A bankTxs l st := by
  intro l
  induction l with
  | nil => intro st; rfl
  | cons x l ih =>
    intro st
    simp only [outerLoopNoUpper, outerLoop, innerLoopNoUpper_eq A hdead, ih]

/-- C10. Dead upper band on the float64 program: every pair matched by
Reconcile has a difference below 5.0, and Reconcile returns the same result as
the variant whose discrepancy test is only `amtDiff > 0.01`. -/
theorem dead_upper_band (sysTxs : List (SystemTransaction F64))
    (bankTxs : List (BankStatement F64)) :
    (∃ tr, pairing f64 sysTxs bankTxs = some tr ∧
      ∀ (k p : Nat) (sysTx : SystemTransaction F64) (bankTx : BankStatement F64),
        sysTxs[k]? = some sysTx → tr[k]? = some (some p) → bankTxs[p]? = some bankTx →
          F64.lt (F64.abs (F64.sub sysTx.Amount bankTx.Amount)) (F64.lit 50 1) = true) ∧
    ReconcileNoUpper f64 sysTxs bankTxs = Reconcile f64 sysTxs bankTxs := by
  constructor
  · obtain ⟨st, tr, hrun, hpair, -, -⟩ := Reconcile_run f64 sysTxs bankTxs
    refine ⟨tr, hpair, ?_⟩
    intro k p sysTx bankTx hk hp hb
    obtain ⟨b, hb2, -, hc, -⟩ := (run_firstFit hrun k sysTx hk).1 p hp
    rw [hb] at hb2
    cases hb2
    apply F64.lt_five_of_lt_half
    simp only [candidate, Bool.and_eq_true] at hc
    exact hc.2
  · simp only [ReconcileNoUpper, Reconcile,
      outerLoopNoUpper_eq f64 F64.lt_five_of_lt_half]

/-- A remark on decimal inputs: the float64 values of 0.70 and 0.20 differ by
less than 0.50 (by `0x1.fffffffffffffp-2`), so such a pair is matched, and the
float64 values of 100.30 and 100.00 differ by less than the constant 0.30. -/
theorem decimal_inputs_remark :
    F64.lt (F64.abs (F64.sub (F64.lit 70 2) (F64.lit 20 2))) (F64.lit 50 2) = true ∧
    F64.lt (F64.abs (F64.sub (F64.lit 10030 2) (F64.lit 10000 2))) (F64.lit 30 2) = true := by
  decide!

/-- C3 (instance). The amounts 100.50 and 100.00 on the same date differ by
exactly 0.50 in float64 and are not matched. -/
theorem matching_rule_witness :
    F64.abs (F64.sub (F64.lit 10050 2) (F64.lit 10000 2)) = F64.lit 50 2 ∧
    (Reconcile f64
        [{ TrxID := "TXN001", Amount := F64.lit 10050 2, Type_ := "DEBIT",
           TransactionTime := "2025-07-08" }]
        [{ UniqueIdentifier := "BS001", Amount := F64.lit 10000 2, Date := "2025-07-08",
           FilePath := "bank_A.csv" }]).map (fun p => p.1.TotalMatchedTransactions) =
      some 0 := by
  refine ⟨by decide!, ?_⟩
  obtain ⟨r, hr, -, -, -, h5⟩ := matching_rule
    { TrxID := "TXN001", Amount := F64.lit 10050 2, Type_ := "DEBIT",
      TransactionTime := "2025-07-08" }
    { UniqueIdentifier := "BS001", Amount := F64.lit 10000 2, Date := "2025-07-08",
      FilePath := "bank_A.csv" }
  rw [hr]
  simp only [Option.map_some', Option.some.injEq]
  exact h5 rfl (by decide!)

/-- C4 (instance). A ledger record of 100.00 against the statements 100.30
and 100.00 of the same date takes the first one, though the second is closer. -/
theorem first_fit_witness :
    pairing f64
        [{ TrxID := "TXN001", Amount := F64.lit 10000 2, Type_ := "DEBIT",
           TransactionTime := "2025-07-08" }]
        [{ UniqueIdentifier := "BS001", Amount := F64.lit 10030 2, Date := "2025-07-08",
           FilePath := "bank_A.csv" },
         { UniqueIdentifier := "BS002", Amount := F64.lit 10000 2, Date := "2025-07-08",
           FilePath := "bank_B.csv" }] = some [some 0] := by
  obtain ⟨r, tr, -, hpair, -, -, hone⟩ := first_fit f64
    [{ TrxID := "TXN001", Amount := F64.lit 10000 2, Type_ := "DEBIT",
       TransactionTime := "2025-07-08" }]
    [{ UniqueIdentifier := "BS001", Amount := F64.lit 10030 2, Date := "2025-07-08",
       FilePath := "bank_A.csv" },
     { UniqueIdentifier := "BS002", Amount := F64.lit 10000 2, Date := "2025-07-08",
       FilePath := "bank_B.csv" }]
  rw [hpair]
  have h := (hone _ 0 _ rfl rfl (by decide!) (by intro j b1 hj; omega)).1
  rw [h]

/-- C5 (instance). The amounts 0.30 and 0 on the same date differ by the
float64 constant 0.30; the pair is matched and the discrepancy total is 0.30. -/
theorem discrepancy_banding_witness :
    F64.abs (F64.sub (F64.lit 30 2) (F64.fin false 0)) = F64.lit 30 2 ∧
    (Reconcile f64
        [{ TrxID := "TXN001", Amount := F64.lit 30 2, Type_ := "DEBIT",
           TransactionTime := "2025-07-08" }]
        [{ UniqueIdentifier := "BS001", Amount := F64.fin false 0, Date := "2025-07-08",
           FilePath := "bank_A.csv" }]).map
        (fun p => (p.1.TotalMatchedTransactions, p.1.TotalDiscrepanciesAmount)) =
      some (1, F64.lit 30 2) := by
  refine ⟨by decide!, ?_⟩
  obtain ⟨r, hr, -, h30, -, -⟩ := discrepancy_banding.2
    { TrxID := "TXN001", Amount := F64.lit 30 2, Type_ := "DEBIT",
      TransactionTime := "2025-07-08" }
    { UniqueIdentifier := "BS001", Amount := F64.fin false 0, Date := "2025-07-08",
      FilePath := "bank_A.csv" } rfl (F64.lit 30 2) (by decide!)
  rw [hr]
  simp only [Option.map_some', Option.some.injEq, Prod.mk.injEq]
  exact h30 rfl

/-! ## Further properties -/

theorem unmatchedOf_cons_true {α : Type} (flags : List Bool) (b : BankStatement α)
    (S : List (BankStatement α)) :
    unmatchedOf (true :: flags) (b :: S) = unmatchedOf flags S := rfl

theorem unmatchedOf_cons_false {α : Type} (flags : List Bool) (b : BankStatement α)
    (S : List (BankStatement α)) :
    unmatchedOf (false :: flags) (b :: S) = b :: unmatchedOf flags S := rfl

theorem pick_unmatchedOf_hit {α : Type} (A : Arith α) (sysTx : SystemTransaction α) :
    ∀ (S : List (BankStatement α)) (flags : List Bool) (p : Nat) (b : BankStatement α),
      S[p]? = some b → flags[p]? = some false → candidate A sysTx b = true →
      (∀ (j : Nat) (b1 : BankStatement α), j < p → S[j]? = some b1 →
        flags[j]? = some true ∨ candidate A sysTx b1 = false) →
      pick A sysTx (unmatchedOf flags S) = some (b, unmatchedOf (flags.set p true) S) := by
  intro S
  induction S with
  | nil => intro flags p b hb; simp at hb
  | cons b0 S ih =>
    intro flags p b hb hf hc hmin
    cases flags with
    | nil => simp at hf
    | cons f0 flags =>
      cases p with
      | zero =>
        simp only [List.getElem?_cons_zero, Option.some.injEq] at hb hf
        subst hb hf
        rw [unmatchedOf_cons_false, List.set_cons_zero, unmatchedOf_cons_true]
        simp only [pick, hc, if_true]
      | succ p =>
        simp only [List.getElem?_cons_succ] at hb hf
        have hmin2 : ∀ (j : Nat) (b1 : BankStatement α), j < p → S[j]? = some b1 →
            flags[j]? = some true ∨ candidate A sysTx b1 = false := by
          intro j b1 hj hjb
          have := hmin (j + 1) b1 (by omega) (by simpa using hjb)
          simpa using this
        have h := ih flags p b hb hf hc hmin2
        have h0 := hmin 0 b0 (by omega) (by simp)
        simp only [List.getElem?_cons_zero, Option.some.injEq] at h0
        rw [List.set_cons_succ]
        cases f0 with
        | true =>
          rw [unmatchedOf_cons_true, unmatchedOf_cons_true]
          exact h
        | false =>
          have hc0 : candidate A sysTx b0 = false := by
            rcases h0 with h0 | h0
            · cases h0
            · exact h0
          rw [unmatchedOf_cons_false, unmatchedOf_cons_false]
          simp only [pick, hc0, Bool.false_eq_true, if_false, h, Option.map_some']

theorem pick_unmatchedOf_miss {α : Type} (A : Arith α) (sysTx : SystemTransaction α) :
    ∀ (S : List (BankStatement α)) (flags : List Bool),
      (∀ (j : Nat) (b1 : BankStatement α), S[j]? = some b1 →
        flags[j]? = some true ∨ candidate A sysTx b1 = false) →
      pick A sysTx (unmatchedOf flags S) = none := by
  intro S
  induction S with
  | nil => intro flags _; simp [unmatchedOf, pick]
  | cons b0 S ih =>
    intro flags hall
    cases flags with
    | nil => simp [unmatchedOf, pick]
    | cons f0 flags =>
      have hall2 : ∀ (j : Nat) (b1 : BankStatement α), S[j]? = some b1 →
          flags[j]? = some true ∨ candidate A sysTx b1 = false := by
        intro j b1 hjb
        have := hall (j + 1) b1 (by simpa using hjb)
        simpa using this
      have h := ih flags hall2
      have h0 := hall 0 b0 (by simp)
      simp only [List.getElem?_cons_zero, Option.some.injEq] at h0
      cases f0 with
      | true =>
        rw [unmatchedOf_cons_true]
        exact h
      | false =>
        have hc0 : candidate A sysTx b0 = false := by
          rcases h0 with h0 | h0
          · cases h0
          · exact h0
        rw [unmatchedOf_cons_false]
        simp only [pick, hc0, Bool.false_eq_true, if_false, h, Option.map_none']

theorem run_greedy {α : Type} {A : Arith α} {bankTxs : List (BankStatement α)}
    {l : List (SystemTransaction α)} {st st1 : LoopState α} {tr : List (Option Nat)}
    (h : Run A bankTxs l st st1 tr) :
    greedy A l (unmatchedOf st.alreadyMatch bankTxs) =
      (tr.map (fun m => m.bind (fun p => bankTxs[p]?)),
        unmatchedOf st1.alreadyMatch bankTxs) := by
  induction h with
  | nil st => rfl
  | hit sysTx rest st st1 tr p b hb hf hc hmin _ ih =>
    rw [takeMatch_alreadyMatch] at ih
    simp only [greedy, pick_unmatchedOf_hit A sysTx bankTxs st.alreadyMatch p b hb hf hc hmin, ih,
      List.map_cons]
    simp [hb]
  | miss sysTx rest st st1 tr hall _ ih =>
    rw [recordUnmatched_alreadyMatch] at ih
    simp only [greedy, pick_unmatchedOf_miss A sysTx bankTxs st.alreadyMatch hall, ih,
      List.map_cons]
    rfl

theorem unmatchedOf_replicate {α : Type} (S : List (BankStatement α)) :
    unmatchedOf (List.replicate S.length false) S = S := by
  induction S with
  | nil => rfl
  | cons b S ih =>
    simp only [List.length_cons, List.replicate_succ]
    rw [unmatchedOf_cons_false, ih]

theorem unmatched_zip_map {α β : Type} (g : Option Nat → Option β) :
    ∀ (l : List (SystemTransaction α)) (tr : List (Option Nat)),
      (∀ m ∈ tr, (g m).isNone = m.isNone) →
      ((l.zip (tr.map g)).filter (fun q => q.2.isNone)).map Prod.fst =
        ((l.zip tr).filter (fun q => q.2.isNone)).map Prod.fst := by
  intro l
  induction l with
  | nil => intro tr _; simp
  | cons x l ih =>
    intro tr hall
    cases tr with
    | nil => simp
    | cons m tr =>
      have h1 := ih tr (fun m1 hm1 => hall m1 (List.mem_cons_of_mem _ hm1))
      have h0 := hall m (List.mem_cons_self _ _)
      simp only [List.map_cons, List.zip_cons_cons, List.filter_cons, h0]
      split
      · simp only [List.map_cons, h1]
      · exact h1

theorem countP_map_isSome {β : Type} (g : Option Nat → Option β) :
    ∀ (tr : List (Option Nat)), (∀ m ∈ tr, (g m).isSome = m.isSome) →
      (tr.map g).countP Option.isSome = tr.countP Option.isSome := by
  intro tr
  induction tr with
  | nil => intro _; rfl
  | cons m tr ih =>
    intro hall
    have h1 := ih (fun m1 hm1 => hall m1 (List.mem_cons_of_mem _ hm1))
    have h0 := hall m (List.mem_cons_self _ _)
    simp only [List.map_cons, List.countP_cons, h0, h1]

theorem contributions_eq_contribsOf {α : Type} (A : Arith α)
    (bankTxs : List (BankStatement α)) :
    ∀ (l : List (SystemTransaction α)) (tr : List (Option Nat)),
      contributions A bankTxs l tr =
        contribsOf A l (tr.map (fun m => m.bind (fun p => bankTxs[p]?))) := by
  intro l
  induction l with
  | nil => intro tr; simp [contributions, contribsOf]
  | cons x l ih =>
    intro tr
    cases tr with
    | nil => simp [contributions, contribsOf]
    | cons m tr =>
      have h1 := ih tr
      simp only [contributions, contribsOf] at h1
      simp only [contributions, contribsOf, List.map_cons, List.zip_cons_cons,
        List.filterMap_cons, h1]
      cases m with
      | none => rfl
      | some p => rfl

theorem run_partner_isSome {α : Type} {A : Arith α} {bankTxs : List (BankStatement α)}
    {l : List (SystemTransaction α)} {st st1 : LoopState α} {tr : List (Option Nat)}
    (h : Run A bankTxs l st st1 tr) :
    ∀ m ∈ tr, (m.bind (fun p => bankTxs[p]?)).isSome = m.isSome := by
  intro m hm
  cases m with
  | none => rfl
  | some p =>
    obtain ⟨-, b, hb⟩ := run_fresh h p hm
    simp [hb]

/-- The report of Reconcile is the report of the remove-from-list recursion. -/
theorem Reconcile_eq_greedy {α : Type} (A : Arith α) (sysTxs : List (SystemTransaction α))
    (bankTxs : List (BankStatement α)) :
    Reconcile A sysTxs bankTxs = some (greedyReport A sysTxs bankTxs, none) := by
  obtain ⟨st, tr, hrun, -, -, hrec⟩ := Reconcile_run A sysTxs bankTxs
  rw [hrec]
  have hg := run_greedy hrun
  have h0 : (initState A sysTxs bankTxs).alreadyMatch = List.replicate bankTxs.length false := rfl
  rw [h0, unmatchedOf_replicate] at hg
  obtain ⟨h1, -, h3, h4, h5, h6⟩ := run_report hrun
  have hs := run_partner_isSome hrun
  have hn : ∀ m ∈ tr, (m.bind (fun p => bankTxs[p]?)).isNone = m.isNone := by
    intro m hm
    have := hs m hm
    cases m with
    | none => rfl
    | some p => cases hx : bankTxs[p]? <;> simp [hx] at this ⊢
  have e3 := countP_map_isSome (fun m => m.bind (fun p => bankTxs[p]?)) tr hs
  have e4 := unmatched_zip_map (fun m => m.bind (fun p => bankTxs[p]?)) sysTxs tr hn
  have e6 := contributions_eq_contribsOf A bankTxs sysTxs tr
  have hr : ∀ r : ReconcillationResult α,
      r = { TotalTransactions := r.TotalTransactions,
            TotalMatchedTransactions := r.TotalMatchedTransactions,
            SysUnMatchedDetail :=
              { TotalSystemTransMissingBank := r.SysUnMatchedDetail.TotalSystemTransMissingBank,
                SystemTransMissingBankList := r.SysUnMatchedDetail.SystemTransMissingBankList },
            BankUnMatchedTransactionsDetail := r.BankUnMatchedTransactionsDetail,
            TotalDiscrepanciesAmount := r.TotalDiscrepanciesAmount } := by
    intro r; rfl
  rw [hr (reportOf bankTxs st)]
  simp only [greedyReport, hg, e3, e4, ← e6]
  simp only [reportOf, h1, h3, h4, h5, h6, initState, matchedCount, unmatchedLedger,
    Nat.zero_add, List.nil_append]

theorem pick_eq_eraseIdx {α : Type} (A : Arith α) (sysTx : SystemTransaction α) :
    ∀ (S : List (BankStatement α)) (i : Nat) (b : BankStatement α),
      S[i]? = some b → candidate A sysTx b = true →
      (∀ (j : Nat) (b1 : BankStatement α), j < i → S[j]? = some b1 →
        candidate A sysTx b1 = false) →
      pick A sysTx S = some (b, S.eraseIdx i) := by
  intro S
  induction S with
  | nil => intro i b hb; simp at hb
  | cons b0 S ih =>
    intro i b hb hc hmin
    cases i with
    | zero =>
      simp only [List.getElem?_cons_zero, Option.some.injEq] at hb
      subst hb
      simp only [pick, hc, if_true, List.eraseIdx_cons_zero]
    | succ i =>
      simp only [List.getElem?_cons_succ] at hb
      have hc0 : candidate A sysTx b0 = false := hmin 0 b0 (by omega) (by simp)
      have h := ih i b hb hc (fun j b1 hj hjb => hmin (j + 1) b1 (by omega) (by simpa using hjb))
      simp only [pick, hc0, Bool.false_eq_true, if_false, h, Option.map_some',
        List.eraseIdx_cons_succ]

theorem pick_eq_none {α : Type} (A : Arith α) (sysTx : SystemTransaction α) :
    ∀ (S : List (BankStatement α)),
      (∀ (j : Nat) (b1 : BankStatement α), S[j]? = some b1 → candidate A sysTx b1 = false) →
      pick A sysTx S = none := by
  intro S
  induction S with
  | nil => intro _; rfl
  | cons b0 S ih =>
    intro hall
    have hc0 : candidate A sysTx b0 = false := hall 0 b0 (by simp)
    have h := ih (fun j b1 hjb => hall (j + 1) b1 (by simpa using hjb))
    simp only [pick, hc0, Bool.false_eq_true, if_false, h, Option.map_none']

theorem foldl_add_exact (l : List ℚ) :
    ∀ a : ℚ, l.foldl exact.add a = a + l.foldl exact.add 0 := by
  induction l with
  | nil => intro a; simp
  | cons x l ih =>
    intro a
    simp only [List.foldl_cons]
    rw [ih (exact.add a x), ih (exact.add 0 x)]
    simp only [exact]
    ring

theorem contribsOf_cons_some {α : Type} (A : Arith α) (L : SystemTransaction α)
    (rest : List (SystemTransaction α)) (b : BankStatement α)
    (o : List (Option (BankStatement α))) :
    contribsOf A (L :: rest) (some b :: o) =
      (contribution A L b).toList ++ contribsOf A rest o := by
  cases hcb : contribution A L b <;>
    simp [contribsOf, List.filterMap_cons, hcb]

theorem contribsOf_cons_none {α : Type} (A : Arith α) (L : SystemTransaction α)
    (rest : List (SystemTransaction α)) (o : List (Option (BankStatement α))) :
    contribsOf A (L :: rest) (none :: o) = contribsOf A rest o := rfl

theorem foldl_toList_exact (c : Option ℚ) (cs : List ℚ) :
    (c.toList ++ cs).foldl exact.add exact.zero =
      cs.foldl exact.add exact.zero + c.getD 0 := by
  cases c with
  | none => simp
  | some x =>
    simp only [Option.toList, List.singleton_append, List.foldl_cons, Option.getD_some]
    rw [foldl_add_exact]
    simp only [exact]
    ring

/-- C19. The consumed-marker loop equals a remove-from-list recursion, in
exact arithmetic: when `i` is the least index of a candidate for `L`, the
report for `L :: rest` is the report for `rest` on the statements with
position `i` removed, with one more match, two more records and the banded
difference of the pair added to the discrepancy total; when `L` has no
candidate, it is the report for `rest` on the same statements, with `L`
prepended to the unmatched-ledger list, its count increased by one and one
more record; and for an empty ledger there is no match, the discrepancy total
is 0 and every statement is reported as unmatched under its origin. -/
theorem remove_from_list_recursion :
    (∀ (L : SystemTransaction ℚ) (rest : List (SystemTransaction ℚ))
        (S : List (BankStatement ℚ)) (i : Nat) (b : BankStatement ℚ),
      S[i]? = some b → candidate exact L b = true →
      (∀ (j : Nat) (b1 : BankStatement ℚ), j < i → S[j]? = some b1 →
        candidate exact L b1 = false) →
      ∃ r r1, Reconcile exact (L :: rest) S = some (r, none) ∧
        Reconcile exact rest (S.eraseIdx i) = some (r1, none) ∧
        r = { r1 with
              TotalMatchedTransactions := r1.TotalMatchedTransactions + 1,
              TotalTransactions := r1.TotalTransactions + 2,
              TotalDiscrepanciesAmount :=
                r1.TotalDiscrepanciesAmount + (contribution exact L b).getD 0 }) ∧
    (∀ (L : SystemTransaction ℚ) (rest : List (SystemTransaction ℚ))
        (S : List (BankStatement ℚ)),
      (∀ (j : Nat) (b1 : BankStatement ℚ), S[j]? = some b1 →
        candidate exact L b1 = false) →
      ∃ r r1, Reconcile exact (L :: rest) S = some (r, none) ∧
        Reconcile exact rest S = some (r1, none) ∧
        r = { r1 with
              TotalTransactions := r1.TotalTransactions + 1,
              SysUnMatchedDetail :=
                { TotalSystemTransMissingBank :=
                    r1.SysUnMatchedDetail.TotalSystemTransMissingBank + 1,
                  SystemTransMissingBankList :=
                    L :: r1.SysUnMatchedDetail.SystemTransMissingBankList } }) ∧
    (∀ (S : List (BankStatement ℚ)),
      ∃ r, Reconcile exact [] S = some (r, none) ∧
        r.TotalTransactions = S.length ∧ r.TotalMatchedTransactions = 0 ∧
        r.TotalDiscrepanciesAmount = 0 ∧
        r.SysUnMatchedDetail =
          { TotalSystemTransMissingBank := 0, SystemTransMissingBankList := [] } ∧
        ∀ key : String,
          ((r.BankUnMatchedTransactionsDetail.get key).map
              (fun d => d.ThisBankUnMatchedTransList)).getD [] =
            S.filter (fun b => decide (b.FilePath = key))) := by
  refine ⟨?_, ?_, ?_⟩
  · intro L rest S i b hb hc hmin
    refine ⟨_, _, Reconcile_eq_greedy exact (L :: rest) S,
      Reconcile_eq_greedy exact rest (S.eraseIdx i), ?_⟩
    have hp := pick_eq_eraseIdx exact L S i b hb hc hmin
    have hi : i < S.length := (List.getElem?_eq_some_iff.1 hb).1
    have hlen : (S.eraseIdx i).length + 1 = S.length := by
      rw [List.length_eraseIdx]; simp only [hi, if_true]; omega
    have hg : greedy exact (L :: rest) S =
        (some b :: (greedy exact rest (S.eraseIdx i)).1, (greedy exact rest (S.eraseIdx i)).2) := by
      simp only [greedy, hp]
    simp only [greedyReport, hg, List.zip_cons_cons, List.filter_cons, Option.isNone_some,
      Bool.false_eq_true, if_false, List.countP_cons, Option.isSome_some, if_true,
      List.length_cons, contribsOf_cons_some, foldl_toList_exact]
    congr 1
    omega
  · intro L rest S hall
    refine ⟨_, _, Reconcile_eq_greedy exact (L :: rest) S,
      Reconcile_eq_greedy exact rest S, ?_⟩
    have hp := pick_eq_none exact L S hall
    have hg : greedy exact (L :: rest) S =
        (none :: (greedy exact rest S).1, (greedy exact rest S).2) := by
      simp only [greedy, hp]
    simp only [greedyReport, hg, List.zip_cons_cons, List.filter_cons, Option.isNone_none,
      if_true, List.countP_cons, Option.isSome_none, Bool.false_eq_true, if_false,
      List.length_cons, contribsOf_cons_none, List.map_cons, Nat.add_zero]
    congr 1
    omega
  · intro S
    refine ⟨_, Reconcile_eq_greedy exact [] S, ?_, rfl, rfl, rfl, ?_⟩
    · simp [greedyReport]
    · intro key
      have hg := get_groupInto S [] key
      simp only [greedyReport, greedy, get_map_toDetail, Option.map_map, Function.comp_def]
      rw [← List.nil_append (List.filter _ _)]
      rw [show ([] : List (BankStatement ℚ)) = ((GoMap.get [] key).getD []) from rfl, ← hg]
      cases GoMap.get (groupInto [] S) key <;> rfl

theorem pick_none_all {α : Type} (A : Arith α) (sysTx : SystemTransaction α) :
    ∀ (U : List (BankStatement α)), pick A sysTx U = none →
      ∀ b ∈ U, candidate A sysTx b = false := by
  intro U
  induction U with
  | nil => intro _ b hb; simp at hb
  | cons b0 U ih =>
    intro h b hb
    cases hc : candidate A sysTx b0 with
    | true => simp [pick, hc] at h
    | false =>
      simp only [pick, hc, Bool.false_eq_true, if_false, Option.map_eq_none'] at h
      rcases List.mem_cons.1 hb with hb | hb
      · rw [hb]; exact hc
      · exact ih h b hb

theorem pick_some_mem {α : Type} (A : Arith α) (sysTx : SystemTransaction α) :
    ∀ (U U1 : List (BankStatement α)) (b : BankStatement α),
      pick A sysTx U = some (b, U1) →
      candidate A sysTx b = true ∧ b ∈ U ∧ U1.Sublist U := by
  intro U
  induction U with
  | nil => intro U1 b h; simp [pick] at h
  | cons b0 U ih =>
    intro U1 b h
    cases hc : candidate A sysTx b0 with
    | true =>
      simp only [pick, hc, if_true, Option.some.injEq, Prod.mk.injEq] at h
      obtain ⟨h1, h2⟩ := h
      subst h1 h2
      exact ⟨hc, List.mem_cons_self _ _, List.sublist_cons_self _ _⟩
    | false =>
      simp only [pick, hc, Bool.false_eq_true, if_false, Option.map_eq_some', Prod.mk.injEq,
        Prod.exists] at h
      obtain ⟨c, U2, hp, h1, h2⟩ := h
      subst h1 h2
      obtain ⟨i1, i2, i3⟩ := ih U2 c hp
      exact ⟨i1, List.mem_cons_of_mem _ i2, List.Sublist.cons₂ _ i3⟩

theorem greedy_sublist {α : Type} (A : Arith α) :
    ∀ (l : List (SystemTransaction α)) (U : List (BankStatement α)),
      (greedy A l U).2.Sublist U := by
  intro l
  induction l with
  | nil => intro U; exact List.Sublist.refl _
  | cons x l ih =>
    intro U
    cases hp : pick A x U with
    | none =>
      simp only [greedy, hp]
      exact ih U
    | some q =>
      obtain ⟨b, U1⟩ := q
      simp only [greedy, hp]
      exact (ih U1).trans (pick_some_mem A x U U1 b hp).2.2

theorem greedy_length {α : Type} (A : Arith α) :
    ∀ (l : List (SystemTransaction α)) (U : List (BankStatement α)),
      (greedy A l U).1.length = l.length := by
  intro l
  induction l with
  | nil => intro U; rfl
  | cons x l ih =>
    intro U
    cases hp : pick A x U with
    | none => simp [greedy, hp, ih]
    | some q => simp [greedy, hp, ih]

theorem greedy_maximal {α : Type} (A : Arith α) :
    ∀ (l : List (SystemTransaction α)) (U : List (BankStatement α)),
      ∀ x ∈ ((l.zip (greedy A l U).1).filter (fun q => q.2.isNone)).map Prod.fst,
        ∀ b ∈ (greedy A l U).2, candidate A x b = false := by
  intro l
  induction l with
  | nil => intro U x hx; simp [greedy] at hx
  | cons y l ih =>
    intro U x hx b hb
    cases hp : pick A y U with
    | none =>
      simp only [greedy, hp, List.zip_cons_cons, List.filter_cons, Option.isNone_none,
        if_true, List.map_cons, List.mem_cons] at hx hb
      rcases hx with hx | hx
      · subst hx
        exact pick_none_all A x U hp b ((greedy_sublist A l U).subset hb)
      · exact ih U x hx b hb
    | some q =>
      obtain ⟨c, U1⟩ := q
      simp only [greedy, hp, List.zip_cons_cons, List.filter_cons, Option.isNone_some,
        Bool.false_eq_true, if_false] at hx hb
      exact ih U1 x hx b hb

theorem GoMap.mem_set {V : Type} (m : GoMap V) (k : String) (v : V) :
    ∀ e ∈ m.set k v, e = (k, v) ∨ e ∈ m := by
  induction m with
  | nil => intro e he; simp [GoMap.set] at he; exact Or.inl he
  | cons p m ih =>
    obtain ⟨k1, v1⟩ := p
    intro e he
    by_cases h : k1 = k
    · simp only [GoMap.set, h, if_true, List.mem_cons] at he
      rcases he with he | he
      · exact Or.inl he
      · exact Or.inr (List.mem_cons_of_mem _ he)
    · simp only [GoMap.set, h, if_false, List.mem_cons] at he
      rcases he with he | he
      · exact Or.inr (by rw [he]; exact List.mem_cons_self _ _)
      · rcases ih e he with h1 | h1
        · exact Or.inl h1
        · exact Or.inr (List.mem_cons_of_mem _ h1)

theorem GoMap.mem_of_get {V : Type} (m : GoMap V) (k : String) (v : V)
    (h : m.get k = some v) : (k, v) ∈ m := by
  induction m with
  | nil => simp [GoMap.get] at h
  | cons p m ih =>
    obtain ⟨k1, v1⟩ := p
    simp only [GoMap.get, List.lookup] at h
    cases hk : (k == k1) with
    | true =>
      rw [hk] at h
      simp only [Option.some.injEq] at h
      have : k = k1 := by simpa using hk
      subst this h
      exact List.mem_cons_self _ _
    | false =>
      rw [hk] at h
      exact List.mem_cons_of_mem _ (ih h)

theorem groupInto_mem {α : Type} (l : List (BankStatement α)) :
    ∀ (m : GoMap (List (BankStatement α))),
      ∀ e ∈ groupInto m l, ∀ b ∈ e.2, b ∈ l ∨ ∃ e0 ∈ m, b ∈ e0.2 := by
  induction l with
  | nil =>
    intro m e he b hb
    exact Or.inr ⟨e, by simpa [groupInto] using he, hb⟩
  | cons b0 l ih =>
    intro m e he b hb
    simp only [groupInto, List.foldl_cons] at he
    rcases ih _ e he b hb with h1 | ⟨e0, he0, hb0⟩
    · exact Or.inl (List.mem_cons_of_mem _ h1)
    · rcases GoMap.mem_set _ _ _ e0 he0 with h2 | h2
      · subst h2
        simp only [List.mem_append, List.mem_singleton] at hb0
        rcases hb0 with hb0 | hb0
        · cases hg : GoMap.get m b0.FilePath with
          | none => simp [hg] at hb0
          | some v =>
            rw [hg] at hb0
            exact Or.inr ⟨(b0.FilePath, v), GoMap.mem_of_get _ _ _ hg, hb0⟩
        · exact Or.inl (by rw [hb0]; exact List.mem_cons_self _ _)
      · exact Or.inr ⟨e0, h2, hb0⟩

/-- C18. Maximality of the greedy matching: no record of the unmatched-ledger
list and record of any unmatched-statement group of the report pass the test
of line 243 together. -/
theorem maximality {α : Type} (A : Arith α) (sysTxs : List (SystemTransaction α))
    (bankTxs : List (BankStatement α)) :
    ∃ r, Reconcile A sysTxs bankTxs = some (r, none) ∧
      ∀ x ∈ r.SysUnMatchedDetail.SystemTransMissingBankList,
        ∀ e ∈ r.BankUnMatchedTransactionsDetail,
          ∀ b ∈ e.2.ThisBankUnMatchedTransList, candidate A x b = false := by
  refine ⟨_, Reconcile_eq_greedy A sysTxs bankTxs, ?_⟩
  intro x hx e he b hb
  simp only [greedyReport, List.mem_map] at he
  obtain ⟨e0, he0, rfl⟩ := he
  simp only [toDetail] at hb
  rcases groupInto_mem _ [] e0 he0 b hb with h1 | ⟨e1, he1, -⟩
  · exact greedy_maximal A sysTxs bankTxs x hx b h1
  · simp at he1

theorem candidate_shape {α : Type} (A : Arith α) (x x1 : SystemTransaction α)
    (b b1 : BankStatement α) (hx : ledgerShape x = ledgerShape x1)
    (hb : statementShape b = statementShape b1) :
    candidate A x b = candidate A x1 b1 := by
  simp only [ledgerShape, statementShape, Prod.mk.injEq] at hx hb
  simp only [candidate, hx.1, hx.2, hb.1, hb.2.1]

theorem contribution_shape {α : Type} (A : Arith α) (x x1 : SystemTransaction α)
    (b b1 : BankStatement α) (hx : ledgerShape x = ledgerShape x1)
    (hb : statementShape b = statementShape b1) :
    contribution A x b = contribution A x1 b1 := by
  simp only [ledgerShape, statementShape, Prod.mk.injEq] at hx hb
  simp only [contribution, hx.1, hb.1]

theorem innerLoop_shape {α : Type} (A : Arith α) (x x1 : SystemTransaction α)
    (hx : ledgerShape x = ledgerShape x1) (st st1 : LoopState α)
    (hst : st.alreadyMatch = st1.alreadyMatch) :
    ∀ (rest rest1 : List (BankStatement α)) (i : Nat),
      rest.map statementShape = rest1.map statementShape →
      (innerLoop A x rest i st).map (fun q => (q.1.alreadyMatch, q.2)) =
        (innerLoop A x1 rest1 i st1).map (fun q => (q.1.alreadyMatch, q.2)) := by
  intro rest
  induction rest with
  | nil =>
    intro rest1 i h
    cases rest1 with
    | nil => simp [innerLoop, hst]
    | cons b1 rest1 => simp at h
  | cons b rest ih =>
    intro rest1 i h
    cases rest1 with
    | nil => simp at h
    | cons b1 rest1 =>
      simp only [List.map_cons, List.cons.injEq] at h
      have hc := candidate_shape A x x1 b b1 hx h.1
      simp only [innerLoop, ← hst, ← hc]
      cases hf : st.alreadyMatch[i]? with
      | none => rfl
      | some f =>
        cases f with
        | true => exact ih rest1 (i + 1) h.2
        | false =>
          cases hcb : candidate A x b with
          | true =>
            simp only [if_true, Option.map_some', takeMatch_alreadyMatch, hst]
          | false =>
            simp only [Bool.false_eq_true, if_false]
            exact ih rest1 (i + 1) h.2

theorem outerLoop_shape {α : Type} (A : Arith α) (S S1 : List (BankStatement α))
    (hS : S.map statementShape = S1.map statementShape) :
    ∀ (l l1 : List (SystemTransaction α)) (st st1 : LoopState α),
      l.map ledgerShape = l1.map ledgerShape → st.alreadyMatch = st1.alreadyMatch →
      (outerLoop A S l st).map (fun q => (q.1.alreadyMatch, q.2)) =
        (outerLoop A S1 l1 st1).map (fun q => (q.1.alreadyMatch, q.2)) := by
  intro l
  induction l with
  | nil =>
    intro l1 st st1 h hst
    cases l1 with
    | nil => simp [outerLoop, hst]
    | cons x1 l1 => simp at h
  | cons x l ih =>
    intro l1 st st1 h hst
    cases l1 with
    | nil => simp at h
    | cons x1 l1 =>
      simp only [List.map_cons, List.cons.injEq] at h
      have hin := innerLoop_shape A x x1 h.1 st st1 hst S S1 0 hS
      simp only [outerLoop]
      cases h1 : innerLoop A x S 0 st with
      | none =>
        rw [h1] at hin
        cases h2 : innerLoop A x1 S1 0 st1 with
        | none => rfl
        | some q2 => rw [h2] at hin; simp at hin
      | some q =>
        rw [h1] at hin
        cases h2 : innerLoop A x1 S1 0 st1 with
        | none => rw [h2] at hin; simp at hin
        | some q2 =>
          rw [h2] at hin
          obtain ⟨sa, m⟩ := q
          obtain ⟨sb, m2⟩ := q2
          simp only [Option.map_some', Option.some.injEq, Prod.mk.injEq] at hin
          obtain ⟨hfl, hm⟩ := hin
          subst hm
          simp only
          have hst2 : (if m.isSome then sa else recordUnmatched x sa).alreadyMatch =
              (if m.isSome then sb else recordUnmatched x1 sb).alreadyMatch := by
            split
            · exact hfl
            · simpa [recordUnmatched_alreadyMatch] using hfl
          have hrec := ih l1 _ _ h.2 hst2
          cases h3 : outerLoop A S l (if m.isSome then sa else recordUnmatched x sa) with
          | none =>
            rw [h3] at hrec
            cases h4 : outerLoop A S1 l1 (if m.isSome then sb else recordUnmatched x1 sb) with
            | none => rfl
            | some q4 => rw [h4] at hrec; simp at hrec
          | some q3 =>
            rw [h3] at hrec
            cases h4 : outerLoop A S1 l1 (if m.isSome then sb else recordUnmatched x1 sb) with
            | none => rw [h4] at hrec; simp at hrec
            | some q4 =>
              rw [h4] at hrec
              simp only [Option.map_some', Option.some.injEq, Prod.mk.injEq] at hrec
              simp only [Option.map_some', hrec.1, hrec.2]

theorem contributions_shape {α : Type} (A : Arith α) (S S1 : List (BankStatement α))
    (hS : S.map statementShape = S1.map statementShape) :
    ∀ (l l1 : List (SystemTransaction α)) (tr : List (Option Nat)),
      l.map ledgerShape = l1.map ledgerShape →
      contributions A S l tr = contributions A S1 l1 tr := by
  have hidx : ∀ p : Nat, (S[p]?).map statementShape = (S1[p]?).map statementShape := by
    intro p
    rw [← List.getElem?_map, ← List.getElem?_map, hS]
  intro l
  induction l with
  | nil =>
    intro l1 tr h
    cases l1 with
    | nil => rfl
    | cons x1 l1 => simp at h
  | cons x l ih =>
    intro l1 tr h
    cases l1 with
    | nil => simp at h
    | cons x1 l1 =>
      simp only [List.map_cons, List.cons.injEq] at h
      cases tr with
      | nil => rfl
      | cons m tr =>
        have h1 := ih l1 tr h.2
        simp only [contributions] at h1
        have h0 : (m.bind fun p => (S[p]?).bind fun b => contribution A x b) =
            (m.bind fun p => (S1[p]?).bind fun b => contribution A x1 b) := by
          cases m with
          | none => rfl
          | some p =>
            have hp := hidx p
            simp only [Option.some_bind]
            cases hb : S[p]? with
            | none =>
              rw [hb] at hp
              cases hb1 : S1[p]? with
              | none => rfl
              | some b1 => rw [hb1] at hp; simp at hp
            | some b =>
              rw [hb] at hp
              cases hb1 : S1[p]? with
              | none => rw [hb1] at hp; simp at hp
              | some b1 =>
                rw [hb1] at hp
                simp only [Option.map_some', Option.some.injEq] at hp
                simp only [Option.some_bind]
                exact contribution_shape A x x1 b b1 h.1 hp
        simp only [contributions, List.zip_cons_cons, List.filterMap_cons, h0, h1]

theorem unmatchedOf_shape {α : Type} :
    ∀ (S S1 : List (BankStatement α)) (flags : List Bool),
      S.map statementShape = S1.map statementShape →
      (unmatchedOf flags S).map statementShape = (unmatchedOf flags S1).map statementShape := by
  intro S
  induction S with
  | nil =>
    intro S1 flags h
    cases S1 with
    | nil => rfl
    | cons b1 S1 => simp at h
  | cons b S ih =>
    intro S1 flags h
    cases S1 with
    | nil => simp at h
    | cons b1 S1 =>
      simp only [List.map_cons, List.cons.injEq] at h
      cases flags with
      | nil => rfl
      | cons f flags =>
        cases f with
        | true =>
          rw [unmatchedOf_cons_true, unmatchedOf_cons_true]
          exact ih S1 flags h.2
        | false =>
          rw [unmatchedOf_cons_false, unmatchedOf_cons_false]
          simp only [List.map_cons, h.1, ih S1 flags h.2]

theorem filter_length_shape {α : Type} (key : String) :
    ∀ (X Y : List (BankStatement α)), X.map statementShape = Y.map statementShape →
      (X.filter (fun b => decide (b.FilePath = key))).length =
        (Y.filter (fun b => decide (b.FilePath = key))).length := by
  intro X
  induction X with
  | nil =>
    intro Y h
    cases Y with
    | nil => rfl
    | cons b1 Y => simp at h
  | cons b X ih =>
    intro Y h
    cases Y with
    | nil => simp at h
    | cons b1 Y =>
      simp only [List.map_cons, List.cons.injEq] at h
      have hp : b.FilePath = b1.FilePath := by
        have := h.1
        simp only [statementShape, Prod.mk.injEq] at this
        exact this.2.2
      have := ih Y h.2
      simp only [List.filter_cons, hp]
      split <;> simp [this]

theorem count_reportOf {α : Type} (bankTxs : List (BankStatement α)) (st : LoopState α)
    (key : String) :
    (((reportOf bankTxs st).BankUnMatchedTransactionsDetail.get key).map
        (fun d => d.ThisBankUnMatchedTransCount)).getD 0 =
      ((unmatchedOf st.alreadyMatch bankTxs).filter
        (fun b => decide (b.FilePath = key))).length := by
  have hg := get_groupInto (unmatchedOf st.alreadyMatch bankTxs) [] key
  have h0 : (GoMap.get ([] : GoMap (List (BankStatement α))) key).getD [] = [] := rfl
  rw [h0, List.nil_append] at hg
  rw [← hg]
  simp only [reportOf, get_map_toDetail, Option.map_map, Function.comp_def]
  cases GoMap.get (groupInto [] (unmatchedOf st.alreadyMatch bankTxs)) key <;> rfl

theorem unmatchedLedger_length {α : Type} (l l1 : List (SystemTransaction α))
    (tr : List (Option Nat)) (h1 : tr.length = l.length) (h2 : tr.length = l1.length) :
    (unmatchedLedger l tr).length = (unmatchedLedger l1 tr).length := by
  have e1 := matchedCount_add_unmatched l tr h1
  have e2 := matchedCount_add_unmatched l1 tr h2
  omega

/-- C17. Identifiers and direction do not influence matching: two inputs that
agree, position by position, on the amounts and dates of the ledger records
and on the amounts, dates and origins of the statements have the same pairing
and the same consumed markers, hence the same unmatched positions, and their
reports have the same record total, matched count, discrepancy total,
unmatched-ledger count and unmatched count under every origin; the unmatched
records reported are the input records at those positions, unchanged. -/
theorem identifiers_do_not_influence {α : Type} (A : Arith α)
    (l l1 : List (SystemTransaction α)) (S S1 : List (BankStatement α))
    (hl : l.map ledgerShape = l1.map ledgerShape)
    (hS : S.map statementShape = S1.map statementShape) :
    ∃ r r1 tr flags, Reconcile A l S = some (r, none) ∧
      Reconcile A l1 S1 = some (r1, none) ∧
      pairing A l S = some tr ∧ pairing A l1 S1 = some tr ∧
      finalMarkers A l S = some flags ∧ finalMarkers A l1 S1 = some flags ∧
      r.TotalTransactions = r1.TotalTransactions ∧
      r.TotalMatchedTransactions = r1.TotalMatchedTransactions ∧
      r.TotalDiscrepanciesAmount = r1.TotalDiscrepanciesAmount ∧
      r.SysUnMatchedDetail.TotalSystemTransMissingBank =
        r1.SysUnMatchedDetail.TotalSystemTransMissingBank ∧
      (∀ key : String,
        ((r.BankUnMatchedTransactionsDetail.get key).map
            (fun d => d.ThisBankUnMatchedTransCount)).getD 0 =
          ((r1.BankUnMatchedTransactionsDetail.get key).map
            (fun d => d.ThisBankUnMatchedTransCount)).getD 0) ∧
      r.SysUnMatchedDetail.SystemTransMissingBankList =
        ((l.zip tr).filter (fun q => q.2.isNone)).map Prod.fst ∧
      r1.SysUnMatchedDetail.SystemTransMissingBankList =
        ((l1.zip tr).filter (fun q => q.2.isNone)).map Prod.fst ∧
      (∀ key : String,
        ((r.BankUnMatchedTransactionsDetail.get key).map
            (fun d => d.ThisBankUnMatchedTransList)).getD [] =
          (unmatchedOf flags S).filter (fun b => decide (b.FilePath = key))) ∧
      (∀ key : String,
        ((r1.BankUnMatchedTransactionsDetail.get key).map
            (fun d => d.ThisBankUnMatchedTransList)).getD [] =
          (unmatchedOf flags S1).filter (fun b => decide (b.FilePath = key))) := by
  obtain ⟨st, tr, hrun, hpair, hfl, hrec⟩ := Reconcile_run A l S
  obtain ⟨st1, tr1, hrun1, hpair1, hfl1, hrec1⟩ := Reconcile_run A l1 S1
  have hlenl : l.length = l1.length := by
    have := congrArg List.length hl
    simpa using this
  have hlenS : S.length = S1.length := by
    have := congrArg List.length hS
    simpa using this
  have hinit : (initState A l S).alreadyMatch = (initState A l1 S1).alreadyMatch := by
    simp [initState, hlenS]
  have hsh := outerLoop_shape A S S1 hS l l1 (initState A l S) (initState A l1 S1) hl hinit
  have hfl2 := hfl
  have hfl3 := hfl1
  have hp2 := hpair
  have hp3 := hpair1
  simp only [finalMarkers, pairing] at hfl2 hfl3 hp2 hp3
  cases ho : outerLoop A S l (initState A l S) with
  | none => rw [ho] at hp2; simp at hp2
  | some q =>
    cases ho1 : outerLoop A S1 l1 (initState A l1 S1) with
    | none => rw [ho1] at hp3; simp at hp3
    | some q1 =>
      rw [ho, ho1] at hsh
      rw [ho] at hfl2 hp2
      rw [ho1] at hfl3 hp3
      simp only [Option.map_some', Option.some.injEq, Prod.mk.injEq] at hsh hfl2 hfl3 hp2 hp3
      have htr : tr1 = tr := by rw [← hp3, ← hp2, hsh.2]
      have hflags : st1.alreadyMatch = st.alreadyMatch := by rw [← hfl3, ← hfl2, hsh.1]
      subst htr
      obtain ⟨a1, -, a3, a4, a5, a6⟩ := run_report hrun
      obtain ⟨b1, -, b3, b4, b5, b6⟩ := run_report hrun1
      have hget : ∀ (T : List (BankStatement α)) (s : LoopState α) (key : String),
          (((reportOf T s).BankUnMatchedTransactionsDetail.get key).map
              (fun d => d.ThisBankUnMatchedTransList)).getD [] =
            (unmatchedOf s.alreadyMatch T).filter (fun b => decide (b.FilePath = key)) := by
        intro T s key
        have hg := get_groupInto (unmatchedOf s.alreadyMatch T) [] key
        have h0 : (GoMap.get ([] : GoMap (List (BankStatement α))) key).getD [] = [] := rfl
        rw [h0, List.nil_append] at hg
        rw [← hg]
        simp only [reportOf, get_map_toDetail, Option.map_map, Function.comp_def]
        cases GoMap.get (groupInto [] (unmatchedOf s.alreadyMatch T)) key <;> rfl
      refine ⟨_, _, tr1, st.alreadyMatch, hrec, hrec1, hpair, hpair1, hfl, ?_,
        ?_, ?_, ?_, ?_, ?_, ?_, ?_, ?_, ?_⟩
      · rw [hfl1, hflags]
      · simp only [reportOf, a1, b1, initState, hlenl, hlenS]
      · simp only [reportOf, a3, b3, initState]
      · simp only [reportOf, a6, b6, initState]
        rw [contributions_shape A S S1 hS l l1 tr1 hl]
      · simp only [reportOf, a5, b5, initState]
        rw [unmatchedLedger_length l l1 tr1 (run_length hrun) (run_length hrun1)]
      · intro key
        rw [count_reportOf, count_reportOf, hflags]
        exact filter_length_shape key _ _ (unmatchedOf_shape S S1 st.alreadyMatch hS)
      · simpa [reportOf, initState, unmatchedLedger] using a4
      · simpa [reportOf, initState, unmatchedLedger] using b4
      · intro key
        exact hget S st key
      · intro key
        rw [hget S1 st1 key, hflags]

/-- C11. Order sensitivity: there are a ledger and two statement lists,
permutations of each other, with two statements passing the test of line 243
for the same ledger record, on which Reconcile takes a different partner and
returns different reports.  On the ledger [100.00] with statements
[100.30, 100.00] the float64 program takes 100.30, leaves 100.00 unmatched and
returns the total `|100.00 - 100.30|`, which in exact arithmetic is 0.30; on the
reversed statements it takes 100.00, leaves 100.30 unmatched and returns 0. -/
theorem order_sensitivity :
    (∃ (l : List (SystemTransaction F64)) (S S1 : List (BankStatement F64)),
      S.Perm S1 ∧
      (∃ x ∈ l, 2 ≤ (S.filter (fun b => candidate f64 x b)).length) ∧
      (∃ p p1 b b1, pairing f64 l S = some [some p] ∧ pairing f64 l S1 = some [some p1] ∧
        S[p]? = some b ∧ S1[p1]? = some b1 ∧ b ≠ b1) ∧
      Reconcile f64 l S ≠ Reconcile f64 l S1) ∧
    ((Reconcile f64 (orderLedger f64) (orderStatements f64)).map
        (fun q => (q.1.TotalMatchedTransactions, q.1.TotalDiscrepanciesAmount,
          q.1.BankUnMatchedTransactionsDetail.map
            (fun e => e.2.ThisBankUnMatchedTransList.map (fun b => b.UniqueIdentifier)))) =
      some (1, F64.abs (F64.sub (F64.lit 10000 2) (F64.lit 10030 2)), [["BS002"]]) ∧
     (Reconcile f64 (orderLedger f64) (orderStatements f64).reverse).map
        (fun q => (q.1.TotalMatchedTransactions, q.1.TotalDiscrepanciesAmount,
          q.1.BankUnMatchedTransactionsDetail.map
            (fun e => e.2.ThisBankUnMatchedTransList.map (fun b => b.UniqueIdentifier)))) =
      some (1, F64.fin false 0, [["BS001"]])) ∧
    ((Reconcile exact (orderLedger exact) (orderStatements exact)).map
        (fun q => (q.1.TotalMatchedTransactions, q.1.TotalDiscrepanciesAmount,
          q.1.BankUnMatchedTransactionsDetail.map
            (fun e => e.2.ThisBankUnMatchedTransList.map (fun b => b.UniqueIdentifier)))) =
      some (1, 3 / 10, [["BS002"]]) ∧
     (Reconcile exact (orderLedger exact) (orderStatements exact).reverse).map
        (fun q => (q.1.TotalMatchedTransactions, q.1.TotalDiscrepanciesAmount,
          q.1.BankUnMatchedTransactionsDetail.map
            (fun e => e.2.ThisBankUnMatchedTransList.map (fun b => b.UniqueIdentifier)))) =
      some (1, 0, [["BS001"]])) := by
  refine ⟨⟨orderLedger f64, orderStatements f64, (orderStatements f64).reverse,
    (List.reverse_perm _).symm, ⟨_, List.mem_cons_self _ _, by decide!⟩,
    ⟨0, 0, _, _, by decide!, by decide!, rfl, rfl, by decide!⟩, by decide!⟩,
    ⟨by decide!, by decide!⟩, ⟨by decide!, by decide!⟩⟩

/-- C12. Not globally optimal: on the ledger [100.00, 100.60] and the
statements [100.40, 99.80] of one date Reconcile matches one pair, while the
two pairs (100.00, 99.80) and (100.60, 100.40) are disjoint candidate pairs. -/
theorem not_globally_optimal :
    ∃ (l : List (SystemTransaction F64)) (S : List (BankStatement F64)),
      (∃ r, Reconcile f64 l S = some (r, none) ∧ r.TotalMatchedTransactions = 1) ∧
      ∃ M : List (Nat × Nat), isMatching f64 l S M = true ∧ M.length = 2 := by
  refine ⟨optLedger f64, optFeedA f64 ++ optFeedB f64, ?_, [(0, 1), (1, 0)], by decide!, rfl⟩
  have hr := Reconcile_eq_greedy f64 (optLedger f64) (optFeedA f64 ++ optFeedB f64)
  refine ⟨_, hr, ?_⟩
  have h : (Reconcile f64 (optLedger f64) (optFeedA f64 ++ optFeedB f64)).map
      (fun q => q.1.TotalMatchedTransactions) = some 1 := by decide!
  rw [hr] at h
  simpa using h

theorem pick_none_of_all {α : Type} (A : Arith α) (sysTx : SystemTransaction α) :
    ∀ (U : List (BankStatement α)), (∀ b ∈ U, candidate A sysTx b = false) →
      pick A sysTx U = none := by
  intro U
  induction U with
  | nil => intro _; rfl
  | cons b0 U ih =>
    intro h
    have hc0 := h b0 (List.mem_cons_self _ _)
    have h1 := ih (fun b hb => h b (List.mem_cons_of_mem _ hb))
    simp only [pick, hc0, Bool.false_eq_true, if_false, h1, Option.map_none']

theorem pick_append_left {α : Type} (A : Arith α) (sysTx : SystemTransaction α)
    (Y : List (BankStatement α)) (hY : ∀ b ∈ Y, candidate A sysTx b = false) :
    ∀ (X : List (BankStatement α)),
      pick A sysTx (X ++ Y) = (pick A sysTx X).map (fun q => (q.1, q.2 ++ Y)) := by
  intro X
  induction X with
  | nil => simp [pick, pick_none_of_all A sysTx Y hY]
  | cons a X ih =>
    cases hc : candidate A sysTx a with
    | true => simp [pick, hc]
    | false =>
      simp only [List.cons_append, pick, hc, Bool.false_eq_true, if_false, List.append_eq, ih,
        Option.map_map, Function.comp_def]

theorem pick_append_right {α : Type} (A : Arith α) (sysTx : SystemTransaction α)
    (Y : List (BankStatement α)) :
    ∀ (X : List (BankStatement α)), (∀ a ∈ X, candidate A sysTx a = false) →
      pick A sysTx (X ++ Y) = (pick A sysTx Y).map (fun q => (q.1, X ++ q.2)) := by
  intro X
  induction X with
  | nil => intro _; simp
  | cons a X ih =>
    intro h
    have hc := h a (List.mem_cons_self _ _)
    have h1 := ih (fun b hb => h b (List.mem_cons_of_mem _ hb))
    simp only [List.cons_append, pick, hc, Bool.false_eq_true, if_false, List.append_eq, h1,
      Option.map_map, Function.comp_def]

theorem greedy_swap {α : Type} (A : Arith α) :
    ∀ (l : List (SystemTransaction α)) (X Y : List (BankStatement α)),
      (∀ x ∈ l, (∀ a ∈ X, candidate A x a = false) ∨ (∀ b ∈ Y, candidate A x b = false)) →
      ∃ RX RY, RX.Sublist X ∧ RY.Sublist Y ∧
        (greedy A l (X ++ Y)).1 = (greedy A l (Y ++ X)).1 ∧
        (greedy A l (X ++ Y)).2 = RX ++ RY ∧ (greedy A l (Y ++ X)).2 = RY ++ RX := by
  intro l
  induction l with
  | nil => intro X Y _; exact ⟨X, Y, List.Sublist.refl _, List.Sublist.refl _, rfl, rfl, rfl⟩
  | cons x l ih =>
    intro X Y h
    have hrest : ∀ (X1 Y1 : List (BankStatement α)), X1.Sublist X → Y1.Sublist Y →
        ∀ x1 ∈ l, (∀ a ∈ X1, candidate A x1 a = false) ∨
          (∀ b ∈ Y1, candidate A x1 b = false) := by
      intro X1 Y1 hX hY x1 hx1
      rcases h x1 (List.mem_cons_of_mem _ hx1) with h1 | h1
      · exact Or.inl (fun a ha => h1 a (hX.subset ha))
      · exact Or.inr (fun b hb => h1 b (hY.subset hb))
    rcases h x (List.mem_cons_self _ _) with hX | hY
    · have e1 := pick_append_right A x Y X hX
      have e2 := pick_append_left A x X hX Y
      cases hp : pick A x Y with
      | none =>
        rw [hp] at e1 e2
        obtain ⟨RX, RY, s1, s2, g1, g2, g3⟩ :=
          ih X Y (hrest X Y (List.Sublist.refl _) (List.Sublist.refl _))
        refine ⟨RX, RY, s1, s2, ?_, ?_, ?_⟩
        · simp only [greedy, e1, e2, Option.map_none', g1]
        · simp only [greedy, e1, Option.map_none', g2]
        · simp only [greedy, e2, Option.map_none', g3]
      | some q =>
        obtain ⟨c, Y1⟩ := q
        rw [hp] at e1 e2
        have hsub := (pick_some_mem A x Y Y1 c hp).2.2
        obtain ⟨RX, RY, s1, s2, g1, g2, g3⟩ :=
          ih X Y1 (hrest X Y1 (List.Sublist.refl _) hsub)
        refine ⟨RX, RY, s1, s2.trans hsub, ?_, ?_, ?_⟩
        · simp only [greedy, e1, e2, Option.map_some', g1]
        · simp only [greedy, e1, Option.map_some', g2]
        · simp only [greedy, e2, Option.map_some', g3]
    · have e1 := pick_append_left A x Y hY X
      have e2 := pick_append_right A x X Y hY
      cases hp : pick A x X with
      | none =>
        rw [hp] at e1 e2
        obtain ⟨RX, RY, s1, s2, g1, g2, g3⟩ :=
          ih X Y (hrest X Y (List.Sublist.refl _) (List.Sublist.refl _))
        refine ⟨RX, RY, s1, s2, ?_, ?_, ?_⟩
        · simp only [greedy, e1, e2, Option.map_none', g1]
        · simp only [greedy, e1, Option.map_none', g2]
        · simp only [greedy, e2, Option.map_none', g3]
      | some q =>
        obtain ⟨c, X1⟩ := q
        rw [hp] at e1 e2
        have hsub := (pick_some_mem A x X X1 c hp).2.2
        obtain ⟨RX, RY, s1, s2, g1, g2, g3⟩ :=
          ih X1 Y (hrest X1 Y hsub (List.Sublist.refl _))
        refine ⟨RX, RY, s1.trans hsub, s2, ?_, ?_, ?_⟩
        · simp only [greedy, e1, e2, Option.map_some', g1]
        · simp only [greedy, e1, Option.map_some', g2]
        · simp only [greedy, e2, Option.map_some', g3]

theorem get_groupInto_nil {α : Type} (U : List (BankStatement α)) (key : String) :
    GoMap.get (groupInto [] U) key =
      if (U.filter (fun b => decide (b.FilePath = key))).isEmpty then none
      else some (U.filter (fun b => decide (b.FilePath = key))) := by
  have hg := get_groupInto U [] key
  have h0 : (GoMap.get ([] : GoMap (List (BankStatement α))) key).getD [] = [] := rfl
  rw [h0, List.nil_append] at hg
  have hk := mem_keys_groupInto U [] key
  have hk0 : key ∉ GoMap.keys ([] : GoMap (List (BankStatement α))) := by simp [GoMap.keys]
  by_cases hnil : U.filter (fun b => decide (b.FilePath = key)) = []
  · rw [hnil]
    simp only [List.isEmpty_nil, if_true]
    rw [GoMap.get_eq_none_iff, hk]
    rintro (h1 | ⟨b, hb, hbk⟩)
    · exact hk0 h1
    · have : b ∈ U.filter (fun b => decide (b.FilePath = key)) := by
        simp [hb, hbk]
      rw [hnil] at this
      simp at this
  · have hne : (U.filter (fun b => decide (b.FilePath = key))).isEmpty = false := by
      cases hf : U.filter (fun b => decide (b.FilePath = key)) with
      | nil => exact absurd hf hnil
      | cons a t => rfl
    rw [hne]
    simp only [Bool.false_eq_true, if_false]
    cases hget : GoMap.get (groupInto [] U) key with
    | none =>
      rw [hget] at hg
      exact absurd hg.symm hnil
    | some v =>
      rw [hget] at hg
      simp only [Option.getD_some] at hg
      rw [hg]

/-- C13 (amended). Feed order: when no ledger record passes the test of line
243 with a statement of feed `X` and also with a statement of feed `Y`, and the
two feeds have no origin in common, Reconcile on `X ++ Y` and on `Y ++ X`
returns the same record total, matched count, discrepancy total and
unmatched-ledger section, and the same unmatched statements under every origin. -/
theorem feed_order_irrelevant {α : Type} (A : Arith α) (l : List (SystemTransaction α))
    (X Y : List (BankStatement α))
    (hcand : ∀ x ∈ l, (∀ a ∈ X, candidate A x a = false) ∨
      (∀ b ∈ Y, candidate A x b = false))
    (horigin : ∀ a ∈ X, ∀ b ∈ Y, a.FilePath ≠ b.FilePath) :
    ∃ r r1, Reconcile A l (X ++ Y) = some (r, none) ∧
      Reconcile A l (Y ++ X) = some (r1, none) ∧
      r.TotalTransactions = r1.TotalTransactions ∧
      r.TotalMatchedTransactions = r1.TotalMatchedTransactions ∧
      r.TotalDiscrepanciesAmount = r1.TotalDiscrepanciesAmount ∧
      r.SysUnMatchedDetail = r1.SysUnMatchedDetail ∧
      ∀ key : String, r.BankUnMatchedTransactionsDetail.get key =
        r1.BankUnMatchedTransactionsDetail.get key := by
  obtain ⟨RX, RY, s1, s2, g1, g2, g3⟩ := greedy_swap A l X Y hcand
  refine ⟨_, _, Reconcile_eq_greedy A l (X ++ Y), Reconcile_eq_greedy A l (Y ++ X),
    ?_, ?_, ?_, ?_, ?_⟩
  · simp only [greedyReport, List.length_append]; omega
  · simp only [greedyReport, g1]
  · simp only [greedyReport, g1]
  · simp only [greedyReport, g1]
  · intro key
    simp only [greedyReport, g2, g3, get_map_toDetail, get_groupInto_nil, List.filter_append]
    have hor : RX.filter (fun b => decide (b.FilePath = key)) = [] ∨
        RY.filter (fun b => decide (b.FilePath = key)) = [] := by
      by_cases hx : RX.filter (fun b => decide (b.FilePath = key)) = []
      · exact Or.inl hx
      · right
        obtain ⟨a, ha⟩ := List.exists_mem_of_ne_nil _ hx
        simp only [List.mem_filter, decide_eq_true_eq] at ha
        rw [List.filter_eq_nil_iff]
        intro b hb
        simp only [decide_eq_true_eq]
        intro hbk
        exact horigin a (s1.subset ha.1) b (s2.subset hb) (by rw [ha.2, hbk])
    rcases hor with h0 | h0 <;> simp [h0]

/-- C13 (counterexample). On the ledger [100.00, 100.60] with the feeds
[100.40] and [99.80], Reconcile matches one pair when the first feed comes
first and two pairs when the second feed comes first. -/
theorem feed_order_counterexample :
    (Reconcile f64 (optLedger f64) (optFeedA f64 ++ optFeedB f64)).map
        (fun q => q.1.TotalMatchedTransactions) = some 1 ∧
    (Reconcile f64 (optLedger f64) (optFeedB f64 ++ optFeedA f64)).map
        (fun q => q.1.TotalMatchedTransactions) = some 2 := by
  decide!

theorem readBankLoop_row {α τ : Type} (L : Lib α τ) (path : String)
    (f0 f1 f2 : String) (more : List String) (t : τ)
    (rest : List (Except String (List String))) (bnkTxn : List (BankStatement α))
    (hdate : L.parseDateOnly f2 = Except.ok t) :
    readBankLoop L path (Except.ok (f0 :: f1 :: f2 :: more) :: rest) bnkTxn =
      readBankLoop L path rest
        (bnkTxn ++ [{ UniqueIdentifier := f0, Amount := (L.parseFloat f1).1,
                      Date := L.formatDateOnly t, FilePath := path }]) := by
  simp [readBankLoop, hdate]

theorem readSystemLoop_row {α τ : Type} (L : Lib α τ)
    (f0 f1 f2 f3 : String) (more : List String) (t : τ)
    (rest : List (Except String (List String))) (sysTxn : List (SystemTransaction α))
    (hdate : L.parseDateTime f3 = Except.ok t) :
    readSystemLoop L (Except.ok (f0 :: f1 :: f2 :: f3 :: more) :: rest) sysTxn =
      readSystemLoop L rest
        (sysTxn ++ [{ TrxID := f0, Amount := (L.parseFloat f1).1, Type_ := f2,
                      TransactionTime := L.formatDateOnly t }]) := by
  simp [readSystemLoop, hdate]

/-- C15 (amended). Amounts are not validated: for every row that is read and
whose date parses, both loaders append a record whose amount is the value
`strconv.ParseFloat` returned, whether or not it also returned an error; a row
is rejected only by a failed read or a failed date parse. -/
theorem amount_not_validated {α τ : Type} (L : Lib α τ) :
    (∀ (path f0 f1 f2 : String) (more : List String) (t : τ)
        (rest : List (Except String (List String))) (bnkTxn : List (BankStatement α)),
      L.parseDateOnly f2 = Except.ok t →
      readBankLoop L path (Except.ok (f0 :: f1 :: f2 :: more) :: rest) bnkTxn =
        readBankLoop L path rest
          (bnkTxn ++ [{ UniqueIdentifier := f0, Amount := (L.parseFloat f1).1,
                        Date := L.formatDateOnly t, FilePath := path }])) ∧
    (∀ (f0 f1 f2 f3 : String) (more : List String) (t : τ)
        (rest : List (Except String (List String))) (sysTxn : List (SystemTransaction α)),
      L.parseDateTime f3 = Except.ok t →
      readSystemLoop L (Except.ok (f0 :: f1 :: f2 :: f3 :: more) :: rest) sysTxn =
        readSystemLoop L rest
          (sysTxn ++ [{ TrxID := f0, Amount := (L.parseFloat f1).1, Type_ := f2,
                        TransactionTime := L.formatDateOnly t }])) ∧
    (∀ (path : String) (err : String) (rest : List (Except String (List String)))
        (bnkTxn : List (BankStatement α)),
      readBankLoop L path (Except.error err :: rest) bnkTxn = some (Except.error err)) ∧
    (∀ (path f0 f1 f2 : String) (more : List String) (err : String)
        (rest : List (Except String (List String))) (bnkTxn : List (BankStatement α)),
      L.parseDateOnly f2 = Except.error err →
      readBankLoop L path (Except.ok (f0 :: f1 :: f2 :: more) :: rest) bnkTxn =
        some (Except.error err)) := by
  refine ⟨?_, ?_, ?_, ?_⟩
  · intro path f0 f1 f2 more t rest bnkTxn h
    exact readBankLoop_row L path f0 f1 f2 more t rest bnkTxn h
  · intro f0 f1 f2 f3 more t rest sysTxn h
    exact readSystemLoop_row L f0 f1 f2 f3 more t rest sysTxn h
  · intro path err rest bnkTxn
    rfl
  · intro path f0 f1 f2 more err rest bnkTxn h
    simp [readBankLoop, h]

/-- C15 (counterexample). The bank file whose one row has the amount "abc" is
loaded without error, as one record of amount 0. -/
theorem unparsed_amount_loaded :
    (exampleLib.parseFloat "abc").2 ≠ none ∧
    readBankStatements exampleLib exampleFiles "bank_abc.csv" "2025-06-10" "2025-07-10" =
      some (Except.ok
        [{ UniqueIdentifier := "BS002", Amount := F64.fin false 0, Date := "2025-07-08",
           FilePath := "bank_abc.csv" }]) := by
  exact ⟨by decide, rfl⟩

/-- C16 (code bug). The loaders do not filter by date: with the window
2025-06-10 to 2025-07-10 each of them returns a record dated 2025-01-01, and
their result does not depend on the window at all. -/
theorem loaders_do_not_filter :
    readSystemTransactions exampleLib exampleFiles "system_old.csv" "2025-06-10" "2025-07-10" =
      some (Except.ok
        [{ TrxID := "TXN009", Amount := F64.lit 10000 2, Type_ := "DEBIT",
           TransactionTime := "2025-01-01" }]) ∧
    readBankStatements exampleLib exampleFiles "bank_old.csv" "2025-06-10" "2025-07-10" =
      some (Except.ok
        [{ UniqueIdentifier := "BS009", Amount := F64.lit 10000 2, Date := "2025-01-01",
           FilePath := "bank_old.csv" }]) ∧
    (∀ (α τ : Type) (L : Lib α τ) (fs : Files) (path : String) (s e s1 e1 : τ),
      readSystemTransactions L fs path s e = readSystemTransactions L fs path s1 e1 ∧
      readBankStatements L fs path s e = readBankStatements L fs path s1 e1) := by
  refine ⟨rfl, rfl, ?_⟩
  intro α τ L fs path s e s1 e1
  exact ⟨rfl, rfl⟩

/-- C14 (amended). Loader failures: when reading the ledger file returns an
error, the service returns a non-nil error and does not call Reconcile; when
reading a bank statement file returns an error, its goroutine sends nothing,
the feed is skipped, and the service calls Reconcile on the statements of the
remaining feeds and returns the error of the JSON encoding only. -/
theorem loader_failure_policy {α τ : Type} (L : Lib α τ) (A : Arith α) (fs : Files)
    (inp : ReconcillationInput) (sched : List Nat) :
    (∀ (s e : τ) (err : String), L.parseDateOnly inp.StartDate = Except.ok s →
      L.parseDateOnly inp.EndDate = Except.ok e →
      readSystemTransactions L fs inp.SystemTransactionsFile s e = some (Except.error err) →
      ∃ msg, reconcillationService L A fs inp sched =
        some { err := some msg, reconciled := none }) ∧
    (∀ (s e : τ) (i : Nat) (rest : List Nat) (path err : String),
      inp.BankStatementsFiles[i]? = some path →
      readBankStatements L fs path s e = some (Except.error err) →
      collect L fs inp.BankStatementsFiles s e (i :: rest) =
        collect L fs inp.BankStatementsFiles s e rest) ∧
    (∀ (s e : τ) (sysTxs : List (SystemTransaction α))
        (combined : List (BankStatement α)),
      L.parseDateOnly inp.StartDate = Except.ok s →
      L.parseDateOnly inp.EndDate = Except.ok e →
      readSystemTransactions L fs inp.SystemTransactionsFile s e = some (Except.ok sysTxs) →
      collect L fs inp.BankStatementsFiles s e sched = some combined →
      ∃ r, Reconcile A sysTxs combined = some (r, none) ∧
        reconcillationService L A fs inp sched =
          some { err := (L.marshal r).map
                   (fun err => "error marshalling result to JSON: " ++ err),
                 reconciled := some (combined, r) }) := by
  refine ⟨?_, ?_, ?_⟩
  · intro s e err hs he hread
    refine ⟨"error readSystemTransactions " ++ err, ?_⟩
    simp only [reconcillationService, hs, he, hread]
  · intro s e i rest path err hp hread
    simp only [collect, hp, hread]
  · intro s e sysTxs combined hs he hread hcol
    have hr := Reconcile_eq_greedy A sysTxs combined
    refine ⟨_, hr, ?_⟩
    simp only [reconcillationService, hs, he, hread, hcol, hr]
    cases L.marshal (greedyReport A sysTxs combined) <;> rfl

/-- C14 (counterexample). With the bank files bank_A.csv and bank_bad.csv, the
second of which has a date that does not parse, reading the second file
returns an error, and the service returns a nil error after calling Reconcile
on the statement of the first file alone. -/
theorem failed_feed_is_skipped :
    readBankStatements exampleLib exampleFiles "bank_bad.csv" "2025-06-10" "2025-07-10" =
      (some (Except.error "cannot parse") :
        Option (Except String (List (BankStatement F64)))) ∧
    (reconcillationService exampleLib f64 exampleFiles
        { SystemTransactionsFile := "system.csv",
          BankStatementsFiles := ["bank_A.csv", "bank_bad.csv"],
          StartDate := "2025-06-10", EndDate := "2025-07-10" } [0, 1]).map
        (fun run => (run.err, run.reconciled.map (fun q => q.1))) =
      some (none,
        some [{ UniqueIdentifier := "BS001", Amount := F64.lit 10030 2,
                Date := "2025-07-08", FilePath := "bank_A.csv" }]) := by
  refine ⟨rfl, ?_⟩
  decide!

/-- C17 (instance). The fixture and the fixture with other identifiers and
directions have the same pairing, matched count and discrepancy total. -/
theorem identifiers_do_not_influence_witness :
    pairing f64 (fixtureLedger f64) (fixtureStatements f64) =
      pairing f64 (fixtureLedgerRenamed f64) (fixtureStatementsRenamed f64) ∧
    (Reconcile f64 (fixtureLedger f64) (fixtureStatements f64)).map
        (fun q => (q.1.TotalMatchedTransactions, q.1.TotalDiscrepanciesAmount)) =
      (Reconcile f64 (fixtureLedgerRenamed f64) (fixtureStatementsRenamed f64)).map
        (fun q => (q.1.TotalMatchedTransactions, q.1.TotalDiscrepanciesAmount)) := by
  obtain ⟨r, r1, tr, flags, h1, h2, p1, p2, -, -, -, hm, hd, -⟩ :=
    identifiers_do_not_influence f64 (fixtureLedger f64) (fixtureLedgerRenamed f64)
      (fixtureStatements f64) (fixtureStatementsRenamed f64) rfl rfl
  refine ⟨by rw [p1, p2], ?_⟩
  rw [h1, h2]
  simp only [Option.map_some', hm, hd]

/-- C13 (instance). The fixture statements and the feed [99.80] of bank_B.csv
have no origin in common and no fixture ledger record has a candidate in
both; the matched count is the same in both orders. -/
theorem feed_order_irrelevant_witness :
    (Reconcile f64 (fixtureLedger f64) (fixtureStatements f64 ++ optFeedB f64)).map
        (fun q => (q.1.TotalMatchedTransactions, q.1.TotalDiscrepanciesAmount)) =
      (Reconcile f64 (fixtureLedger f64) (optFeedB f64 ++ fixtureStatements f64)).map
        (fun q => (q.1.TotalMatchedTransactions, q.1.TotalDiscrepanciesAmount)) := by
  obtain ⟨r, r1, h1, h2, -, hm, hd, -⟩ :=
    feed_order_irrelevant f64 (fixtureLedger f64) (fixtureStatements f64) (optFeedB f64)
      (by decide!) (by decide!)
  rw [h1, h2]
  simp only [Option.map_some', hm, hd]

/-- C19 (instance). On the fixture, in exact arithmetic, the first ledger
record takes the first statement, and the matched count is one more than that
of the rest of the ledger on the remaining statements. -/
theorem remove_from_list_recursion_witness :
    (Reconcile exact (fixtureLedger exact) (fixtureStatements exact)).map
        (fun q => q.1.TotalMatchedTransactions) =
      (Reconcile exact (fixtureLedger exact).tail ((fixtureStatements exact).eraseIdx 0)).map
        (fun q => q.1.TotalMatchedTransactions + 1) := by
  obtain ⟨r, r1, h1, h2, h3⟩ := remove_from_list_recursion.1
    { TrxID := "TXN001", Amount := exact.lit 150050 2, Type_ := "DEBIT",
      TransactionTime := "2025-07-08" }
    (fixtureLedger exact).tail (fixtureStatements exact) 0
    { UniqueIdentifier := "BS001", Amount := exact.lit 150020 2, Date := "2025-07-08",
      FilePath := "bank_A.csv" }
    rfl (by decide!) (by intro j b1 hj; omega)
  have h1a : Reconcile exact (fixtureLedger exact) (fixtureStatements exact) =
      some (r, none) := h1
  rw [h1a, h2, h3]
  rfl

/-! ## Bounds on the aggregates -/

theorem bisect_step (n e j j2 : Nat) (hj : j2 = j + j) (h1 : 2 ^ e ≤ n)
    (h2 : n < 2 ^ (e + j2)) :
    2 ^ (if 2 ^ (e + j) ≤ n then e + j else e) ≤ n ∧
      n < 2 ^ ((if 2 ^ (e + j) ≤ n then e + j else e) + j) := by
  subst hj
  by_cases h : 2 ^ (e + j) ≤ n
  · rw [if_pos h]
    exact ⟨h, by rw [Nat.add_assoc]; exact h2⟩
  · rw [if_neg h]
    exact ⟨h1, Nat.lt_of_not_le h⟩

theorem F64.ilog2_spec (n : Nat) (h1 : 1 ≤ n) (h2 : n < 2 ^ 4096) :
    2 ^ ilog2 n ≤ n ∧ n < 2 ^ (ilog2 n + 1) := by
  have s0 : 2 ^ 0 ≤ n := by rw [Nat.pow_zero]; exact h1
  have t0 : n < 2 ^ (0 + 4096) := by rw [Nat.zero_add]; exact h2
  have s1 := bisect_step n _ 2048 4096 (by norm_num) s0 t0
  have s2 := bisect_step n _ 1024 2048 (by norm_num) s1.1 s1.2
  have s3 := bisect_step n _ 512 1024 (by norm_num) s2.1 s2.2
  have s4 := bisect_step n _ 256 512 (by norm_num) s3.1 s3.2
  have s5 := bisect_step n _ 128 256 (by norm_num) s4.1 s4.2
  have s6 := bisect_step n _ 64 128 (by norm_num) s5.1 s5.2
  have s7 := bisect_step n _ 32 64 (by norm_num) s6.1 s6.2
  have s8 := bisect_step n _ 16 32 (by norm_num) s7.1 s7.2
  have s9 := bisect_step n _ 8 16 (by norm_num) s8.1 s8.2
  have s10 := bisect_step n _ 4 8 (by norm_num) s9.1 s9.2
  have s11 := bisect_step n _ 2 4 (by norm_num) s10.1 s10.2
  have s12 := bisect_step n _ 1 2 (by norm_num) s11.1 s11.2
  unfold ilog2
  simp only [List.foldl]
  exact s12

theorem F64.fin_of_ite (c : Prop) [Decidable c] (sg sg1 : Bool) (x k : Nat)
    (h : (if c then fin sg x else inf sg) = fin sg1 k) : sg1 = sg ∧ k = x := by
  by_cases hc : c
  · rw [if_pos hc] at h
    injection h with e1 e2
    exact ⟨e1.symm, e2.symm⟩
  · rw [if_neg hc] at h
    exact absurd h (by simp)

/-- The result of rounding `n` units is `n` itself below `2^53`; otherwise it
is one of the two neighbouring multiples of the spacing `2^s` of the binade
of `n`, the upper one only when the remainder is at least half the spacing. -/
theorem F64.roundUnits_fin (sg sg1 : Bool) (n k : Nat)
    (h : roundUnits sg n 1 = fin sg1 k) :
    sg1 = sg ∧ ((n < 2 ^ 53 ∧ k = n) ∨
      ∃ s, 2 ^ (s + 52) ≤ n ∧ n < 2 ^ (s + 53) ∧
        (k = n / 2 ^ s * 2 ^ s ∨
          (k = (n / 2 ^ s + 1) * 2 ^ s ∧ 2 ^ s ≤ 2 * (n % 2 ^ s)))) := by
  unfold roundUnits at h
  simp only [Nat.div_one, Nat.one_mul] at h
  by_cases h0 : 2 ^ 2099 ≤ n
  · rw [if_pos h0] at h
    exact absurd h (by simp)
  · rw [if_neg h0] at h
    by_cases h53 : n < 2 ^ 53
    · rw [if_pos h53] at h
      simp only [Nat.pow_zero, Nat.div_one, Nat.mod_one, Nat.mul_zero, Nat.mul_one] at h
      have hq : (if 1 < 0 ∨ 0 = 1 ∧ n % 2 = 1 then n + 1 else n) = n := by
        rw [if_neg]
        omega
      rw [hq] at h
      obtain ⟨e1, e2⟩ := fin_of_ite _ _ _ _ _ h
      exact ⟨e1, Or.inl ⟨h53, e2⟩⟩
    · rw [if_neg h53] at h
      have hn1 : 1 ≤ n := by
        have : 0 < 2 ^ 53 := Nat.pos_pow_of_pos 53 (by norm_num)
        omega
      have hn2 : n < 2 ^ 4096 := by omega
      obtain ⟨l1, l2⟩ := ilog2_spec n hn1 hn2
      have h52 : 52 < ilog2 n + 1 := by
        have : 2 ^ 53 < 2 ^ (ilog2 n + 1) := lt_of_le_of_lt (Nat.le_of_not_lt h53) l2
        have := (Nat.pow_lt_pow_iff_right (by norm_num : 1 < 2)).1 this
        omega
      have e1 : ilog2 n - 52 + 52 = ilog2 n := by omega
      have e2 : ilog2 n - 52 + 53 = ilog2 n + 1 := by omega
      obtain ⟨e3, e4⟩ := fin_of_ite _ _ _ _ _ h
      refine ⟨e3, Or.inr ⟨ilog2 n - 52, by rw [e1]; exact l1, by rw [e2]; exact l2, ?_⟩⟩
      generalize ilog2 n - 52 = s at e4
      by_cases hc : 2 ^ s < 2 * (n % 2 ^ s) ∨ 2 * (n % 2 ^ s) = 2 ^ s ∧ n / 2 ^ s % 2 = 1
      · rw [if_pos hc] at e4
        right
        refine ⟨e4, ?_⟩
        rcases hc with hc | hc
        · omega
        · omega
      · rw [if_neg hc] at e4
        left
        exact e4

/-- Quotient and remainder of `n` by the spacing of its binade. -/
theorem round_facts (n k s : Nat) (h1 : 2 ^ (s + 52) ≤ n) (h2 : n < 2 ^ (s + 53))
    (hk : k = n / 2 ^ s * 2 ^ s ∨ (k = (n / 2 ^ s + 1) * 2 ^ s ∧ 2 ^ s ≤ 2 * (n % 2 ^ s))) :
    ∃ q r, n = 2 ^ s * q + r ∧ r < 2 ^ s ∧ 2 ^ 52 ≤ q ∧ q < 2 ^ 53 ∧
      2 ^ s * 2 ^ 52 ≤ 2 ^ s * q ∧ 2 ^ s * q + 2 ^ s ≤ 2 ^ s * 2 ^ 53 ∧
      (k = 2 ^ s * q ∨ (k = 2 ^ s * q + 2 ^ s ∧ 2 ^ s ≤ 2 * r)) := by
  have hD : 0 < 2 ^ s := Nat.pos_pow_of_pos s (by norm_num)
  rw [pow_add] at h1 h2
  have hq1 : 2 ^ 52 ≤ n / 2 ^ s := by
    rw [Nat.le_div_iff_mul_le hD, Nat.mul_comm]
    exact h1
  have hq2 : n / 2 ^ s < 2 ^ 53 := by
    rw [Nat.div_lt_iff_lt_mul hD, Nat.mul_comm]
    exact h2
  have hq3 : 2 ^ s * (n / 2 ^ s + 1) ≤ 2 ^ s * 2 ^ 53 := Nat.mul_le_mul_left _ hq2
  rw [Nat.mul_add, Nat.mul_one] at hq3
  refine ⟨n / 2 ^ s, n % 2 ^ s, (Nat.div_add_mod n (2 ^ s)).symm, Nat.mod_lt n hD, hq1, hq2,
    Nat.mul_le_mul_left _ hq1, hq3, ?_⟩
  rcases hk with hk | ⟨hk, hr⟩
  · left
    rw [hk, Nat.mul_comm]
  · right
    refine ⟨?_, hr⟩
    rw [hk, Nat.add_mul, Nat.one_mul, Nat.mul_comm]

/-- Rounding does not pass a bound that is a multiple of the spacing. -/
theorem round_le (T n k : Nat) (hn : n ≤ T)
    (hdiv : ∀ s, 2 ^ (s + 52) ≤ n → 2 ^ s ∣ T)
    (hr : (n < 2 ^ 53 ∧ k = n) ∨
      ∃ s, 2 ^ (s + 52) ≤ n ∧ n < 2 ^ (s + 53) ∧
        (k = n / 2 ^ s * 2 ^ s ∨
          (k = (n / 2 ^ s + 1) * 2 ^ s ∧ 2 ^ s ≤ 2 * (n % 2 ^ s)))) :
    k ≤ T := by
  rcases hr with ⟨_, hk⟩ | ⟨s, h1, h2, hk⟩
  · omega
  · obtain ⟨M, hM⟩ := hdiv s h1
    obtain ⟨q, r, e, hr, _, _, _, _, hk⟩ := round_facts n k s h1 h2 hk
    rcases hk with hk | ⟨hk, hh⟩
    · omega
    · have hlt : 2 ^ s * q < 2 ^ s * M := by omega
      have hqM : q + 1 ≤ M := Nat.lt_of_mul_lt_mul_left hlt
      have := Nat.mul_le_mul_left (2 ^ s) hqM
      rw [Nat.mul_add, Nat.mul_one] at this
      omega

/-- Rounding keeps a relative distance of `2^(-53)` below a bound that is a
multiple of the spacing. -/
theorem round_gap (T n k : Nat) (hgap : n < 2 ^ 53 * (T - n))
    (hdiv : ∀ s, 2 ^ (s + 52) ≤ n → 2 ^ s ∣ T)
    (hr : (n < 2 ^ 53 ∧ k = n) ∨
      ∃ s, 2 ^ (s + 52) ≤ n ∧ n < 2 ^ (s + 53) ∧
        (k = n / 2 ^ s * 2 ^ s ∨
          (k = (n / 2 ^ s + 1) * 2 ^ s ∧ 2 ^ s ≤ 2 * (n % 2 ^ s)))) :
    k ≤ T ∧ k ≤ 2 ^ 53 * (T - k) := by
  rcases hr with ⟨_, hk⟩ | ⟨s, h1, h2, hk⟩
  · omega
  · obtain ⟨M, hM⟩ := hdiv s h1
    obtain ⟨q, r, e, hr, _, _, hlow, hup, hk⟩ := round_facts n k s h1 h2 hk
    have hlt : 2 ^ s * q < 2 ^ s * M := by omega
    have hqM : q + 1 ≤ M := Nat.lt_of_mul_lt_mul_left hlt
    have h3 := Nat.mul_le_mul_left (2 ^ s) hqM
    rw [Nat.mul_add, Nat.mul_one] at h3
    rcases hk with hk | ⟨hk, hh⟩
    · omega
    · by_cases hM2 : q + 2 ≤ M
      · have h4 := Nat.mul_le_mul_left (2 ^ s) hM2
        rw [Nat.mul_add] at h4
        omega
      · have hMq : M = q + 1 := by omega
        subst hMq
        rw [Nat.mul_add, Nat.mul_one] at hM
        omega

/-- A rounded value below one half is at least one spacing `2^(-54)` below it. -/
theorem round_below_half (n k : Nat) (hk : k < 2 ^ 1073)
    (hr : (n < 2 ^ 53 ∧ k = n) ∨
      ∃ s, 2 ^ (s + 52) ≤ n ∧ n < 2 ^ (s + 53) ∧
        (k = n / 2 ^ s * 2 ^ s ∨
          (k = (n / 2 ^ s + 1) * 2 ^ s ∧ 2 ^ s ≤ 2 * (n % 2 ^ s)))) :
    k + 2 ^ 1020 ≤ 2 ^ 1073 := by
  have hT : (2 : Nat) ^ 1073 - 2 ^ 1020 ≤ 2 ^ 53 * (2 ^ 1073 - (2 ^ 1073 - 2 ^ 1020)) := by
    omega
  by_cases hn : n + 2 ^ 1020 ≤ 2 ^ 1073
  · have := round_le (2 ^ 1073 - 2 ^ 1020) n k (by omega) ?_ hr
    · omega
    · intro s hs
      have hlt : 2 ^ (s + 52) < 2 ^ 1073 := by omega
      have := (Nat.pow_lt_pow_iff_right (by norm_num : 1 < 2)).1 hlt
      have e : (2 : Nat) ^ 1073 - 2 ^ 1020 = 2 ^ 1020 * (2 ^ 53 - 1) := by omega
      rw [e]
      exact Dvd.dvd.mul_right (pow_dvd_pow 2 (by omega)) _
  · rcases hr with ⟨_, hk1⟩ | ⟨s, h1, h2, hk1⟩
    · omega
    · obtain ⟨q, r, e, hr, _, _, hlow, hup, hk2⟩ := round_facts n k s h1 h2 hk1
      have h1020 : 1020 ≤ s := by
        by_contra hc
        have : s + 53 ≤ 1072 := by omega
        have := Nat.pow_le_pow_right (by norm_num : 2 > 0) this
        omega
      have hs : s = 1020 ∨ 1021 ≤ s := by omega
      rcases hs with hs | hs
      · subst hs
        omega
      · have : 1073 ≤ s + 52 := by omega
        have := Nat.pow_le_pow_right (by norm_num : 2 > 0) this
        have hd := Nat.pow_le_pow_right (by norm_num : 2 > 0) hs
        rw [pow_add] at this
        omega

/-- Rounding a magnitude below `2^1023` does not overflow. -/
theorem F64.roundUnits_total (sg : Bool) (n : Nat) (hn : n < 2 ^ 2097) :
    ∃ k, roundUnits sg n 1 = fin sg k := by
  unfold roundUnits
  simp only [Nat.div_one, Nat.one_mul]
  have h0 : ¬ 2 ^ 2099 ≤ n := by omega
  rw [if_neg h0]
  by_cases h53 : n < 2 ^ 53
  · rw [if_pos h53]
    simp only [Nat.pow_zero, Nat.div_one, Nat.mod_one, Nat.mul_zero, Nat.mul_one]
    have hq : (if 1 < 0 ∨ 0 = 1 ∧ n % 2 = 1 then n + 1 else n) = n := by
      rw [if_neg]
      omega
    rw [hq]
    exact ⟨n, if_pos (by omega)⟩
  · rw [if_neg h53]
    have hn1 : 1 ≤ n := by omega
    have hn2 : n < 2 ^ 4096 := by omega
    obtain ⟨l1, l2⟩ := ilog2_spec n hn1 hn2
    have hle : 2 ^ (ilog2 n - 52) ≤ n :=
      le_trans (Nat.pow_le_pow_right (by norm_num) (Nat.sub_le _ _)) l1
    generalize ilog2 n - 52 = s at hle
    refine ⟨_, if_pos ?_⟩
    have hD : 0 < 2 ^ s := Nat.pos_pow_of_pos s (by norm_num)
    have hqr := Nat.div_add_mod n (2 ^ s)
    have hmul : (n / 2 ^ s + 1) * 2 ^ s = 2 ^ s * (n / 2 ^ s) + 2 ^ s := by
      rw [Nat.add_mul, Nat.one_mul, Nat.mul_comm]
    by_cases hc : 2 ^ s < 2 * (n % 2 ^ s) ∨ 2 * (n % 2 ^ s) = 2 ^ s ∧ n / 2 ^ s % 2 = 1
    · rw [if_pos hc, hmul]
      omega
    · rw [if_neg hc, Nat.mul_comm]
      omega

/-- The sum of two non-negative finite values is the rounded exact sum. -/
theorem F64.add_fin (a b : Nat) (h : a + b < 2 ^ 2097) :
    ∃ k, add (fin false a) (fin false b) = fin false k ∧
      ((a + b < 2 ^ 53 ∧ k = a + b) ∨
        ∃ s, 2 ^ (s + 52) ≤ a + b ∧ a + b < 2 ^ (s + 53) ∧
          (k = (a + b) / 2 ^ s * 2 ^ s ∨
            (k = ((a + b) / 2 ^ s + 1) * 2 ^ s ∧ 2 ^ s ≤ 2 * ((a + b) % 2 ^ s)))) := by
  by_cases h0 : a + b = 0
  · refine ⟨0, ?_, Or.inl ⟨by omega, h0.symm⟩⟩
    have ha : a = 0 := by omega
    have hb : b = 0 := by omega
    subst ha
    subst hb
    simp [add, signed]
  · have hc : ((a : Int) + (b : Int)) ≠ 0 := by omega
    have hneg : decide ((a : Int) + (b : Int) < 0) = false := by
      rw [decide_eq_false_iff_not]
      omega
    have habs : ((a : Int) + (b : Int)).natAbs = a + b := by omega
    have e : add (fin false a) (fin false b) = roundUnits false (a + b) 1 := by
      simp only [add, signed, Bool.false_eq_true, if_false, if_neg hc, hneg, habs]
    obtain ⟨k, hk⟩ := roundUnits_total false (a + b) h
    refine ⟨k, by rw [e, hk], ?_⟩
    exact (roundUnits_fin false false (a + b) k hk).2

theorem F64.abs_lt_fin (d : F64) (P : Nat) (h : lt (abs d) (fin false P) = true) :
    ∃ sg k, d = fin sg k ∧ k < P := by
  cases d with
  | nan => simp [abs, lt] at h
  | inf sg => simp [abs, lt] at h
  | fin sg k =>
    simp only [abs, lt, signed, Bool.false_eq_true, if_false, decide_eq_true_eq] at h
    exact ⟨sg, k, rfl, by exact_mod_cast h⟩

/-- A difference that passes the test of line 243 is a non-negative finite
value at most `0.5 - 2^(-54)`. -/
theorem F64.diff_below_half (x y : F64) (h : lt (abs (sub x y)) (lit 50 2) = true) :
    ∃ b, abs (sub x y) = fin false b ∧ b + 2 ^ 1020 ≤ 2 ^ 1073 := by
  rw [lit_half] at h
  obtain ⟨sg, k, hd, hk⟩ := abs_lt_fin _ _ h
  rw [hd]
  refine ⟨k, rfl, ?_⟩
  cases x with
  | nan => simp [sub, add] at hd
  | inf s =>
    cases y with
    | nan => simp [sub, add, neg] at hd
    | inf t =>
      simp only [sub, add, neg] at hd
      split at hd <;> simp at hd
    | fin t b => simp [sub, add, neg] at hd
  | fin s a =>
    cases y with
    | nan => simp [sub, add, neg] at hd
    | inf t => simp [sub, add, neg] at hd
    | fin t b =>
      simp only [sub, add, neg] at hd
      by_cases hc : signed s a + signed (!t) b = 0
      · rw [if_pos hc] at hd
        have e2 := (F64.fin.inj hd).2
        omega
      · rw [if_neg hc] at hd
        exact round_below_half _ k hk (roundUnits_fin _ _ _ _ hd).2

/-- One addition of the discrepancy accumulator.  The running total after
`j` additions is at most `2^52`, and for `j ≤ 2^53` it stays a relative
distance `2^(-53)` below `j / 2`. -/
theorem sum_step (j a b k : Nat) (ha : a ≤ 2 ^ 1126)
    (hinv : j ≤ 2 ^ 53 → a ≤ j * 2 ^ 1073 ∧ a ≤ 2 ^ 53 * (j * 2 ^ 1073 - a))
    (hb : b + 2 ^ 1020 ≤ 2 ^ 1073)
    (hr : (a + b < 2 ^ 53 ∧ k = a + b) ∨
      ∃ s, 2 ^ (s + 52) ≤ a + b ∧ a + b < 2 ^ (s + 53) ∧
        (k = (a + b) / 2 ^ s * 2 ^ s ∨
          (k = ((a + b) / 2 ^ s + 1) * 2 ^ s ∧ 2 ^ s ≤ 2 * ((a + b) % 2 ^ s)))) :
    k ≤ 2 ^ 1126 ∧
      (j + 1 ≤ 2 ^ 53 → k ≤ (j + 1) * 2 ^ 1073 ∧ k ≤ 2 ^ 53 * ((j + 1) * 2 ^ 1073 - k)) := by
  constructor
  · by_cases hn : a + b ≤ 2 ^ 1126
    · refine round_le (2 ^ 1126) (a + b) k hn ?_ hr
      intro s hs
      have hle : 2 ^ (s + 52) ≤ 2 ^ 1126 := le_trans hs hn
      have := (Nat.pow_le_pow_iff_right (by norm_num : 1 < 2)).1 hle
      exact pow_dvd_pow 2 (by omega)
    · rcases hr with ⟨_, _⟩ | ⟨s, h1, h2, hk⟩
      · omega
      · have hlt : 2 ^ (s + 52) < 2 ^ 1127 := by omega
        have hs1 := (Nat.pow_lt_pow_iff_right (by norm_num : 1 < 2)).1 hlt
        have hlt2 : 2 ^ 1126 < 2 ^ (s + 53) := by omega
        have hs2 := (Nat.pow_lt_pow_iff_right (by norm_num : 1 < 2)).1 hlt2
        have hs : s = 1074 := by omega
        subst hs
        obtain ⟨q, r, e, hr, _, _, _, _, hk⟩ := round_facts (a + b) k 1074 h1 h2 hk
        omega
  · intro hj
    obtain ⟨h1, h2⟩ := hinv (by omega)
    refine round_gap ((j + 1) * 2 ^ 1073) (a + b) k (by omega) ?_ hr
    intro s hs
    have hlt : 2 ^ (s + 52) < 2 ^ 1126 := by omega
    have := (Nat.pow_lt_pow_iff_right (by norm_num : 1 < 2)).1 hlt
    exact Dvd.dvd.mul_left (pow_dvd_pow 2 (by omega)) _

/-- The accumulator after adding a list of differences below one half. -/
theorem foldl_add_inv (cs : List F64) :
    (∀ c ∈ cs, ∃ b, c = F64.fin false b ∧ b + 2 ^ 1020 ≤ 2 ^ 1073) →
    ∀ (j a : Nat), a ≤ 2 ^ 1126 →
      (j ≤ 2 ^ 53 → a ≤ j * 2 ^ 1073 ∧ a ≤ 2 ^ 53 * (j * 2 ^ 1073 - a)) →
      ∃ k, cs.foldl F64.add (F64.fin false a) = F64.fin false k ∧ k ≤ 2 ^ 1126 ∧
        (j + cs.length ≤ 2 ^ 53 →
          k ≤ (j + cs.length) * 2 ^ 1073 ∧
            k ≤ 2 ^ 53 * ((j + cs.length) * 2 ^ 1073 - k)) := by
  induction cs with
  | nil =>
    intro _ j a ha hinv
    exact ⟨a, rfl, ha, hinv⟩
  | cons c cs ih =>
    intro hcs j a ha hinv
    obtain ⟨b, hc, hb⟩ := hcs c (List.mem_cons_self _ _)
    subst hc
    obtain ⟨k, hk, hr⟩ := F64.add_fin a b (by omega)
    obtain ⟨s1, s2⟩ := sum_step j a b k ha hinv hb hr
    obtain ⟨k2, e, t1, t2⟩ :=
      ih (fun c hc => hcs c (List.mem_cons_of_mem _ hc)) (j + 1) k s1 s2
    refine ⟨k2, ?_, t1, ?_⟩
    · rw [List.foldl_cons, hk]
      exact e
    · intro hj
      rw [List.length_cons] at hj ⊢
      have e2 : j + (cs.length + 1) = j + 1 + cs.length := by omega
      rw [e2] at hj ⊢
      exact t2 hj

/-- The total of a list of differences below one half: at most half their
number, and strictly less when there is at least one. -/
theorem foldl_add_bound (cs : List F64)
    (hcs : ∀ c ∈ cs, ∃ b, c = F64.fin false b ∧ b + 2 ^ 1020 ≤ 2 ^ 1073) :
    ∃ k, cs.foldl F64.add (F64.fin false 0) = F64.fin false k ∧
      k ≤ cs.length * 2 ^ 1073 ∧ (0 < cs.length → k < cs.length * 2 ^ 1073) := by
  obtain ⟨k, e, t1, t2⟩ := foldl_add_inv cs hcs 0 0 (by omega) (by omega)
  refine ⟨k, e, ?_⟩
  rw [Nat.zero_add] at t2
  by_cases hj : cs.length ≤ 2 ^ 53
  · have := t2 hj
    omega
  · omega

theorem pick_length {α : Type} (A : Arith α) (sysTx : SystemTransaction α) :
    ∀ (U : List (BankStatement α)) (b : BankStatement α) (U1 : List (BankStatement α)),
      pick A sysTx U = some (b, U1) → U1.length + 1 = U.length := by
  intro U
  induction U with
  | nil => intro b U1 h; simp [pick] at h
  | cons u U ih =>
    intro b U1 h
    unfold pick at h
    by_cases hc : candidate A sysTx u = true
    · rw [if_pos hc] at h
      injection h with h
      injection h with _ e2
      subst e2
      simp
    · rw [if_neg hc] at h
      cases hp : pick A sysTx U with
      | none => rw [hp] at h; simp at h
      | some q =>
        rw [hp] at h
        simp only [Option.map_some'] at h
        injection h with h
        injection h with _ e2
        subst e2
        have := ih q.1 q.2 hp
        simp only [List.length_cons]
        omega

/-- Every partner is removed from the statements: the number of matched
ledger records and the number of statements left add up to the number of
statements. -/
theorem greedy_count {α : Type} (A : Arith α) :
    ∀ (l : List (SystemTransaction α)) (U : List (BankStatement α)),
      (greedy A l U).1.countP Option.isSome + (greedy A l U).2.length = U.length := by
  intro l
  induction l with
  | nil => intro U; simp [greedy]
  | cons x l ih =>
    intro U
    unfold greedy
    cases hp : pick A x U with
    | none =>
      simp only [List.countP_cons, Option.isSome_none, Bool.false_eq_true, if_false]
      exact ih U
    | some q =>
      obtain ⟨b, U1⟩ := q
      simp only [List.countP_cons, Option.isSome_some, if_true]
      have := ih U1
      have := pick_length A x U b U1 hp
      omega

/-- Every partner chosen by the recursion passes the test of line 243. -/
theorem greedy_candidate {α : Type} (A : Arith α) :
    ∀ (l : List (SystemTransaction α)) (U : List (BankStatement α))
      (x : SystemTransaction α) (b : BankStatement α),
      (x, some b) ∈ l.zip (greedy A l U).1 → candidate A x b = true := by
  intro l
  induction l with
  | nil => intro U x b h; simp at h
  | cons y l ih =>
    intro U x b h
    unfold greedy at h
    cases hp : pick A y U with
    | none =>
      rw [hp] at h
      simp only [List.zip_cons_cons, List.mem_cons, Prod.mk.injEq] at h
      rcases h with ⟨_, h⟩ | h
      · simp at h
      · exact ih U x b h
    | some q =>
      obtain ⟨b1, U1⟩ := q
      rw [hp] at h
      simp only [List.zip_cons_cons, List.mem_cons, Prod.mk.injEq] at h
      rcases h with ⟨h1, h2⟩ | h
      · injection h2 with h2
        subst h1
        subst h2
        exact (pick_some_mem A x U U1 b hp).1
      · exact ih U1 x b h

theorem contribsOf_length {α : Type} (A : Arith α) :
    ∀ (l : List (SystemTransaction α)) (o : List (Option (BankStatement α))),
      (contribsOf A l o).length ≤ o.countP Option.isSome := by
  intro l
  induction l with
  | nil => intro o; simp [contribsOf]
  | cons x l ih =>
    intro o
    cases o with
    | nil => simp [contribsOf]
    | cons p o =>
      cases p with
      | none =>
        rw [contribsOf_cons_none]
        simp only [List.countP_cons, Option.isSome_none, Bool.false_eq_true, if_false]
        exact ih o
      | some b =>
        have h := ih o
        simp only [List.countP_cons, Option.isSome_some, if_true]
        cases hc : contribution A x b with
        | none =>
          have : contribsOf A (x :: l) (some b :: o) = contribsOf A l o := by
            simp [contribsOf, List.filterMap_cons, hc]
          rw [this]
          omega
        | some c =>
          have : contribsOf A (x :: l) (some b :: o) = c :: contribsOf A l o := by
            simp [contribsOf, List.filterMap_cons, hc]
          rw [this, List.length_cons]
          omega

/-- Every addend of the discrepancy total is a non-negative finite value at
most `0.5 - 2^(-54)`. -/
theorem contribsOf_below_half (l : List (SystemTransaction F64))
    (o : List (Option (BankStatement F64)))
    (ho : ∀ (x : SystemTransaction F64) (b : BankStatement F64),
      (x, some b) ∈ l.zip o → candidate f64 x b = true) :
    ∀ c ∈ contribsOf f64 l o, ∃ b, c = F64.fin false b ∧ b + 2 ^ 1020 ≤ 2 ^ 1073 := by
  intro c hc
  unfold contribsOf at hc
  rw [List.mem_filterMap] at hc
  obtain ⟨⟨x, p⟩, hmem, hq⟩ := hc
  cases p with
  | none => simp at hq
  | some b =>
    simp only [Option.some_bind] at hq
    have hcand := ho x b hmem
    unfold candidate at hcand
    rw [Bool.and_eq_true] at hcand
    obtain ⟨d, hd, hb⟩ := F64.diff_below_half x.Amount b.Amount hcand.2
    simp only [contribution] at hq
    split at hq
    · injection hq with hq
      exact ⟨d, by rw [← hq]; exact hd, hb⟩
    · simp at hq

theorem F64.toRat_fin (k : Nat) : toRat (fin false k) = some ((k : ℚ) / 2 ^ 1074) := by
  simp only [toRat, signed, Bool.false_eq_true, if_false, Int.cast_natCast]

theorem F64.toRat_half : toRat (lit 50 2) = some (1 / 2) := by
  rw [lit_half, toRat_fin]
  have h1 : (2 : ℕ) ^ 1074 = 2 * 2 ^ 1073 := by omega
  have h2 : 0 < (2 : ℕ) ^ 1073 := by omega
  have hcast : (((2 : ℕ) ^ 1074 : ℕ) : ℚ) = (2 : ℚ) ^ 1074 := by
    rw [Nat.cast_pow, Nat.cast_ofNat]
  rw [← hcast, h1]
  generalize (2 : ℕ) ^ 1073 = N at h2 ⊢
  have h3 : (0 : ℚ) < (N : ℚ) := by exact_mod_cast h2
  refine congrArg some ?_
  push_cast
  field_simp
  ring

theorem greedyReport_matched {α : Type} (A : Arith α) (l : List (SystemTransaction α))
    (S : List (BankStatement α)) :
    (greedyReport A l S).TotalMatchedTransactions =
      (greedy A l S).1.countP Option.isSome := rfl

theorem greedyReport_total (l : List (SystemTransaction F64)) (S : List (BankStatement F64)) :
    (greedyReport f64 l S).TotalDiscrepanciesAmount =
      (contribsOf f64 l (greedy f64 l S).1).foldl F64.add (F64.fin false 0) := rfl

/-- C20. Bounds on the aggregates, on the float64 arithmetic of the program:
for every ledger and every list of statements `Reconcile` returns a report
whose `TotalMatchedTransactions` is at most the length of the ledger and at
most the number of statements, and whose `TotalDiscrepanciesAmount` is a
finite value `v` with `0 ≤ v ≤ 0.50 * TotalMatchedTransactions`, the upper
inequality being strict as soon as one pair is matched and `v` being `0`
when nothing is matched.  The constant `0.50` of the source is exactly
`1 / 2`, and the product with the count is taken in the rationals. -/
theorem aggregate_bounds (sysTxs : List (SystemTransaction F64))
    (bankTxs : List (BankStatement F64)) :
    ∃ r v, Reconcile f64 sysTxs bankTxs = some (r, none) ∧
      r.TotalMatchedTransactions ≤ min sysTxs.length bankTxs.length ∧
      F64.toRat (f64.lit 50 2) = some (1 / 2) ∧
      F64.toRat r.TotalDiscrepanciesAmount = some v ∧
      0 ≤ v ∧ v ≤ (1 / 2 : ℚ) * r.TotalMatchedTransactions ∧
      (0 < r.TotalMatchedTransactions → v < (1 / 2 : ℚ) * r.TotalMatchedTransactions) ∧
      (r.TotalMatchedTransactions = 0 → v = 0) := by
  obtain ⟨k, e, t1, t2⟩ :=
    foldl_add_bound (contribsOf f64 sysTxs (greedy f64 sysTxs bankTxs).1)
      (contribsOf_below_half sysTxs _ (greedy_candidate f64 sysTxs bankTxs))
  have hlen := contribsOf_length f64 sysTxs (greedy f64 sysTxs bankTxs).1
  have hcount := greedy_count f64 sysTxs bankTxs
  have hgl := greedy_length f64 sysTxs bankTxs
  have hle := List.countP_le_length Option.isSome (l := (greedy f64 sysTxs bankTxs).1)
  rw [hgl] at hle
  have hkj : k ≤ (greedy f64 sysTxs bankTxs).1.countP Option.isSome * 2 ^ 1073 :=
    le_trans t1 (Nat.mul_le_mul_right _ hlen)
  have hkj2 : 0 < (greedy f64 sysTxs bankTxs).1.countP Option.isSome →
      k < (greedy f64 sysTxs bankTxs).1.countP Option.isSome * 2 ^ 1073 := by
    intro h0
    by_cases hm0 : 0 < (contribsOf f64 sysTxs (greedy f64 sysTxs bankTxs).1).length
    · exact lt_of_lt_of_le (t2 hm0) (Nat.mul_le_mul_right _ hlen)
    · omega
  have hr1 := greedyReport_matched f64 sysTxs bankTxs
  have hr2 := greedyReport_total sysTxs bankTxs
  have hrec := Reconcile_eq_greedy f64 sysTxs bankTxs
  rw [e] at hr2
  generalize (greedy f64 sysTxs bankTxs).1.countP Option.isSome = j at *
  generalize greedyReport f64 sysTxs bankTxs = r at *
  have hn1 : k * 2 ≤ j * 2 ^ 1074 := by omega
  have hn2 : 0 < j → k * 2 < j * 2 ^ 1074 := by omega
  have hn3 : 0 < 2 ^ 1074 := by omega
  have hcast : (((2 : ℕ) ^ 1074 : ℕ) : ℚ) = (2 : ℚ) ^ 1074 := by
    rw [Nat.cast_pow, Nat.cast_ofNat]
  generalize (2 : ℕ) ^ 1074 = N at hn1 hn2 hn3 hcast
  have hq1 : (k : ℚ) * 2 ≤ (j : ℚ) * (N : ℚ) := by exact_mod_cast hn1
  have hq2 : 0 < j → (k : ℚ) * 2 < (j : ℚ) * (N : ℚ) := by
    intro h0
    exact_mod_cast hn2 h0
  have hq3 : (0 : ℚ) < (N : ℚ) := by exact_mod_cast hn3
  rw [hcast] at hq1 hq2 hq3
  generalize hQ : (2 : ℚ) ^ 1074 = Q at hq1 hq2 hq3
  clear e t1 t2 hkj hkj2 hlen
  refine ⟨r, (k : ℚ) / Q, hrec, ?_, F64.toRat_half, ?_, ?_, ?_, ?_, ?_⟩
  · rw [hr1]
    exact le_min hle (by omega)
  · rw [hr2, F64.toRat_fin, hQ]
  · exact div_nonneg (Nat.cast_nonneg k) (le_of_lt hq3)
  · rw [hr1, div_le_iff₀ hq3]
    linarith
  · intro h0
    rw [hr1] at h0 ⊢
    have := hq2 h0
    rw [div_lt_iff₀ hq3]
    linarith
  · intro h0
    rw [hr1] at h0
    subst h0
    have : k = 0 := by omega
    subst this
    simp

end Banking
